import Mathlib

/-!
Shallow embedding of the ArchFlow layout pipeline
(src/src/services/performanceService.js, src/src/services/exportService.js,
src/unnamed/part_006 = building-codes service) and proofs about it.

Conventions of the embedding:
* JS numbers are embedded as `ℚ` where only ordered-field operations occur,
  and as `ℝ` where `Math.sqrt` is involved; float rounding is not modelled.
* A JS field that may be `undefined` is an `Option`.
* Code that can throw a `TypeError` (e.g. `undefined.forEach`) is embedded in
  `Except String`; a thrown exception is `Except.error`.
* `Math.round x` is `⌊x + 1/2⌋` (JS rounds half toward +∞).
* The digit-level rendering of a JS number into a string (template literals)
  is abstracted by `qToStr`; no theorem below depends on the digits chosen.
-/

namespace ArchFlow

/-- JS `Math.round` on rationals: round half toward +∞. -/
def jroundQ (x : ℚ) : ℤ := ⌊x + 1/2⌋

/-- JS `Math.min` on rationals (kernel-computable form of `min`). -/
def jminQ (a b : ℚ) : ℚ := if a ≤ b then a else b

/-- JS `Math.max` on rationals (kernel-computable form of `max`). -/
def jmaxQ (a b : ℚ) : ℚ := if a ≤ b then b else a

/-- Rendering of a JS number into a string for messages/markup.  The exact
decimal digits JS would print are not modelled; only injectivity-free message
text uses this. -/
def qToStr (q : ℚ) : String :=
  if q.den = 1 then toString q.num else toString q.num ++ "/" ++ toString q.den

/-- Room record (src/src/services, data model §3). -/
structure Room where
  id : String
  name : String
  area : ℚ
  x : ℚ
  y : ℚ
  width : ℚ
  height : ℚ
deriving DecidableEq

/-- CirculationPath record; `from`/`to` are Lean keywords so the fields are
named `from_`/`to_`. -/
structure CirculationPath where
  from_ : String
  to_ : String
  width : ℚ
deriving DecidableEq

/-- LayoutData; each field is `Option` because callers may hand the services
an object with `rooms` or `circulation` absent (`undefined`). -/
structure LayoutData where
  rooms : Option (List Room)
  circulation : Option (List CirculationPath)
deriving DecidableEq

/-- `rooms.find(r => r.id === pid)` -/
def findRoom (rooms : List Room) (pid : String) : Option Room :=
  rooms.find? (fun r => r.id == pid)

/-! ## Building-codes service (src/unnamed/part_006) -/

/-- A `{ minimum, description }` threshold object in `BUILDING_CODES`. -/
structure MinRule where
  minimum : ℚ
  description : Option String := none
deriving DecidableEq

/-- The `accessibility` sub-object of a rule table (IBC).  Numeric fields are
`Option` so that absence is expressible; the JS guards test truthiness of the
numbers, which `jsTruthyNum` models. -/
structure AccessibilityRules where
  doorWidth : Option ℚ := none
  corridorWidth : Option ℚ := none
  turningSpace : Option ℚ := none
deriving DecidableEq

/-- JS truthiness of a possibly-absent number (`undefined`, `0` are falsy). -/
def jsTruthyNum : Option ℚ → Bool
  | none => false
  | some x => x != 0

/-- The `rules` object of one building code.  `roomArea` maps a room type to
its `{ minimum }` (collapsed to the rational minimum).  The trailing fields
exist in the IRC/ADA datasets but are never read by the checker. -/
structure Rules where
  corridorWidth : Option MinRule := none
  exitWidth : Option MinRule := none
  doorWidth : Option MinRule := none
  roomArea : Option (List (String × ℚ)) := none
  accessibility : Option AccessibilityRules := none
  turningSpace : Option MinRule := none
  reachHigh : Option ℚ := none
  reachLow : Option ℚ := none
  bedroomArea : Option MinRule := none
  ceilingHeight : Option MinRule := none
  windowArea : Option MinRule := none
  hallwayWidth : Option MinRule := none
deriving DecidableEq

/-- One entry of `BUILDING_CODES[country]`. -/
structure CodeData where
  name : String
  version : String
  rules : Rules
deriving DecidableEq

def ibcCode : CodeData :=
  { name := "International Building Code"
    version := "2021"
    rules :=
      { corridorWidth := some ⟨44, some "Minimum corridor width for egress"⟩
        exitWidth := some ⟨32, some "Minimum exit door width"⟩
        roomArea := some [("office", 80), ("meeting", 120), ("restroom", 30)]
        accessibility := some { doorWidth := some 32, corridorWidth := some 36, turningSpace := some 60 } } }

def adaCode : CodeData :=
  { name := "Americans with Disabilities Act"
    version := "2010"
    rules :=
      { corridorWidth := some ⟨36, some "Minimum accessible route width"⟩
        doorWidth := some ⟨32, some "Minimum clear width for doorways"⟩
        turningSpace := some ⟨60, some "Wheelchair turning space"⟩
        reachHigh := some 48
        reachLow := some 15 } }

def ircCode : CodeData :=
  { name := "International Residential Code"
    version := "2021"
    rules :=
      { bedroomArea := some ⟨70, none⟩
        ceilingHeight := some ⟨90, none⟩
        windowArea := some ⟨8/100, none⟩
        hallwayWidth := some ⟨36, none⟩ } }

def nbcCode : CodeData :=
  { name := "National Building Code of Canada"
    version := "2020"
    rules :=
      { corridorWidth := some ⟨1100, some "Minimum corridor width"⟩
        exitWidth := some ⟨850, some "Minimum exit width"⟩ } }

/-- `BUILDING_CODES`: country → (code id → table), as ordered association
lists (object-literal order preserved). -/
def BUILDING_CODES : List (String × List (String × CodeData)) :=
  [("US", [("IBC", ibcCode), ("ADA", adaCode), ("IRC", ircCode)]),
   ("CA", [("NBC", nbcCode)])]

/-- Association-list lookup (JS property access on the literal objects). -/
def alookup {α : Type} (l : List (String × α)) (k : String) : Option α :=
  (l.find? (fun p => p.fst == k)).map (fun p => p.snd)

/-- `getApplicableCodes(country, codes)`: filter the requested ids to those
present for the country, keeping request order, pairing each with its data. -/
def getApplicableCodes (country : String) (codes : List String) :
    List (String × CodeData) :=
  match alookup BUILDING_CODES country with
  | none => []
  | some countryData =>
      codes.filterMap (fun k => (alookup countryData k).map (fun cd => (k, cd)))

/-- An Issue record; fields that a given push omits are `none`. -/
structure Issue where
  type : String
  severity : String
  message : String
  code : String
  location : Option String := none
  required : Option ℚ := none
  actual : Option ℚ := none
  unit : Option String := none
deriving DecidableEq

/-- A Warning record (turning-space check). -/
structure Warning where
  type : String
  severity : String
  message : String
  code : String
  location : String
  recommendation : String
deriving DecidableEq

structure Summary where
  totalChecks : ℕ
  passed : ℕ
  failed : ℕ
  warnings : ℕ
deriving DecidableEq

structure ComplianceResult where
  status : String
  issues : List Issue
  warnings : List Warning
  summary : Summary
deriving DecidableEq

instance {e a : Type} [DecidableEq e] [DecidableEq a] : DecidableEq (Except e a) :=
  fun x y =>
    match x, y with
    | Except.error u, Except.error v =>
        if h : u = v then Decidable.isTrue (by rw [h])
        else Decidable.isFalse (fun hh => h (by injection hh))
    | Except.error _, Except.ok _ => Decidable.isFalse (fun hh => Except.noConfusion hh)
    | Except.ok _, Except.error _ => Decidable.isFalse (fun hh => Except.noConfusion hh)
    | Except.ok u, Except.ok v =>
        if h : u = v then Decidable.isTrue (by rw [h])
        else Decidable.isFalse (fun hh => h (by injection hh))

/-- The mutable `results` object threaded through the checks (without the
`status` field, which is only written at the start and end). -/
structure CheckState where
  issues : List Issue
  warnings : List Warning
  summary : Summary
deriving DecidableEq

def emptyState : CheckState := ⟨[], [], ⟨0, 0, 0, 0⟩⟩

/-- The Issue pushed by the corridor-width check. -/
def corridorIssue (codeKey : String) (minW : ℚ) (p : CirculationPath)
    (idx : ℕ) : Issue :=
  { type := "corridor_width"
    severity := "critical"
    message := "Corridor width " ++ qToStr p.width ++ "' (" ++
      qToStr (p.width * 12) ++ "\") is below minimum " ++ qToStr minW ++
      "\" required by " ++ codeKey
    code := codeKey ++ "_CORRIDOR_WIDTH"
    location := some ("Path " ++ toString (idx + 1) ++ ": " ++
      p.from_ ++ " → " ++ p.to_)
    required := some minW
    actual := some (p.width * 12)
    unit := some "inches" }

/-- Corridor-width loop of `runCodeChecks` (`circulation.forEach` with
index). -/
def corridorWidthChecks (codeKey : String) (minW : ℚ) :
    List CirculationPath → ℕ → CheckState → CheckState
  | [], _, st => st
  | p :: rest, idx, st =>
      let st' :=
        if p.width * 12 < minW then
          { st with
            issues := st.issues ++ [corridorIssue codeKey minW p idx]
            summary := { st.summary with
              totalChecks := st.summary.totalChecks + 1
              failed := st.summary.failed + 1 } }
        else
          { st with summary := { st.summary with
              totalChecks := st.summary.totalChecks + 1
              passed := st.summary.passed + 1 } }
      corridorWidthChecks codeKey minW rest (idx + 1) st'

/-- `inferRoomType(roomName)`: ordered substring match on the lower-cased
name. -/
def listIsPrefix : List Char → List Char → Bool
  | [], _ => true
  | _ :: _, [] => false
  | a :: as, b :: bs => a == b && listIsPrefix as bs

def listContainsSub (hay needle : List Char) : Bool :=
  match hay with
  | [] => listIsPrefix needle []
  | _ :: tl => listIsPrefix needle hay || listContainsSub tl needle

/-- JS `string.includes(sub)` (on already-lower-cased data below). -/
def strIncludes (s sub : String) : Bool :=
  listContainsSub s.data sub.data

/-- JS `toLowerCase()` restricted to ASCII (all compared substrings are
ASCII). -/
def jsToLower (s : String) : String := String.mk (s.data.map Char.toLower)

def inferRoomType (roomName : String) : String :=
  let name := jsToLower roomName
  if strIncludes name "office" then "office"
  else if strIncludes name "meeting" || strIncludes name "conference" then "meeting"
  else if strIncludes name "restroom" || strIncludes name "bathroom" then "restroom"
  else if strIncludes name "bedroom" then "bedroom"
  else if strIncludes name "kitchen" then "kitchen"
  else if strIncludes name "living" then "living"
  else "general"

def requiresTurningSpace (roomName : String) : Bool :=
  let name := jsToLower roomName
  strIncludes name "restroom" || strIncludes name "bathroom" ||
    strIncludes name "office" || strIncludes name "meeting" ||
    strIncludes name "conference"

/-- The Issue pushed by the room-area check. -/
def roomAreaIssue (codeKey : String) (minimum : ℚ) (room : Room) : Issue :=
  { type := "room_area"
    severity := "critical"
    message := room.name ++ " area " ++ qToStr room.area ++
      " sq ft is below minimum " ++ qToStr minimum ++
      " sq ft required by " ++ codeKey
    code := codeKey ++ "_ROOM_AREA"
    location := some room.name
    required := some minimum
    actual := some room.area
    unit := some "sq ft" }

/-- Room-area loop of `runCodeChecks`. -/
def roomAreaChecks (codeKey : String) (roomArea : List (String × ℚ)) :
    List Room → CheckState → CheckState
  | [], st => st
  | room :: rest, st =>
      let roomType := inferRoomType room.name
      let st' :=
        match alookup roomArea roomType with
        | none => st
        | some minimum =>
            if room.area < minimum then
              { st with
                issues := st.issues ++ [roomAreaIssue codeKey minimum room]
                summary := { st.summary with
                  totalChecks := st.summary.totalChecks + 1
                  failed := st.summary.failed + 1 } }
            else
              { st with summary := { st.summary with
                  totalChecks := st.summary.totalChecks + 1
                  passed := st.summary.passed + 1 } }
      roomAreaChecks codeKey roomArea rest st'

/-- The Issue pushed by the accessible-route check. -/
def routeIssue (codeKey : String) (minW : ℚ) (p : CirculationPath)
    (idx : ℕ) : Issue :=
  { type := "accessibility_route"
    severity := "critical"
    message := "Accessible route width " ++ qToStr p.width ++
      "' (" ++ qToStr (p.width * 12) ++ "\") is below minimum " ++
      qToStr minW ++ "\" required by " ++ codeKey
    code := codeKey ++ "_ACCESSIBLE_ROUTE"
    location := some ("Path " ++ toString (idx + 1) ++ ": " ++
      p.from_ ++ " → " ++ p.to_)
    required := some minW
    actual := some (p.width * 12)
    unit := some "inches" }

/-- Accessible-route loop of `checkAccessibilityCompliance`. -/
def accessibleRouteChecks (codeKey : String) (minW : ℚ) :
    List CirculationPath → ℕ → CheckState → CheckState
  | [], _, st => st
  | p :: rest, idx, st =>
      let st' :=
        if p.width * 12 < minW then
          { st with
            issues := st.issues ++ [routeIssue codeKey minW p idx]
            summary := { st.summary with
              totalChecks := st.summary.totalChecks + 1
              failed := st.summary.failed + 1 } }
        else
          { st with summary := { st.summary with
              totalChecks := st.summary.totalChecks + 1
              passed := st.summary.passed + 1 } }
      accessibleRouteChecks codeKey minW rest (idx + 1) st'

/-- The Warning pushed by the turning-space check (`minTurningArea` is
`(turningSpace / 12) ^ 2` square feet). -/
def turningWarning (codeKey : String) (turningSpace : ℚ) (room : Room) : Warning :=
  { type := "turning_space"
    severity := "warning"
    message := room.name ++
      " may not have adequate turning space for wheelchairs"
    code := codeKey ++ "_TURNING_SPACE"
    location := room.name
    recommendation := "Ensure " ++ qToStr turningSpace ++
      "\" diameter turning space is available" }

/-- Turning-space loop of `checkAccessibilityCompliance`: failures are
Warnings, not Issues. -/
def turningSpaceChecks (codeKey : String) (turningSpace : ℚ) :
    List Room → CheckState → CheckState
  | [], st => st
  | room :: rest, st =>
      let st' :=
        if room.area < (turningSpace / 12) ^ 2 && requiresTurningSpace room.name then
          { st with
            warnings := st.warnings ++ [turningWarning codeKey turningSpace room]
            summary := { st.summary with
              totalChecks := st.summary.totalChecks + 1
              warnings := st.summary.warnings + 1 } }
        else
          { st with summary := { st.summary with
              totalChecks := st.summary.totalChecks + 1
              passed := st.summary.passed + 1 } }
      turningSpaceChecks codeKey turningSpace rest st'

/-- The `if (accessibilityRules.corridorWidth && circulation)` block of
`checkAccessibilityCompliance` (the rule value is a number, so its JS
truthiness is `≠ 0`). -/
def accessibleRouteStep (l : LayoutData) (codeKey : String)
    (acc : AccessibilityRules) (st : CheckState) : CheckState :=
  match acc.corridorWidth, l.circulation with
  | some cw, some circ =>
      if cw != 0 then accessibleRouteChecks codeKey cw circ 0 st else st
  | _, _ => st

/-- The `if (accessibilityRules.turningSpace && rooms)` block of
`checkAccessibilityCompliance`. -/
def turningStep (l : LayoutData) (codeKey : String)
    (acc : AccessibilityRules) (st : CheckState) : CheckState :=
  match acc.turningSpace, l.rooms with
  | some ts, some rooms =>
      if ts != 0 then turningSpaceChecks codeKey ts rooms st else st
  | _, _ => st

/-- `checkAccessibilityCompliance(layoutData, accessibilityRules, codeKey,
results)`: accessible-route checks followed by turning-space checks. -/
def checkAccessibilityCompliance (l : LayoutData) (acc : AccessibilityRules)
    (codeKey : String) (st : CheckState) : CheckState :=
  turningStep l codeKey acc (accessibleRouteStep l codeKey acc st)

/-- `rules.doorWidth?.minimum || rules.exitWidth?.minimum || 32` with JS
truthiness (`0` falls through). -/
def doorRequiredWidth (rules : Rules) : ℚ :=
  match rules.doorWidth with
  | some dw => if dw.minimum = 0 then
      (match rules.exitWidth with
       | some ew => if ew.minimum = 0 then 32 else ew.minimum
       | none => 32)
    else dw.minimum
  | none =>
      match rules.exitWidth with
      | some ew => if ew.minimum = 0 then 32 else ew.minimum
      | none => 32

/-- The Issue pushed by the door-width check (`doorWidthInches` is
`min (p.width * 12) 36`, the 36-inch door-width cap of the source). -/
def doorIssue (codeKey : String) (requiredWidth : ℚ) (p : CirculationPath)
    (idx : ℕ) : Issue :=
  { type := "door_width"
    severity := "critical"
    message := "Door width " ++ qToStr (jminQ (p.width * 12) 36) ++
      "\" is below minimum " ++ qToStr requiredWidth ++
      "\" required by " ++ codeKey
    code := codeKey ++ "_DOOR_WIDTH"
    location := some ("Door " ++ toString (idx + 1) ++ ": " ++
      p.from_ ++ " → " ++ p.to_)
    required := some requiredWidth
    actual := some (jminQ (p.width * 12) 36)
    unit := some "inches" }

/-- Door-width loop of `checkDoorWidths`. -/
def doorWidthChecks (codeKey : String) (requiredWidth : ℚ) :
    List CirculationPath → ℕ → CheckState → CheckState
  | [], _, st => st
  | p :: rest, idx, st =>
      let st' :=
        if jminQ (p.width * 12) 36 < requiredWidth then
          { st with
            issues := st.issues ++ [doorIssue codeKey requiredWidth p idx]
            summary := { st.summary with
              totalChecks := st.summary.totalChecks + 1
              failed := st.summary.failed + 1 } }
        else
          { st with summary := { st.summary with
              totalChecks := st.summary.totalChecks + 1
              passed := st.summary.passed + 1 } }
      doorWidthChecks codeKey requiredWidth rest (idx + 1) st'

/-- `checkDoorWidths(layoutData, rules, codeKey, results)`: unconditionally
iterates `circulation` — a `TypeError` escapes when the field is absent. -/
def checkDoorWidths (l : LayoutData) (rules : Rules) (codeKey : String)
    (st : CheckState) : Except String CheckState :=
  match l.circulation with
  | none => Except.error "TypeError: Cannot read properties of undefined (reading forEach)"
  | some circ => Except.ok (doorWidthChecks codeKey (doorRequiredWidth rules) circ 0 st)

/-- The `if (rules.corridorWidth && circulation)` block of `runCodeChecks`. -/
def corridorPhase (l : LayoutData) (codeKey : String) (rules : Rules)
    (st : CheckState) : CheckState :=
  match rules.corridorWidth, l.circulation with
  | some cw, some circ => corridorWidthChecks codeKey cw.minimum circ 0 st
  | _, _ => st

/-- The `if (rules.roomArea && rooms)` block of `runCodeChecks`. -/
def roomAreaPhase (l : LayoutData) (codeKey : String) (rules : Rules)
    (st : CheckState) : CheckState :=
  match rules.roomArea, l.rooms with
  | some ra, some rooms => roomAreaChecks codeKey ra rooms st
  | _, _ => st

/-- The `if (rules.accessibility && rooms)` block of `runCodeChecks`. -/
def accessibilityPhase (l : LayoutData) (codeKey : String) (rules : Rules)
    (st : CheckState) : CheckState :=
  match rules.accessibility, l.rooms with
  | some acc, some _ => checkAccessibilityCompliance l acc codeKey st
  | _, _ => st

/-- `runCodeChecks(layoutData, codeData, results)` for one resolved table. -/
def runCodeChecks (l : LayoutData) (codeKey : String) (codeData : CodeData)
    (st : CheckState) : Except String CheckState :=
  let rules := codeData.rules
  let st1 := corridorPhase l codeKey rules st
  let st2 := roomAreaPhase l codeKey rules st1
  let st3 := accessibilityPhase l codeKey rules st2
  if rules.doorWidth.isSome || rules.exitWidth.isSome then
    checkDoorWidths l rules codeKey st3
  else
    Except.ok st3

/-- The `for (const codeData of applicableCodes)` loop. -/
def runAllCodeChecks (l : LayoutData) :
    List (String × CodeData) → CheckState → Except String CheckState
  | [], st => Except.ok st
  | (k, cd) :: rest, st =>
      match runCodeChecks l k cd st with
      | Except.error e => Except.error e
      | Except.ok st' => runAllCodeChecks l rest st'

/-- NormSettings (`codeSettings`); `accessibility` is destructured by the
source but never read. -/
structure NormSettings where
  country : String
  codes : List String
  accessibility : Bool := true
deriving DecidableEq

/-- The configuration Issue pushed on an empty applicable-code list. -/
def configIssue (country : String) : Issue :=
  { type := "configuration"
    severity := "error"
    message := "No building codes found for country: " ++ country
    code := "CONFIG_ERROR" }

/-- `checkCompliance(layoutData, codeSettings)`. -/
def checkCompliance (l : LayoutData) (ns : NormSettings) :
    Except String ComplianceResult :=
  let applicableCodes := getApplicableCodes ns.country ns.codes
  if applicableCodes.length = 0 then
    Except.ok
      { status := "error"
        issues := [configIssue ns.country]
        warnings := []
        summary := ⟨0, 0, 0, 0⟩ }
  else
    match runAllCodeChecks l applicableCodes emptyState with
    | Except.error e => Except.error e
    | Except.ok st =>
        let status :=
          if st.issues.length > 0 then
            if (st.issues.filter (fun i => i.severity == "critical")).length > 0 then
              "non-compliant"
            else "warning"
          else "compliant"
        Except.ok
          { status := status
            issues := st.issues
            warnings := st.warnings
            summary := { st.summary with
              totalChecks := st.summary.passed + st.summary.failed +
                st.summary.warnings } }

/-! ## Performance metrics service (src/src/services/performanceService.js)

`Math.sqrt` appears in `calculateCirculationEfficiency` and
`calculateEnergyEfficiency`, so those two are embedded over `ℝ`; the other
three scores use only field operations and stay in `ℚ`. -/

/-- JS `Math.round` over `ℝ`. -/
noncomputable def jround (x : ℝ) : ℤ := ⌊x + 1/2⌋

structure Bounds where
  minX : ℚ
  maxX : ℚ
  minY : ℚ
  maxY : ℚ
deriving DecidableEq

/-- One step of the bounds `reduce`. -/
def boundsStep (b : Bounds) (room : Room) : Bounds :=
  { minX := min b.minX room.x
    maxX := max b.maxX (room.x + room.width)
    minY := min b.minY room.y
    maxY := max b.maxY (room.y + room.height) }

/-- `calculateBuildingBounds(rooms)` (metrics service): degenerate `0,0,0,0`
box on empty input; otherwise a `reduce` over the whole list seeded from
`rooms[0]`. -/
def calculateBuildingBounds : List Room → Bounds
  | [] => ⟨0, 0, 0, 0⟩
  | r0 :: rest =>
      (r0 :: rest).foldl boundsStep
        ⟨r0.x, r0.x + r0.width, r0.y, r0.y + r0.height⟩

def totalRoomArea (rooms : List Room) : ℚ :=
  rooms.foldl (fun total room => total + room.area) 0

/-- One step of the `circulation.reduce` of
`calculateCirculationEfficiency`: an unresolved endpoint id leaves the
accumulator unchanged. -/
noncomputable def circAreaStep (rooms : List Room) (total : ℝ)
    (path : CirculationPath) : ℝ :=
  match findRoom rooms path.from_, findRoom rooms path.to_ with
  | some fromRoom, some toRoom =>
      total +
        Real.sqrt (((toRoom.x : ℝ) - (fromRoom.x : ℝ)) ^ 2 +
            ((toRoom.y : ℝ) - (fromRoom.y : ℝ)) ^ 2) *
          (path.width : ℝ)
  | _, _ => total

/-- `calculateCirculationEfficiency(layoutData)`. -/
noncomputable def calculateCirculationEfficiency (l : LayoutData) : ℤ :=
  match l.rooms, l.circulation with
  | some rooms, some circulation =>
      if rooms.length = 0 then 0
      else
        let totalCirculationArea : ℝ :=
          circulation.foldl (circAreaStep rooms) 0
        let totalUsableArea : ℝ := (totalRoomArea rooms : ℝ)
        let circulationRatio := totalCirculationArea / totalUsableArea
        jround (max 0 (min 100 (100 - circulationRatio * 50)))
  | _, _ => 0

/-- `calculateDaylightHours(layoutData)`; the `buildingOrientation` argument
of the source is destructured but never read. -/
def calculateDaylightHours (l : LayoutData) : ℚ :=
  match l.rooms with
  | none => 0
  | some rooms =>
      if rooms.length = 0 then 0
      else
        let bounds := calculateBuildingBounds rooms
        let buildingWidth := bounds.maxX - bounds.minX
        let buildingHeight := bounds.maxY - bounds.minY
        let totalDaylightScore :=
          rooms.foldl
            (fun acc room =>
              let distanceFromNorth := room.y - bounds.minY
              let distanceFromSouth := bounds.maxY - (room.y + room.height)
              let distanceFromEast := bounds.maxX - (room.x + room.width)
              let distanceFromWest := room.x - bounds.minX
              let roomDaylightScore :=
                jmaxQ 0 (1 - distanceFromNorth / buildingHeight) * (3/10) +
                jmaxQ 0 (1 - distanceFromSouth / buildingHeight) * 1 +
                jmaxQ 0 (1 - distanceFromEast / buildingWidth) * (7/10) +
                jmaxQ 0 (1 - distanceFromWest / buildingWidth) * (7/10)
              acc + roomDaylightScore * (room.area / 1000))
            0
        let averageScore := totalDaylightScore / (rooms.length : ℚ)
        let daylightHours := jmaxQ 3 (jminQ 12 (averageScore * 8 + 4))
        (jroundQ (daylightHours * 10) : ℚ) / 10

/-- Adjacency predicate of `calculateAdjacencyScore` (shared full edge). -/
def roomsAdjacent (room1 room2 : Room) : Bool :=
  let horizontallyAdjacent :=
    (room1.x + room1.width == room2.x || room2.x + room2.width == room1.x) &&
      !(room1.y + room1.height ≤ room2.y || room2.y + room2.height ≤ room1.y)
  let verticallyAdjacent :=
    (room1.y + room1.height == room2.y || room2.y + room2.height == room1.y) &&
      !(room1.x + room1.width ≤ room2.x || room2.x + room2.width ≤ room1.x)
  horizontallyAdjacent || verticallyAdjacent

/-- Number of unordered pairs `i < j` flagged adjacent by the double loop. -/
def countAdjacentPairs : List Room → ℕ
  | [] => 0
  | room :: rest => (rest.filter (roomsAdjacent room)).length + countAdjacentPairs rest

/-- Number of unordered pairs visited by the double loop. -/
def countAllPairs : List Room → ℕ
  | [] => 0
  | _ :: rest => rest.length + countAllPairs rest

/-- `calculateAdjacencyScore(rooms)`. -/
def calculateAdjacencyScore (rooms : List Room) : ℚ :=
  if countAllPairs rooms > 0 then
    (countAdjacentPairs rooms : ℚ) / (countAllPairs rooms : ℚ)
  else 0

/-- `calculateEnergyEfficiency(layoutData)`. -/
noncomputable def calculateEnergyEfficiency (l : LayoutData) : ℤ :=
  match l.rooms with
  | none => 0
  | some rooms =>
      if rooms.length = 0 then 0
      else
        let bounds := calculateBuildingBounds rooms
        let buildingArea : ℚ :=
          (bounds.maxX - bounds.minX) * (bounds.maxY - bounds.minY)
        let compactness : ℝ := (totalRoomArea rooms : ℝ) / (buildingArea : ℝ)
        let perimeter : ℚ :=
          2 * ((bounds.maxX - bounds.minX) + (bounds.maxY - bounds.minY))
        let perimeterToArea : ℝ := (perimeter : ℝ) / Real.sqrt (buildingArea : ℝ)
        let adjacencyScore := calculateAdjacencyScore rooms
        let compactnessScore : ℝ := min 100 (compactness * 100)
        let perimeterScore : ℝ := max 0 (100 - perimeterToArea * 10)
        let adjacencyEfficiency : ℝ := (adjacencyScore : ℝ) * 20
        jround (compactnessScore * (4/10) + perimeterScore * (3/10) +
          adjacencyEfficiency * (3/10))

/-- `calculateSpaceUtilization(layoutData)`. -/
def calculateSpaceUtilization (l : LayoutData) : ℤ :=
  match l.rooms with
  | none => 0
  | some rooms =>
      if rooms.length = 0 then 0
      else
        let bounds := calculateBuildingBounds rooms
        let totalBuildingArea : ℚ :=
          (bounds.maxX - bounds.minX) * (bounds.maxY - bounds.minY)
        let utilization := totalRoomArea rooms / totalBuildingArea * 100
        jroundQ (jminQ 100 utilization)

/-- `calculateAccessibilityScore(layoutData)` with the default settings
(`minCorridorWidth = 4`); `calculateAllMetrics` passes no accessibility
options. -/
def calculateAccessibilityScore (l : LayoutData) : ℤ :=
  match l.rooms, l.circulation with
  | some rooms, some circulation =>
      let minCorridorWidth : ℚ := 4
      let totalChecks := circulation.length + rooms.length
      let accessibilityIssues :=
        (circulation.filter (fun path => path.width < minCorridorWidth)).length +
          (rooms.filter (fun room =>
            !(circulation.any (fun path =>
              (path.from_ == room.id || path.to_ == room.id) &&
                path.width ≥ minCorridorWidth)))).length
      if totalChecks > 0 then
        jroundQ (((totalChecks : ℚ) - (accessibilityIssues : ℚ)) /
          (totalChecks : ℚ) * 100)
      else 100
  | _, _ => 0

structure Recommendation where
  type : String
  priority : String
  message : String
  impact : String
deriving DecidableEq

structure PerformanceMetrics where
  circulationEfficiency : ℤ
  daylightHours : ℚ
  energyEfficiency : ℤ
  spaceUtilization : ℤ
  accessibilityScore : ℤ
  overallScore : ℤ
  recommendations : List Recommendation
deriving DecidableEq

/-- The threshold-driven list body of `generateRecommendations`, given the
metrics of the recursive `calculateAllMetrics` call. -/
def recommendationList (metrics : PerformanceMetrics) : List Recommendation :=
  (if metrics.circulationEfficiency < 70 then
    [{ type := "circulation", priority := "high"
       message := "Consider reducing circulation paths or optimizing room adjacencies to improve efficiency."
       impact := "Reduces wasted space and improves flow" }]
   else []) ++
  (if metrics.daylightHours < 6 then
    [{ type := "daylight", priority := "medium"
       message := "Position more rooms near exterior walls to increase natural light exposure."
       impact := "Improves occupant wellbeing and reduces lighting costs" }]
   else []) ++
  (if metrics.energyEfficiency < 60 then
    [{ type := "energy", priority := "high"
       message := "Optimize building shape for better energy performance. Consider more compact design."
       impact := "Reduces heating and cooling costs" }]
   else []) ++
  (if metrics.accessibilityScore < 90 then
    [{ type := "accessibility", priority := "critical"
       message := "Ensure all circulation paths meet minimum width requirements for accessibility."
       impact := "Required for code compliance and universal access" }]
   else [])

/- Fuel semantics of the mutually recursive pair
`calculateAllMetrics` / `generateRecommendations`: each source-level call
consumes one unit of fuel, and exhausted fuel (`none`) models the stack
overflow of the unbounded recursion.  `calculateAllMetrics` builds its
record, whose `recommendations` field calls `generateRecommendations`,
which in turn calls `calculateAllMetrics` on the same layout. -/
mutual

noncomputable def calculateAllMetricsFuel :
    ℕ → LayoutData → Option PerformanceMetrics
  | 0, _ => none
  | fuel + 1, l =>
      (generateRecommendationsFuel fuel l).map
        (fun recs =>
          { circulationEfficiency := calculateCirculationEfficiency l
            daylightHours := calculateDaylightHours l
            energyEfficiency := calculateEnergyEfficiency l
            spaceUtilization := calculateSpaceUtilization l
            accessibilityScore := calculateAccessibilityScore l
            overallScore := 0
            recommendations := recs })

noncomputable def generateRecommendationsFuel :
    ℕ → LayoutData → Option (List Recommendation)
  | 0, _ => none
  | fuel + 1, l =>
      (calculateAllMetricsFuel fuel l).map recommendationList

end

/-! ## Export service (src/src/services/exportService.js)

Encoders build strings; `undefined.forEach` is an `Except.error`.  The
wall-clock timestamps (`new Date()...`) are parameters. -/

/-- Sequential string concatenation (the `forEach` `+=` accumulation). -/
def strConcat : List String → String
  | [] => ""
  | s :: rest => s ++ strConcat rest

/-- `calculateBounds(rooms)` (export service): `0,100,0,100` default box for
missing or empty rooms. -/
def exportCalculateBounds : Option (List Room) → Bounds
  | none => ⟨0, 100, 0, 100⟩
  | some [] => ⟨0, 100, 0, 100⟩
  | some (r0 :: rest) =>
      (r0 :: rest).foldl boundsStep
        ⟨r0.x, r0.x + r0.width, r0.y, r0.y + r0.height⟩

/-- `calculateTotalArea(rooms)` (export service). -/
def calculateTotalArea : Option (List Room) → ℚ
  | none => 0
  | some rooms => rooms.foldl (fun total room => total + room.area) 0

/-- Is a path's pair of endpoints resolvable in `rooms`? (the silent-skip
condition of the DXF/SVG circulation loops). -/
def pathResolvable (rooms : List Room) (p : CirculationPath) : Bool :=
  (findRoom rooms p.from_).isSome && (findRoom rooms p.to_).isSome

structure DXFOptions where
  units : String := "feet"
  scale : ℚ := 1
  includeText : Bool := true
  includeDimensions : Bool := false
deriving DecidableEq

def dxfHeader : String :=
  "0\nSECTION\n2\nHEADER\n9\n$ACADVER\n1\nAC1015\n9\n$INSUNITS\n70\n1\n0\nENDSEC\n" ++
  "0\nSECTION\n2\nTABLES\n0\nTABLE\n2\nLAYER\n70\n2\n" ++
  "0\nLAYER\n2\nROOMS\n70\n0\n62\n1\n6\nCONTINUOUS\n" ++
  "0\nLAYER\n2\nCIRCULATION\n70\n0\n62\n2\n6\nCONTINUOUS\n" ++
  "0\nLAYER\n2\nTEXT\n70\n0\n62\n7\n6\nCONTINUOUS\n" ++
  "0\nENDTAB\n0\nENDSEC\n0\nSECTION\n2\nENTITIES\n"

def dxfFooter : String := "0\nENDSEC\n0\nEOF"

/-- The DXF chunk one room contributes (closed 5-vertex polyline plus the
optional TEXT label). -/
def roomDXF (opts : DXFOptions) (room : Room) : String :=
  let x := room.x * opts.scale
  let y := room.y * opts.scale
  let width := room.width * opts.scale
  let height := room.height * opts.scale
  "0\nLWPOLYLINE\n8\nROOMS\n90\n5\n70\n1\n" ++
  "10\n" ++ qToStr x ++ "\n20\n" ++ qToStr y ++ "\n" ++
  "10\n" ++ qToStr (x + width) ++ "\n20\n" ++ qToStr y ++ "\n" ++
  "10\n" ++ qToStr (x + width) ++ "\n20\n" ++ qToStr (y + height) ++ "\n" ++
  "10\n" ++ qToStr x ++ "\n20\n" ++ qToStr (y + height) ++ "\n" ++
  "10\n" ++ qToStr x ++ "\n20\n" ++ qToStr y ++ "\n" ++
  (if opts.includeText then
    "0\nTEXT\n8\nTEXT\n10\n" ++ qToStr (x + width / 2) ++ "\n20\n" ++
    qToStr (y + height / 2) ++ "\n40\n12\n1\n" ++ room.name ++
    "\n50\n0\n7\nSTANDARD\n"
  else "")

/-- The DXF chunk one circulation path contributes: a LINE between endpoint
room centres, or nothing when an endpoint id is unresolved. -/
def pathDXF (opts : DXFOptions) (rooms : List Room) (path : CirculationPath) : String :=
  match findRoom rooms path.from_, findRoom rooms path.to_ with
  | some fromRoom, some toRoom =>
      let x1 := (fromRoom.x + fromRoom.width / 2) * opts.scale
      let y1 := (fromRoom.y + fromRoom.height / 2) * opts.scale
      let x2 := (toRoom.x + toRoom.width / 2) * opts.scale
      let y2 := (toRoom.y + toRoom.height / 2) * opts.scale
      "0\nLINE\n8\nCIRCULATION\n10\n" ++ qToStr x1 ++ "\n20\n" ++ qToStr y1 ++
      "\n11\n" ++ qToStr x2 ++ "\n21\n" ++ qToStr y2 ++ "\n"
  | _, _ => ""

/-- `exportToDXF(layoutData, options)`: `rooms.forEach` and
`circulation.forEach` throw on an absent field. -/
def exportToDXF (l : LayoutData) (opts : DXFOptions) : Except String String :=
  match l.rooms with
  | none => Except.error "TypeError: Cannot read properties of undefined (reading forEach)"
  | some rooms =>
      match l.circulation with
      | none => Except.error "TypeError: Cannot read properties of undefined (reading forEach)"
      | some circulation =>
          Except.ok (dxfHeader ++
            strConcat (rooms.map (roomDXF opts)) ++
            strConcat (circulation.map (pathDXF opts rooms)) ++
            dxfFooter)

structure SVGOptions where
  width : ℚ := 800
  height : ℚ := 600
  scale : ℚ := 1
  includeText : Bool := true
  backgroundColor : String := "#ffffff"
  roomColor : String := "#e5e7eb"
  roomStroke : String := "#374151"
  circulationColor : String := "#3b82f6"
deriving DecidableEq

/-- The `<rect>` (and optional `<text>`) one room contributes to the SVG. -/
def roomSVG (opts : SVGOptions) (room : Room) : String :=
  let x := room.x * opts.scale
  let y := room.y * opts.scale
  let width := room.width * opts.scale
  let height := room.height * opts.scale
  "  <rect x=\"" ++ qToStr x ++ "\" y=\"" ++ qToStr y ++ "\" width=\"" ++
    qToStr width ++ "\" height=\"" ++ qToStr height ++ "\" class=\"room\"/>\n" ++
  (if opts.includeText then
    "  <text x=\"" ++ qToStr (x + width / 2) ++ "\" y=\"" ++
      qToStr (y + height / 2) ++ "\" class=\"room-text\">" ++ room.name ++
      "</text>\n"
  else "")

/-- The `<line>` one circulation path contributes, or nothing when an
endpoint id is unresolved. -/
def pathSVG (opts : SVGOptions) (rooms : List Room) (path : CirculationPath) : String :=
  match findRoom rooms path.from_, findRoom rooms path.to_ with
  | some fromRoom, some toRoom =>
      let x1 := (fromRoom.x + fromRoom.width / 2) * opts.scale
      let y1 := (fromRoom.y + fromRoom.height / 2) * opts.scale
      let x2 := (toRoom.x + toRoom.width / 2) * opts.scale
      let y2 := (toRoom.y + toRoom.height / 2) * opts.scale
      "  <line x1=\"" ++ qToStr x1 ++ "\" y1=\"" ++ qToStr y1 ++
      "\" x2=\"" ++ qToStr x2 ++ "\" y2=\"" ++ qToStr y2 ++
      "\" class=\"circulation\"/>\n"
  | _, _ => ""

def svgPrefix (opts : SVGOptions) (viewBox : String) : String :=
  "<?xml version=\"1.0\" encoding=\"UTF-8\"?>\n<svg width=\"" ++
  qToStr opts.width ++ "\" height=\"" ++ qToStr opts.height ++
  "\" viewBox=\"" ++ viewBox ++ "\" xmlns=\"http://www.w3.org/2000/svg\">\n" ++
  "  <defs>\n    <style>\n      .room \x7b fill: " ++ opts.roomColor ++
  "; stroke: " ++ opts.roomStroke ++ "; stroke-width: 2; \x7d\n" ++
  "      .room-text \x7b font-family: Arial, sans-serif; font-size: 14px; text-anchor: middle; dominant-baseline: middle; \x7d\n" ++
  "      .circulation \x7b stroke: " ++ opts.circulationColor ++
  "; stroke-width: 3; \x7d\n    </style>\n  </defs>\n" ++
  "  <rect width=\"100%\" height=\"100%\" fill=\"" ++ opts.backgroundColor ++
  "\"/>\n"

/-- `exportToSVG(layoutData, options)`. -/
def exportToSVG (l : LayoutData) (opts : SVGOptions) : Except String String :=
  let bounds := exportCalculateBounds l.rooms
  let viewBox :=
    qToStr (bounds.minX * opts.scale) ++ " " ++ qToStr (bounds.minY * opts.scale) ++
    " " ++ qToStr ((bounds.maxX - bounds.minX) * opts.scale) ++ " " ++
    qToStr ((bounds.maxY - bounds.minY) * opts.scale)
  match l.rooms with
  | none => Except.error "TypeError: Cannot read properties of undefined (reading forEach)"
  | some rooms =>
      match l.circulation with
      | none => Except.error "TypeError: Cannot read properties of undefined (reading forEach)"
      | some circulation =>
          Except.ok (svgPrefix opts viewBox ++
            strConcat (rooms.map (roomSVG opts)) ++
            strConcat (circulation.map (pathSVG opts rooms)) ++
            "</svg>")

/-- The `compliance` sub-object a caller may put on `projectInfo`. -/
structure PDFCompliance where
  status : String
  complianceRate : Option ℚ := none
deriving DecidableEq

structure ProjectInfo where
  name : Option String := none
  layoutName : Option String := none
  metrics : Option PerformanceMetrics := none
  compliance : Option PDFCompliance := none
deriving DecidableEq

structure PDFOptions where
  includeMetrics : Bool := true
  includeCompliance : Bool := true
  includeRecommendations : Bool := true
deriving DecidableEq

/-- JS `x || d` on a possibly-absent string (empty string is falsy). -/
def jsOrStr : Option String → String → String
  | none, d => d
  | some s, d => if s = "" then d else s

def pdfMetricsSection (metrics : PerformanceMetrics) : String :=
  "\n    <div class=\"section\">\n        <h3>Performance Metrics</h3>\n        <div class=\"metrics\">\n" ++
  "            <div class=\"metric-card\">\n                <div class=\"metric-value\">" ++
  toString metrics.circulationEfficiency ++
  "%</div>\n                <div class=\"metric-label\">Circulation Efficiency</div>\n            </div>\n" ++
  "            <div class=\"metric-card\">\n                <div class=\"metric-value\">" ++
  qToStr metrics.daylightHours ++
  "h</div>\n                <div class=\"metric-label\">Daylight Hours</div>\n            </div>\n" ++
  "            <div class=\"metric-card\">\n                <div class=\"metric-value\">" ++
  toString metrics.energyEfficiency ++
  "%</div>\n                <div class=\"metric-label\">Energy Efficiency</div>\n            </div>\n" ++
  "        </div>\n    </div>"

def pdfComplianceSection (compliance : PDFCompliance) : String :=
  "\n    <div class=\"section\">\n        <h3>Code Compliance</h3>\n        <p><strong>Status:</strong> " ++
  compliance.status ++
  "</p>\n        <p><strong>Compliance Rate:</strong> " ++
  (match compliance.complianceRate with
   | none => "N/A"
   | some q => if q = 0 then "N/A" else qToStr q) ++
  "%</p>\n    </div>"

/-- `exportToPDF(layoutData, projectInfo, options)`: an HTML report that
embeds the SVG export; throws whenever the SVG export throws.  `dateStr`
stands for `new Date().toLocaleDateString()`. -/
def exportToPDF (l : LayoutData) (pinfo : ProjectInfo) (opts : PDFOptions)
    (dateStr : String) : Except String String :=
  match exportToSVG l { width := 600, height := 400, backgroundColor := "#ffffff" } with
  | Except.error e => Except.error e
  | Except.ok svg =>
      Except.ok (
        "<!DOCTYPE html>\n<html>\n<head>\n    <meta charset=\"UTF-8\">\n    <title>ArchFlow AI - Layout Export</title>\n" ++
        "    <style>\n        body \x7b font-family: Arial, sans-serif; margin: 20px; \x7d\n" ++
        "        .header \x7b text-align: center; margin-bottom: 30px; \x7d\n" ++
        "        .project-info \x7b margin-bottom: 20px; \x7d\n" ++
        "        .layout-container \x7b text-align: center; margin: 20px 0; \x7d\n" ++
        "        .metrics \x7b display: grid; grid-template-columns: repeat(auto-fit, minmax(200px, 1fr)); gap: 15px; margin: 20px 0; \x7d\n" ++
        "        .metric-card \x7b border: 1px solid #ddd; padding: 15px; border-radius: 8px; \x7d\n" ++
        "        .metric-value \x7b font-size: 24px; font-weight: bold; color: #3b82f6; \x7d\n" ++
        "        .metric-label \x7b font-size: 14px; color: #666; \x7d\n" ++
        "        .section \x7b margin: 20px 0; \x7d\n" ++
        "        .section h3 \x7b color: #374151; border-bottom: 2px solid #e5e7eb; padding-bottom: 5px; \x7d\n" ++
        "        @media print \x7b body \x7b margin: 0; \x7d \x7d\n    </style>\n</head>\n<body>\n" ++
        "    <div class=\"header\">\n        <h1>ArchFlow AI Layout Report</h1>\n        <p>Generated on " ++
        dateStr ++ "</p>\n    </div>\n\n    <div class=\"project-info\">\n        <h2>Project Information</h2>\n" ++
        "        <p><strong>Project Name:</strong> " ++ jsOrStr pinfo.name "Untitled Project" ++
        "</p>\n        <p><strong>Layout Name:</strong> " ++ jsOrStr pinfo.layoutName "Layout" ++
        "</p>\n        <p><strong>Total Area:</strong> " ++ qToStr (calculateTotalArea l.rooms) ++
        " sq ft</p>\n        <p><strong>Number of Rooms:</strong> " ++
        toString (match l.rooms with | none => 0 | some rooms => rooms.length) ++
        "</p>\n    </div>\n\n    <div class=\"layout-container\">\n        <h3>Floor Plan</h3>\n        " ++
        svg ++ "\n    </div>\n" ++
        (match pinfo.metrics with
         | some metrics => if opts.includeMetrics then pdfMetricsSection metrics else ""
         | none => "") ++
        (match pinfo.compliance with
         | some compliance => if opts.includeCompliance then pdfComplianceSection compliance else ""
         | none => "") ++
        "\n</body>\n</html>")

/-- `exportRoomScheduleToCSV(rooms)`: `rooms.forEach` throws on an absent
rooms field (the batch exporter passes `layoutData.rooms` directly). -/
def exportRoomScheduleToCSV (rooms : Option (List Room)) : Except String String :=
  match rooms with
  | none => Except.error "TypeError: Cannot read properties of undefined (reading forEach)"
  | some rooms =>
      Except.ok (
        "Room ID,Room Name,Area (sq ft),Width (ft),Height (ft),X Position,Y Position\n" ++
        strConcat (rooms.map (fun room =>
          room.id ++ ",\"" ++ room.name ++ "\"," ++ qToStr room.area ++ "," ++
          qToStr room.width ++ "," ++ qToStr room.height ++ "," ++
          qToStr room.x ++ "," ++ qToStr room.y ++ "\n")))

/-! ### Batch export filenames (`exportMultipleFormats`) -/

def isAsciiAlphanum (c : Char) : Bool :=
  ('a' ≤ c && c ≤ 'z') || ('A' ≤ c && c ≤ 'Z') || ('0' ≤ c && c ≤ '9')

/-- One character of `name.replace(/[^a-zA-Z0-9]/g, '_')`. -/
def sanitizeChar (c : Char) : Char :=
  if isAsciiAlphanum c then c else '_'

/-- `projectInfo.name?.replace(/[^a-zA-Z0-9]/g, '_') || 'layout'`. -/
def sanitizeProjectName : Option String → String
  | none => "layout"
  | some s =>
      let replaced := String.mk (s.data.map sanitizeChar)
      if replaced = "" then "layout" else replaced

/-- File extension chosen by the `switch (format.toLowerCase())` of
`exportMultipleFormats`; `none` is the `default:` throw. -/
def extensionOf (format : String) : Option String :=
  match jsToLower format with
  | "dxf" => some "dxf"
  | "svg" => some "svg"
  | "pdf" => some "html"
  | "json" => some "json"
  | "csv" => some "csv"
  | _ => none

/-- The filename `exportMultipleFormats` attaches to a successful format
(`timestamp` stands for `new Date().toISOString().slice(0, 10)`). -/
def batchFilename (projectName : Option String) (timestamp : String)
    (format : String) : Option String :=
  (extensionOf format).map (fun ext =>
    sanitizeProjectName projectName ++ "_" ++ timestamp ++ "." ++ ext)

/-! ### JSON export (`exportToJSON`) and `JSON.parse`

JSON values are modelled by `Json`; a number is a decimal
`mantissa / 10 ^ places` pair, the fragment of JS numbers that
`JSON.stringify` prints in plain decimal notation.  `jsonStringify` follows
`JSON.stringify(value, null, 2)` (2-space indent, standard string escaping);
`jsonParse` is a whitespace-tolerant parser for the JSON grammar. -/

inductive Json where
  | null : Json
  | bool : Bool → Json
  | num : ℤ → ℕ → Json
  | str : String → Json
  | arr : List Json → Json
  | obj : List (String × Json) → Json

def isWsChar (c : Char) : Bool :=
  c = ' ' || c = '\n' || c = '\t' || c = '\r'

def isDigitCh (c : Char) : Bool := '0' ≤ c && c ≤ '9'

def digitChar (n : ℕ) : Char := Char.ofNat (48 + n)

def digitVal (c : Char) : ℕ := c.toNat - 48

/-- Lower-case hex digit. -/
def hexDigitChar (n : ℕ) : Char :=
  if n < 10 then Char.ofNat (48 + n) else Char.ofNat (87 + n)

def hexDigitVal (c : Char) : Option ℕ :=
  if '0' ≤ c && c ≤ '9' then some (c.toNat - 48)
  else if 'a' ≤ c && c ≤ 'f' then some (c.toNat - 87)
  else if 'A' ≤ c && c ≤ 'F' then some (c.toNat - 55)
  else none

/-- JSON string escaping as `JSON.stringify` performs it. -/
def escapeChar (c : Char) : List Char :=
  if c = '"' then ['\\', '"']
  else if c = '\\' then ['\\', '\\']
  else if c = Char.ofNat 8 then ['\\', 'b']
  else if c = Char.ofNat 9 then ['\\', 't']
  else if c = Char.ofNat 10 then ['\\', 'n']
  else if c = Char.ofNat 12 then ['\\', 'f']
  else if c = Char.ofNat 13 then ['\\', 'r']
  else if c.toNat < 32 then
    ['\\', 'u', '0', '0', hexDigitChar (c.toNat / 16), hexDigitChar (c.toNat % 16)]
  else [c]

def escapeList : List Char → List Char
  | [] => []
  | c :: cs => escapeChar c ++ escapeList cs

def natDigitsAux (n : ℕ) (acc : List Char) : List Char :=
  if h : n < 10 then digitChar n :: acc
  else natDigitsAux (n / 10) (digitChar (n % 10) :: acc)
termination_by n
decreasing_by exact Nat.div_lt_self (by omega) (by omega)

/-- Decimal digits of a natural number, most significant first. -/
def natDigits (n : ℕ) : List Char := natDigitsAux n []

/-- Decimal rendering of the number `m / 10 ^ e`. -/
def numPrint (m : ℤ) (e : ℕ) : List Char :=
  let ds := natDigits m.natAbs
  let padded := List.replicate (e + 1 - ds.length) '0' ++ ds
  (if m < 0 then ['-'] else []) ++
    (if e = 0 then padded
     else padded.take (padded.length - e) ++ '.' :: padded.drop (padded.length - e))

def indentChars (d : ℕ) : List Char := List.replicate (2 * d) ' '

mutual

/-- `JSON.stringify(v, null, 2)` at nesting depth `d`, as characters. -/
def printAt : ℕ → Json → List Char
  | _, Json.null => "null".data
  | _, Json.bool true => "true".data
  | _, Json.bool false => "false".data
  | _, Json.num m e => numPrint m e
  | _, Json.str s => '"' :: (escapeList s.data ++ ['"'])
  | _, Json.arr [] => "[]".data
  | d, Json.arr (v :: vs) =>
      '[' :: ('\n' :: (indentChars (d + 1) ++ printAt (d + 1) v ++
        printItemsAfter (d + 1) vs ++ '\n' :: (indentChars d ++ [']'])))
  | _, Json.obj [] => "\x7b\x7d".data
  | d, Json.obj (kv :: kvs) =>
      '\x7b' :: ('\n' :: (indentChars (d + 1) ++
        ('"' :: (escapeList kv.fst.data ++ '"' :: ':' :: ' ' :: printAt (d + 1) kv.snd)) ++
        printMembersAfter (d + 1) kvs ++ '\n' :: (indentChars d ++ ['\x7d'])))

/-- The `",\n<indent><item>"` chunks after the first array element. -/
def printItemsAfter : ℕ → List Json → List Char
  | _, [] => []
  | d, v :: vs =>
      ',' :: '\n' :: (indentChars d ++ printAt d v) ++ printItemsAfter d vs

/-- The `",\n<indent>\"key\": <value>"` chunks after the first member. -/
def printMembersAfter : ℕ → List (String × Json) → List Char
  | _, [] => []
  | d, kv :: kvs =>
      ',' :: '\n' :: (indentChars d ++
        ('"' :: (escapeList kv.fst.data ++ '"' :: ':' :: ' ' :: printAt d kv.snd))) ++
      printMembersAfter d kvs

end

def jsonStringify (v : Json) : String := String.mk (printAt 0 v)

/-- `exportToJSON(layoutData, metadata)`: the versioned envelope, pretty
printed with 2-space indent; `timestamp` stands for
`new Date().toISOString()`, and the layout and metadata arguments are the
JSON images of the JS values handed in. -/
def exportToJSON (layout metadata : Json) (timestamp : String) : String :=
  jsonStringify (Json.obj
    [("version", Json.str "1.0"),
     ("exportedAt", Json.str timestamp),
     ("metadata", metadata),
     ("layout", layout)])

/-! Parser for the JSON grammar (whitespace-tolerant, fuel-indexed). -/

def skipWs : List Char → List Char
  | [] => []
  | c :: cs => if isWsChar c then skipWs cs else c :: cs

/-- Greedily take the leading digit run. -/
def takeDigits : List Char → List Char × List Char
  | [] => ([], [])
  | c :: cs =>
      if isDigitCh c then
        let p := takeDigits cs
        (c :: p.fst, p.snd)
      else ([], c :: cs)

def digitsValGo : List Char → ℕ → ℕ
  | [], acc => acc
  | c :: cs, acc => digitsValGo cs (acc * 10 + digitVal c)

def digitsValue (ds : List Char) : ℕ := digitsValGo ds 0

/-- Parse a JSON number after an optional leading minus sign. -/
def parseNumBody (neg : Bool) (input : List Char) : Option (Json × List Char) :=
  let p := takeDigits input
  if p.fst = [] then none
  else
    match p.snd with
    | [] => some (Json.num (if neg then -(digitsValue p.fst : ℤ) else (digitsValue p.fst : ℤ)) 0, [])
    | c :: r2 =>
        if c = '.' then
          let q := takeDigits r2
          if q.fst = [] then none
          else
            let mag := digitsValue (p.fst ++ q.fst)
            some (Json.num (if neg then -(mag : ℤ) else (mag : ℤ)) q.fst.length, q.snd)
        else
          some (Json.num (if neg then -(digitsValue p.fst : ℤ) else (digitsValue p.fst : ℤ)) 0, c :: r2)

/-- Parse a JSON number (no exponent forms; `jsonStringify` never emits
them). -/
def parseNum (input : List Char) : Option (Json × List Char) :=
  match input with
  | [] => none
  | c :: rest => if c = '-' then parseNumBody true rest else parseNumBody false (c :: rest)

/-- What a string escape sequence introduced by `e` unescapes to (single
character escapes only). -/
def unescapeOf (e : Char) : Option Char :=
  if e = '"' then some '"'
  else if e = '\\' then some '\\'
  else if e = '/' then some '/'
  else if e = 'b' then some (Char.ofNat 8)
  else if e = 't' then some (Char.ofNat 9)
  else if e = 'n' then some (Char.ofNat 10)
  else if e = 'f' then some (Char.ofNat 12)
  else if e = 'r' then some (Char.ofNat 13)
  else none

/-- The code point of a four-hex-digit escape (`\\uXXXX`). -/
def hex4 (h1 h2 h3 h4 : Char) : Option ℕ :=
  (hexDigitVal h1).bind (fun a =>
    (hexDigitVal h2).bind (fun b =>
      (hexDigitVal h3).bind (fun c2 =>
        (hexDigitVal h4).map (fun d => ((a * 16 + b) * 16 + c2) * 16 + d))))

/-- Parse the body of a JSON string after the opening quote; returns the
unescaped characters and the input after the closing quote (fuel-indexed:
one unit per consumed escape sequence or character, so the input length
always suffices). -/
def parseStrBody : ℕ → List Char → Option (List Char × List Char)
  | 0, _ => none
  | _ + 1, [] => none
  | fuel + 1, c :: rest =>
      if c = '"' then some ([], rest)
      else if c = '\\' then
        match rest with
        | [] => none
        | e :: r =>
            match unescapeOf e with
            | some u => (parseStrBody fuel r).map (fun p => (u :: p.fst, p.snd))
            | none =>
                if e = 'u' then
                  match r with
                  | h1 :: h2 :: h3 :: h4 :: r2 =>
                      (hex4 h1 h2 h3 h4).bind (fun code =>
                        (parseStrBody fuel r2).map (fun p =>
                          (Char.ofNat code :: p.fst, p.snd)))
                  | _ => none
                else none
      else (parseStrBody fuel rest).map (fun p => (c :: p.fst, p.snd))

/-- Drop an expected literal prefix (used for `null`, `true`, `false`). -/
def stripChars : List Char → List Char → Option (List Char)
  | [], l => some l
  | _ :: _, [] => none
  | p :: ps, c :: cs => if c = p then stripChars ps cs else none

mutual

def parseVal : ℕ → List Char → Option (Json × List Char)
  | 0, _ => none
  | fuel + 1, input =>
      match skipWs input with
      | [] => none
      | c :: rest =>
          if c = '"' then
            match parseStrBody (rest.length + 1) rest with
            | some (cs, r) => some (Json.str (String.mk cs), r)
            | none => none
          else if c = '[' then
            match skipWs rest with
            | [] => none
            | c2 :: r2 =>
                if c2 = ']' then some (Json.arr [], r2)
                else
                  match parseVal fuel (c2 :: r2) with
                  | some (v, r) => parseArrTail fuel [v] r
                  | none => none
          else if c = '\x7b' then
            match skipWs rest with
            | [] => none
            | c2 :: r2 =>
                if c2 = '\x7d' then some (Json.obj [], r2)
                else
                  match parseMember fuel (c2 :: r2) with
                  | some (kv, r) => parseObjTail fuel [kv] r
                  | none => none
          else if c = 'n' then
            match stripChars ['u', 'l', 'l'] rest with
            | some r => some (Json.null, r)
            | none => none
          else if c = 't' then
            match stripChars ['r', 'u', 'e'] rest with
            | some r => some (Json.bool true, r)
            | none => none
          else if c = 'f' then
            match stripChars ['a', 'l', 's', 'e'] rest with
            | some r => some (Json.bool false, r)
            | none => none
          else parseNum (c :: rest)

def parseArrTail : ℕ → List Json → List Char → Option (Json × List Char)
  | 0, _, _ => none
  | fuel + 1, acc, input =>
      match skipWs input with
      | [] => none
      | c :: r =>
          if c = ']' then some (Json.arr acc, r)
          else if c = ',' then
            match parseVal fuel r with
            | some (v, r2) => parseArrTail fuel (acc ++ [v]) r2
            | none => none
          else none

def parseObjTail : ℕ → List (String × Json) → List Char → Option (Json × List Char)
  | 0, _, _ => none
  | fuel + 1, acc, input =>
      match skipWs input with
      | [] => none
      | c :: r =>
          if c = '\x7d' then some (Json.obj acc, r)
          else if c = ',' then
            match parseMember fuel r with
            | some (kv, r2) => parseObjTail fuel (acc ++ [kv]) r2
            | none => none
          else none

def parseMember : ℕ → List Char → Option ((String × Json) × List Char)
  | 0, _ => none
  | fuel + 1, input =>
      match skipWs input with
      | [] => none
      | c :: rest =>
          if c = '"' then
            match parseStrBody (rest.length + 1) rest with
            | some (cs, r) =>
                (match skipWs r with
                 | [] => none
                 | c2 :: r2 =>
                     if c2 = ':' then
                       match parseVal fuel r2 with
                       | some (v, r3) => some ((String.mk cs, v), r3)
                       | none => none
                     else none)
            | none => none
          else none

end

/-- `JSON.parse` (on the grammar fragment above): the whole input must be
one JSON value up to trailing whitespace. -/
def jsonParse (s : String) : Option Json :=
  match parseVal (s.length + 1) s.data with
  | some (v, rest) => if skipWs rest = [] then some v else none
  | none => none

/-- Projection of an object field (`parsed.layout`). -/
def getField : Json → String → Option Json
  | Json.obj kvs, k => alookup kvs k
  | _, _ => none

/- Fuel sufficient for `parseVal`/`parseArrTail`/`parseObjTail`/`parseMember`
to consume the printed form of a value (proof-side bookkeeping). -/

mutual

def pfuel : Json → ℕ
  | Json.arr [] => 1
  | Json.arr (v :: vs) => 1 + pfuel v + gfuel vs
  | Json.obj [] => 1
  | Json.obj (kv :: kvs) => 1 + (1 + pfuel kv.snd) + hfuel kvs
  | _ => 1

def gfuel : List Json → ℕ
  | [] => 1
  | v :: vs => 1 + pfuel v + gfuel vs

def hfuel : List (String × Json) → ℕ
  | [] => 1
  | kv :: kvs => 1 + (1 + pfuel kv.snd) + hfuel kvs

end

/-- A run of whitespace characters (proof-side bookkeeping for the
whitespace tolerance of the parser). -/
def WsList (l : List Char) : Prop := ∀ c ∈ l, isWsChar c = true

/-- A tail that cannot extend a number literal: its head, if any, is
neither a digit nor a decimal point (proof-side bookkeeping for the
greedy number parser). -/
def NumStop (rest : List Char) : Prop :=
  ∀ c cs, rest = c :: cs → isDigitCh c = false ∧ c ≠ '.'

/-! ### Spec-side comparison definitions and concrete fixtures -/

/-- Modelled from the spec: the status rule of §4.3 word for word
("non-compliant if any Issue has severity critical; else warning if any
Issue/Warning exists; else compliant"), for comparison against the
implementation's status computation. -/
def claimedStatus (issues : List Issue) (warnings : List Warning) : String :=
  if issues.any (fun i => i.severity == "critical") then "non-compliant"
  else if issues.length > 0 || warnings.length > 0 then "warning"
  else "compliant"

/-- Modelled from the spec: the sanitizer as the claim words it, STRIPPING
(removing) every character outside `[A-Za-z0-9_]`; to be compared with the
code's replace-with-underscore sanitizer. -/
def stripSanitize (s : String) : String :=
  String.mk (s.data.filter (fun c => isAsciiAlphanum c || c = '_'))

/-- Issues of a compliance run, `[]` when it threw. -/
def issuesOf : Except String ComplianceResult → List Issue
  | Except.ok r => r.issues
  | Except.error _ => []

/-- Status of a compliance run, `"thrown"` when it threw. -/
def statusOf : Except String ComplianceResult → String
  | Except.ok r => r.status
  | Except.error _ => "thrown"

def roomHall : Room := ⟨"r1", "Hall", 100, 0, 0, 10, 10⟩

def nsUSADA : NormSettings := ⟨"US", ["ADA"], true⟩

def nsUSIBC : NormSettings := ⟨"US", ["IBC"], true⟩

def nsZZ : NormSettings := ⟨"ZZ", ["IBC"], true⟩

/-- `US`/`IRC`: resolves a rule table that carries no corridor-, door- or
exit-width rules, so no check reads `circulation`. -/
def nsUSIRC : NormSettings := ⟨"US", ["IRC"], true⟩

/-- A layout whose single circulation path has width exactly 3 ft. -/
def width3Layout : LayoutData := ⟨some [], some [⟨"a", "b", 3⟩]⟩

/-- A layout whose single circulation path references a room id ("ghost")
that resolves to no room. -/
def danglingLayout : LayoutData := ⟨some [roomHall], some [⟨"r1", "ghost", 3⟩]⟩

/-- `danglingLayout` with the dangling path removed. -/
def danglingFreeLayout : LayoutData := ⟨some [roomHall], some []⟩

/-- A structurally valid layout with no rooms and no circulation. -/
def emptyLayout : LayoutData := ⟨some [], some []⟩

/-- A well-formed one-room layout (used to instantiate hypotheses). -/
def oneRoomLayout : LayoutData := ⟨some [roomHall], some []⟩

/-- Does `s` end with `suffix`? (executable suffix test on the character
lists). -/
def strEndsWith (s suffix : String) : Bool :=
  listIsPrefix suffix.data.reverse s.data.reverse

/-- The four rule tables of the static `BUILDING_CODES` dataset. -/
def staticTables : List (String × CodeData) :=
  [("IBC", ibcCode), ("ADA", adaCode), ("IRC", ircCode), ("NBC", nbcCode)]

/-- Invariant relating the check state before and after a batch of checks:
issues are preserved, new issues are critical, and the warning list either
did not change or the issue list ended up nonempty (proof-side predicate
used to derive the final status). -/
def RunOk (st st' : CheckState) : Prop :=
  (∀ i ∈ st.issues, i ∈ st'.issues) ∧
  (∀ i ∈ st'.issues, i ∈ st.issues ∨ i.severity = "critical") ∧
  (st'.warnings = st.warnings ∨ st'.issues ≠ [])

/-! ## Theorems -/

/-- C1: the claim says `calculateAllMetrics` / `generateRecommendations` is a
total function.  It is not: `calculateAllMetrics` computes its
`recommendations` field by calling `generateRecommendations`, which
unconditionally calls `calculateAllMetrics` on the same layout, so the pair
recurses forever (a stack overflow in JS).  In the fuel semantics this means
no amount of fuel produces a result, for any input whatsoever. -/
theorem c1_calculateAllMetrics_diverges :
    ∀ (fuel : ℕ) (l : LayoutData),
      calculateAllMetricsFuel fuel l = none ∧
        generateRecommendationsFuel fuel l = none := by
  intro fuel
  induction fuel with
  | zero => intro l; exact ⟨rfl, rfl⟩
  | succ n ih =>
      intro l
      refine ⟨?_, ?_⟩
      · simp [calculateAllMetricsFuel, (ih l).2]
      · simp [generateRecommendationsFuel, (ih l).1]

/-- C9 counterexample: the project-name sanitizer does not STRIP characters
outside `[A-Za-z0-9_]` — it REPLACES each of them with an underscore, so
for the name "a b" the batch filename is "a_b_2025-01-01.svg" and not the
"ab_2025-01-01.svg" the claim's strip-sanitizer would give. -/
theorem c9_strip_counterexample :
    batchFilename (some "a b") "2025-01-01" "svg" = some "a_b_2025-01-01.svg" ∧
    stripSanitize "a b" ++ "_" ++ "2025-01-01" ++ "." ++ "svg" =
      "ab_2025-01-01.svg" ∧
    batchFilename (some "a b") "2025-01-01" "svg" ≠
      some (stripSanitize "a b" ++ "_" ++ "2025-01-01" ++ "." ++ "svg") := by
  decide

/-- C9 amended: each batch-export filename equals
`sanitize(projectName) ++ "_" ++ YYYY-MM-DD ++ "." ++ extension`, where
sanitize REPLACES every character outside `[A-Za-z0-9]` with `_`
(length-preserving, so the sanitized part consists only of alphanumerics and
underscores); a missing or empty project name falls back to "layout". -/
theorem c9_filename_pattern (s ts fmt ext : String)
    (hext : extensionOf fmt = some ext) (hs : s ≠ "") :
    batchFilename (some s) ts fmt =
      some (String.mk (s.data.map sanitizeChar) ++ "_" ++ ts ++ "." ++ ext) ∧
    (∀ c ∈ s.data.map sanitizeChar, isAsciiAlphanum c = true ∨ c = '_') ∧
    (String.mk (s.data.map sanitizeChar)).length = s.length := by
  have hdata : s.data ≠ [] := fun h => hs (String.ext (by rw [h]))
  have hne : String.mk (s.data.map sanitizeChar) ≠ "" := by
    intro h
    have h2 : s.data.map sanitizeChar = [] := by
      have := congrArg String.data h
      simpa using this
    exact hdata (List.map_eq_nil_iff.mp h2)
  have hrepl : sanitizeProjectName (some s) = String.mk (s.data.map sanitizeChar) := by
    unfold sanitizeProjectName
    simp only [if_neg hne]
  refine ⟨?_, ?_, ?_⟩
  · unfold batchFilename
    rw [hext]
    simp [hrepl]
  · intro c hc
    rcases List.mem_map.mp hc with ⟨c0, _, rfl⟩
    by_cases h : isAsciiAlphanum c0 = true
    · left; simp [sanitizeChar, h]
    · right; simp [sanitizeChar, h]
  · simp only [String.length, List.length_map]

/-- C9 witness. -/
theorem c9_filename_pattern_witness :
    batchFilename (some "a b") "2025-01-01" "svg" =
      some (String.mk ("a b".data.map sanitizeChar) ++ "_" ++ "2025-01-01" ++
        "." ++ "svg") ∧
    (∀ c ∈ "a b".data.map sanitizeChar, isAsciiAlphanum c = true ∨ c = '_') ∧
    (String.mk ("a b".data.map sanitizeChar)).length = "a b".length :=
  c9_filename_pattern "a b" "2025-01-01" "svg" "svg" (by decide) (by decide)

/-! ### Throw/no-throw behaviour of the compliance engine -/

lemma checkDoorWidths_ok_of_circ (l : LayoutData) (rules : Rules)
    (k : String) (st : CheckState) (circ : List CirculationPath)
    (hc : l.circulation = some circ) :
    checkDoorWidths l rules k st =
      Except.ok (doorWidthChecks k (doorRequiredWidth rules) circ 0 st) := by
  unfold checkDoorWidths
  rw [hc]

lemma runCodeChecks_ok_of_circ (l : LayoutData) (k : String) (cd : CodeData)
    (st : CheckState) (circ : List CirculationPath)
    (hc : l.circulation = some circ) :
    ∃ st', runCodeChecks l k cd st = Except.ok st' := by
  by_cases hdw : (cd.rules.doorWidth.isSome || cd.rules.exitWidth.isSome) = true
  · exact ⟨_, by
      unfold runCodeChecks
      rw [if_pos hdw]
      exact checkDoorWidths_ok_of_circ l cd.rules k _ circ hc⟩
  · exact ⟨_, by
      unfold runCodeChecks
      rw [if_neg hdw]⟩

lemma runAllCodeChecks_ok_of_circ (l : LayoutData)
    (circ : List CirculationPath) (hc : l.circulation = some circ) :
    ∀ (codes : List (String × CodeData)) (st : CheckState),
      ∃ st', runAllCodeChecks l codes st = Except.ok st' := by
  intro codes
  induction codes with
  | nil => intro st; exact ⟨st, rfl⟩
  | cons kcd rest ih =>
      intro st
      obtain ⟨st1, h1⟩ := runCodeChecks_ok_of_circ l kcd.fst kcd.snd st circ hc
      obtain ⟨st2, h2⟩ := ih st1
      refine ⟨st2, ?_⟩
      unfold runAllCodeChecks
      rw [h1]
      exact h2

lemma checkCompliance_ok_of_circ (l : LayoutData) (ns : NormSettings)
    (circ : List CirculationPath) (hc : l.circulation = some circ) :
    ∃ r, checkCompliance l ns = Except.ok r := by
  obtain ⟨st', h⟩ :=
    runAllCodeChecks_ok_of_circ l circ hc
      (getApplicableCodes ns.country ns.codes) emptyState
  rcases eq_or_ne (getApplicableCodes ns.country ns.codes).length 0 with hlen | hlen
  · exact ⟨_, by simp only [checkCompliance]; rw [if_pos hlen]⟩
  · exact ⟨_, by simp only [checkCompliance]; rw [if_neg hlen, h]⟩

lemma checkCompliance_error_imp_circ_none (l : LayoutData) (ns : NormSettings)
    (e : String) (he : checkCompliance l ns = Except.error e) :
    l.circulation = none := by
  cases hc : l.circulation with
  | none => rfl
  | some circ =>
      obtain ⟨r, hr⟩ := checkCompliance_ok_of_circ l ns circ hc
      rw [hr] at he
      exact absurd he (by simp)

lemma checkCompliance_config_error (l : LayoutData) (ns : NormSettings)
    (hap : getApplicableCodes ns.country ns.codes = []) :
    checkCompliance l ns =
      Except.ok ⟨"error", [configIssue ns.country], [], ⟨0, 0, 0, 0⟩⟩ := by
  unfold checkCompliance
  rw [hap]
  rfl


lemma runCodeChecks_circ_none (l : LayoutData) (k : String) (cd : CodeData)
    (st : CheckState) (hc : l.circulation = none) :
    runCodeChecks l k cd st =
      if (cd.rules.doorWidth.isSome || cd.rules.exitWidth.isSome) = true then
        Except.error "TypeError: Cannot read properties of undefined (reading forEach)"
      else
        Except.ok (accessibilityPhase l k cd.rules
          (roomAreaPhase l k cd.rules (corridorPhase l k cd.rules st))) := by
  simp only [runCodeChecks]
  by_cases h : (cd.rules.doorWidth.isSome || cd.rules.exitWidth.isSome) = true
  · rw [if_pos h, if_pos h]
    unfold checkDoorWidths
    rw [hc]
  · rw [if_neg h, if_neg h]

lemma runAllCodeChecks_circ_none_error (l : LayoutData)
    (hc : l.circulation = none) :
    ∀ (codes : List (String × CodeData)) (st : CheckState),
      (∃ p ∈ codes,
        (p.snd.rules.doorWidth.isSome || p.snd.rules.exitWidth.isSome) = true) →
      runAllCodeChecks l codes st =
        Except.error "TypeError: Cannot read properties of undefined (reading forEach)" := by
  intro codes
  induction codes with
  | nil =>
      intro st hex
      obtain ⟨p, hp, _⟩ := hex
      exact absurd hp (by simp)
  | cons kc rest ih =>
      intro st hex
      obtain ⟨p, hp, hguard⟩ := hex
      obtain ⟨k, cd⟩ := kc
      rw [show runAllCodeChecks l ((k, cd) :: rest) st =
        (match runCodeChecks l k cd st with
         | Except.error e => Except.error e
         | Except.ok st' => runAllCodeChecks l rest st') from rfl]
      rw [runCodeChecks_circ_none l k cd st hc]
      by_cases hg : (cd.rules.doorWidth.isSome || cd.rules.exitWidth.isSome) = true
      · rw [if_pos hg]
      · rw [if_neg hg]
        rcases List.mem_cons.mp hp with h1 | h1
        · subst h1
          exact absurd hguard hg
        · exact ih _ ⟨p, h1, hguard⟩

lemma runAllCodeChecks_circ_none_ok (l : LayoutData)
    (hc : l.circulation = none) :
    ∀ (codes : List (String × CodeData)) (st : CheckState),
      (∀ p ∈ codes,
        (p.snd.rules.doorWidth.isSome || p.snd.rules.exitWidth.isSome) = false) →
      ∃ st', runAllCodeChecks l codes st = Except.ok st' := by
  intro codes
  induction codes with
  | nil =>
      intro st _
      exact ⟨st, rfl⟩
  | cons kc rest ih =>
      intro st hall
      obtain ⟨k, cd⟩ := kc
      rw [show runAllCodeChecks l ((k, cd) :: rest) st =
        (match runCodeChecks l k cd st with
         | Except.error e => Except.error e
         | Except.ok st' => runAllCodeChecks l rest st') from rfl]
      rw [runCodeChecks_circ_none l k cd st hc]
      have hg : ¬ (cd.rules.doorWidth.isSome || cd.rules.exitWidth.isSome) = true := by
        intro h
        have h2 := hall (k, cd) (List.mem_cons_self _ _)
        rw [h] at h2
        exact Bool.noConfusion h2
      rw [if_neg hg]
      exact ih _ (fun p hp => hall p (List.mem_cons_of_mem _ hp))

lemma checkCompliance_circ_none_error (l : LayoutData) (ns : NormSettings)
    (hc : l.circulation = none)
    (hex : ∃ p ∈ getApplicableCodes ns.country ns.codes,
      (p.snd.rules.doorWidth.isSome || p.snd.rules.exitWidth.isSome) = true) :
    checkCompliance l ns =
      Except.error "TypeError: Cannot read properties of undefined (reading forEach)" := by
  simp only [checkCompliance]
  have hne : getApplicableCodes ns.country ns.codes ≠ [] := by
    obtain ⟨p, hp, _⟩ := hex
    exact List.ne_nil_of_mem hp
  rw [if_neg (fun h => hne (List.length_eq_zero.mp h))]
  rw [runAllCodeChecks_circ_none_error l hc _ emptyState hex]

lemma checkCompliance_circ_none_ok (l : LayoutData) (ns : NormSettings)
    (hc : l.circulation = none)
    (hall : ∀ p ∈ getApplicableCodes ns.country ns.codes,
      (p.snd.rules.doorWidth.isSome || p.snd.rules.exitWidth.isSome) = false) :
    ∃ r, checkCompliance l ns = Except.ok r := by
  simp only [checkCompliance]
  by_cases h0 : (getApplicableCodes ns.country ns.codes).length = 0
  · rw [if_pos h0]
    exact ⟨_, rfl⟩
  · rw [if_neg h0]
    obtain ⟨st', hst⟩ := runAllCodeChecks_circ_none_ok l hc _ emptyState hall
    rw [hst]
    exact ⟨_, rfl⟩

/-- C7 counterexample: the claim also says the configuration Issue is "the
only caller-facing failure mode" and that the engine never throws; but on a
layout whose `circulation` field is absent, `checkDoorWidths` calls
`circulation.forEach` unguarded and a TypeError escapes (here under
`US`/`IBC`, whose table carries an `exitWidth` rule). -/
theorem c7_throw_counterexample :
    checkCompliance ⟨some [], none⟩ nsUSIBC =
      Except.error "TypeError: Cannot read properties of undefined (reading forEach)" := by
  rfl

/-- C7 amended: with an unknown country (or no matching codes) the engine
returns immediately, as data, a result of status "error" whose issue list is
exactly one Issue with code CONFIG_ERROR; this is the only failure mode
surfaced as data, and the only exception path is the TypeError thrown when
the layout's circulation field is absent (a successful run exists whenever
circulation is present, and even with circulation absent a configuration
whose resolved rule tables carry no door- or exit-width rules — such as
`US`/`IRC` — still returns a normal result). -/
theorem c7_config_error_result :
    (∀ (l : LayoutData) (ns : NormSettings),
        getApplicableCodes ns.country ns.codes = [] →
        checkCompliance l ns =
          Except.ok ⟨"error", [configIssue ns.country], [], ⟨0, 0, 0, 0⟩⟩ ∧
        (configIssue ns.country).code = "CONFIG_ERROR") ∧
    (∀ (l : LayoutData) (ns : NormSettings) (circ : List CirculationPath),
        l.circulation = some circ → ∃ r, checkCompliance l ns = Except.ok r) ∧
    (∀ (l : LayoutData) (ns : NormSettings) (e : String),
        checkCompliance l ns = Except.error e → l.circulation = none) ∧
    (∀ (l : LayoutData) (ns : NormSettings), l.circulation = none →
        (∀ p ∈ getApplicableCodes ns.country ns.codes,
          (p.snd.rules.doorWidth.isSome || p.snd.rules.exitWidth.isSome) = false) →
        ∃ r, checkCompliance l ns = Except.ok r) ∧
    (getApplicableCodes "US" ["IRC"] ≠ [] ∧
      checkCompliance ⟨some [], none⟩ nsUSIRC =
        Except.ok ⟨"compliant", [], [], ⟨0, 0, 0, 0⟩⟩) := by
  refine ⟨?_, ?_, ?_, ?_, by decide, by with_unfolding_all rfl⟩
  · intro l ns hap
    exact ⟨checkCompliance_config_error l ns hap, rfl⟩
  · intro l ns circ hc
    exact checkCompliance_ok_of_circ l ns circ hc
  · intro l ns e he
    exact checkCompliance_error_imp_circ_none l ns e he
  · intro l ns hc hall
    exact checkCompliance_circ_none_ok l ns hc hall

/-- C7 witness. -/
theorem c7_config_error_result_witness :
    (checkCompliance emptyLayout nsZZ =
      Except.ok ⟨"error", [configIssue "ZZ"], [], ⟨0, 0, 0, 0⟩⟩ ∧
      (configIssue "ZZ").code = "CONFIG_ERROR") ∧
    (∃ r, checkCompliance emptyLayout nsUSADA = Except.ok r) :=
  ⟨c7_config_error_result.1 emptyLayout nsZZ (by decide),
   c7_config_error_result.2.1 emptyLayout nsUSADA [] rfl⟩

/-- C5 counterexample: the claim says every encoder tolerates an absent
rooms/circulation field; but `exportToDXF` calls `rooms.forEach` unguarded
and throws a TypeError when `rooms` is absent. -/
theorem c5_missing_rooms_counterexample :
    exportToDXF ⟨none, some []⟩ ({} : DXFOptions) =
      Except.error "TypeError: Cannot read properties of undefined (reading forEach)" := by
  rfl

/-- C5 amended: only the JSON encoder and parts of the pipeline tolerate
absent fields.  DXF and SVG throw a TypeError when either `rooms` or
`circulation` is absent; PDF (which embeds the SVG) and CSV throw when
`rooms` is absent, CSV tolerating absent circulation; `checkCompliance`
tolerates absent `rooms`, and with absent `circulation` it throws a
TypeError exactly when some resolved rule table carries door- or
exit-width rules (e.g. `US`/`IBC`) and returns a normal result when none
does (e.g. `US`/`IRC`); the JSON export always returns a string. -/
theorem c5_missing_fields_behaviour :
    (∀ (circ : Option (List CirculationPath)) (opts : DXFOptions),
        exportToDXF ⟨none, circ⟩ opts =
          Except.error "TypeError: Cannot read properties of undefined (reading forEach)") ∧
    (∀ (rooms : List Room) (opts : DXFOptions),
        exportToDXF ⟨some rooms, none⟩ opts =
          Except.error "TypeError: Cannot read properties of undefined (reading forEach)") ∧
    (∀ (circ : Option (List CirculationPath)) (opts : SVGOptions),
        exportToSVG ⟨none, circ⟩ opts =
          Except.error "TypeError: Cannot read properties of undefined (reading forEach)") ∧
    (∀ (rooms : List Room) (opts : SVGOptions),
        exportToSVG ⟨some rooms, none⟩ opts =
          Except.error "TypeError: Cannot read properties of undefined (reading forEach)") ∧
    (∀ (circ : Option (List CirculationPath)) (pinfo : ProjectInfo)
        (opts : PDFOptions) (dateStr : String),
        exportToPDF ⟨none, circ⟩ pinfo opts dateStr =
          Except.error "TypeError: Cannot read properties of undefined (reading forEach)") ∧
    (exportRoomScheduleToCSV none =
       Except.error "TypeError: Cannot read properties of undefined (reading forEach)" ∧
     ∀ (rooms : List Room), ∃ s, exportRoomScheduleToCSV (some rooms) = Except.ok s) ∧
    (∀ (rooms : Option (List Room)) (ns : NormSettings)
        (circ : List CirculationPath),
        ∃ r, checkCompliance ⟨rooms, some circ⟩ ns = Except.ok r) ∧
    (checkCompliance ⟨some [], none⟩ nsUSIBC =
      Except.error "TypeError: Cannot read properties of undefined (reading forEach)") ∧
    (∀ (layout metadata : Json) (ts : String),
        exportToJSON layout metadata ts ≠ "") ∧
    (∀ (l : LayoutData) (ns : NormSettings), l.circulation = none →
        ((∃ p ∈ getApplicableCodes ns.country ns.codes,
            (p.snd.rules.doorWidth.isSome || p.snd.rules.exitWidth.isSome) = true) →
          checkCompliance l ns =
            Except.error "TypeError: Cannot read properties of undefined (reading forEach)") ∧
        ((∀ p ∈ getApplicableCodes ns.country ns.codes,
            (p.snd.rules.doorWidth.isSome || p.snd.rules.exitWidth.isSome) = false) →
          ∃ r, checkCompliance l ns = Except.ok r)) ∧
    (getApplicableCodes "US" ["IRC"] ≠ [] ∧
      checkCompliance ⟨some [], none⟩ nsUSIRC =
        Except.ok ⟨"compliant", [], [], ⟨0, 0, 0, 0⟩⟩) := by
  refine ⟨fun circ opts => rfl, fun rooms opts => rfl, fun circ opts => rfl,
    fun rooms opts => rfl, fun circ pinfo opts dateStr => rfl,
    ⟨rfl, fun rooms => ⟨_, rfl⟩⟩, ?_, rfl, ?_,
    fun l ns hc => ⟨checkCompliance_circ_none_error l ns hc,
      checkCompliance_circ_none_ok l ns hc⟩,
    by decide, by with_unfolding_all rfl⟩
  · intro rooms ns circ
    exact checkCompliance_ok_of_circ ⟨rooms, some circ⟩ ns circ rfl
  · intro layout metadata ts h
    have h2 : (exportToJSON layout metadata ts).data.head? = some '\x7b' := rfl
    rw [h] at h2
    exact absurd h2 (by decide)

/-- C5 witness. -/
theorem c5_missing_fields_behaviour_witness :
    exportToDXF ⟨none, some []⟩ ({} : DXFOptions) =
      Except.error "TypeError: Cannot read properties of undefined (reading forEach)" ∧
    (∃ r, checkCompliance ⟨none, some []⟩ nsUSIBC = Except.ok r) :=
  ⟨c5_missing_fields_behaviour.1 (some []) {},
   c5_missing_fields_behaviour.2.2.2.2.2.2.1 none nsUSIBC []⟩

/-! ### Structure of the check phases -/

lemma corridorWidthChecks_warnings (k : String) (m : ℚ) :
    ∀ (ps : List CirculationPath) (idx : ℕ) (st : CheckState),
      (corridorWidthChecks k m ps idx st).warnings = st.warnings := by
  intro ps
  induction ps with
  | nil => intro idx st; rfl
  | cons p rest ih =>
      intro idx st
      simp only [corridorWidthChecks]
      split
      · rw [ih]
      · rw [ih]

lemma corridorWidthChecks_mono (k : String) (m : ℚ) :
    ∀ (ps : List CirculationPath) (idx : ℕ) (st : CheckState),
      ∀ i ∈ st.issues, i ∈ (corridorWidthChecks k m ps idx st).issues := by
  intro ps
  induction ps with
  | nil => intro idx st i hi; exact hi
  | cons p rest ih =>
      intro idx st i hi
      simp only [corridorWidthChecks]
      split
      · exact ih (idx + 1) _ i (List.mem_append_left _ hi)
      · exact ih (idx + 1) _ i hi

lemma corridorWidthChecks_origin (k : String) (m : ℚ) :
    ∀ (ps : List CirculationPath) (idx : ℕ) (st : CheckState),
      ∀ i ∈ (corridorWidthChecks k m ps idx st).issues,
        i ∈ st.issues ∨ (i.severity = "critical" ∧ i.code = k ++ "_CORRIDOR_WIDTH") := by
  intro ps
  induction ps with
  | nil => intro idx st i hi; exact Or.inl hi
  | cons p rest ih =>
      intro idx st i hi
      simp only [corridorWidthChecks] at hi
      by_cases hw : p.width * 12 < m
      · rw [if_pos hw] at hi
        rcases ih (idx + 1) _ i hi with hmem | hcrit
        · rcases List.mem_append.mp hmem with h | h
          · exact Or.inl h
          · right
            rcases List.mem_singleton.mp h with rfl
            exact ⟨rfl, rfl⟩
        · exact Or.inr hcrit
      · rw [if_neg hw] at hi
        have h2 := ih (idx + 1) _ i hi
        exact h2

lemma corridorWidthChecks_pushes (k : String) (m : ℚ) :
    ∀ (ps : List CirculationPath) (idx : ℕ) (st : CheckState)
      (p : CirculationPath), p ∈ ps → p.width * 12 < m →
      ∃ i ∈ (corridorWidthChecks k m ps idx st).issues,
        i.severity = "critical" ∧ i.code = k ++ "_CORRIDOR_WIDTH" := by
  intro ps
  induction ps with
  | nil => intro idx st p hp; exact absurd hp (List.not_mem_nil p)
  | cons p0 rest ih =>
      intro idx st p hp hw
      rcases List.mem_cons.mp hp with rfl | hp
      · simp only [corridorWidthChecks]
        rw [if_pos hw]
        exact ⟨corridorIssue k m p idx,
          corridorWidthChecks_mono k m rest (idx + 1) _ _
            (List.mem_append_right _ (List.mem_singleton_self _)),
          rfl, rfl⟩
      · simp only [corridorWidthChecks]
        split
        · exact ih (idx + 1) _ p hp hw
        · exact ih (idx + 1) _ p hp hw

lemma accessibleRouteChecks_warnings (k : String) (m : ℚ) :
    ∀ (ps : List CirculationPath) (idx : ℕ) (st : CheckState),
      (accessibleRouteChecks k m ps idx st).warnings = st.warnings := by
  intro ps
  induction ps with
  | nil => intro idx st; rfl
  | cons p rest ih =>
      intro idx st
      simp only [accessibleRouteChecks]
      split
      · rw [ih]
      · rw [ih]

lemma accessibleRouteChecks_mono (k : String) (m : ℚ) :
    ∀ (ps : List CirculationPath) (idx : ℕ) (st : CheckState),
      ∀ i ∈ st.issues, i ∈ (accessibleRouteChecks k m ps idx st).issues := by
  intro ps
  induction ps with
  | nil => intro idx st i hi; exact hi
  | cons p rest ih =>
      intro idx st i hi
      simp only [accessibleRouteChecks]
      split
      · exact ih (idx + 1) _ i (List.mem_append_left _ hi)
      · exact ih (idx + 1) _ i hi

lemma accessibleRouteChecks_origin (k : String) (m : ℚ) :
    ∀ (ps : List CirculationPath) (idx : ℕ) (st : CheckState),
      ∀ i ∈ (accessibleRouteChecks k m ps idx st).issues,
        i ∈ st.issues ∨ (i.severity = "critical" ∧ i.code = k ++ "_ACCESSIBLE_ROUTE") := by
  intro ps
  induction ps with
  | nil => intro idx st i hi; exact Or.inl hi
  | cons p rest ih =>
      intro idx st i hi
      simp only [accessibleRouteChecks] at hi
      by_cases hw : p.width * 12 < m
      · rw [if_pos hw] at hi
        rcases ih (idx + 1) _ i hi with hmem | hcrit
        · rcases List.mem_append.mp hmem with h | h
          · exact Or.inl h
          · right
            rcases List.mem_singleton.mp h with rfl
            exact ⟨rfl, rfl⟩
        · exact Or.inr hcrit
      · rw [if_neg hw] at hi
        have h2 := ih (idx + 1) _ i hi
        exact h2

lemma doorWidthChecks_warnings (k : String) (rq : ℚ) :
    ∀ (ps : List CirculationPath) (idx : ℕ) (st : CheckState),
      (doorWidthChecks k rq ps idx st).warnings = st.warnings := by
  intro ps
  induction ps with
  | nil => intro idx st; rfl
  | cons p rest ih =>
      intro idx st
      simp only [doorWidthChecks]
      split
      · rw [ih]
      · rw [ih]

lemma doorWidthChecks_mono (k : String) (rq : ℚ) :
    ∀ (ps : List CirculationPath) (idx : ℕ) (st : CheckState),
      ∀ i ∈ st.issues, i ∈ (doorWidthChecks k rq ps idx st).issues := by
  intro ps
  induction ps with
  | nil => intro idx st i hi; exact hi
  | cons p rest ih =>
      intro idx st i hi
      simp only [doorWidthChecks]
      split
      · exact ih (idx + 1) _ i (List.mem_append_left _ hi)
      · exact ih (idx + 1) _ i hi

lemma doorWidthChecks_origin (k : String) (rq : ℚ) :
    ∀ (ps : List CirculationPath) (idx : ℕ) (st : CheckState),
      ∀ i ∈ (doorWidthChecks k rq ps idx st).issues,
        i ∈ st.issues ∨ (i.severity = "critical" ∧ i.code = k ++ "_DOOR_WIDTH") := by
  intro ps
  induction ps with
  | nil => intro idx st i hi; exact Or.inl hi
  | cons p rest ih =>
      intro idx st i hi
      simp only [doorWidthChecks] at hi
      by_cases hw : jminQ (p.width * 12) 36 < rq
      · rw [if_pos hw] at hi
        rcases ih (idx + 1) _ i hi with hmem | hcrit
        · rcases List.mem_append.mp hmem with h | h
          · exact Or.inl h
          · right
            rcases List.mem_singleton.mp h with rfl
            exact ⟨rfl, rfl⟩
        · exact Or.inr hcrit
      · rw [if_neg hw] at hi
        have h2 := ih (idx + 1) _ i hi
        exact h2

lemma roomAreaChecks_warnings (k : String) (ra : List (String × ℚ)) :
    ∀ (rooms : List Room) (st : CheckState),
      (roomAreaChecks k ra rooms st).warnings = st.warnings := by
  intro rooms
  induction rooms with
  | nil => intro st; rfl
  | cons room0 rest ih =>
      intro st
      cases halk : alookup ra (inferRoomType room0.name) with
      | none => simp only [roomAreaChecks, halk]; rw [ih]
      | some mn0 =>
          simp only [roomAreaChecks, halk]
          split
          · rw [ih]
          · rw [ih]

lemma roomAreaChecks_mono (k : String) (ra : List (String × ℚ)) :
    ∀ (rooms : List Room) (st : CheckState),
      ∀ i ∈ st.issues, i ∈ (roomAreaChecks k ra rooms st).issues := by
  intro rooms
  induction rooms with
  | nil => intro st i hi; exact hi
  | cons room0 rest ih =>
      intro st i hi
      cases halk : alookup ra (inferRoomType room0.name) with
      | none => simp only [roomAreaChecks, halk]; exact ih _ i hi
      | some mn0 =>
          simp only [roomAreaChecks, halk]
          split
          · exact ih _ i (List.mem_append_left _ hi)
          · exact ih _ i hi

lemma roomAreaChecks_origin (k : String) (ra : List (String × ℚ)) :
    ∀ (rooms : List Room) (st : CheckState),
      ∀ i ∈ (roomAreaChecks k ra rooms st).issues,
        i ∈ st.issues ∨ (i.severity = "critical" ∧ i.code = k ++ "_ROOM_AREA") := by
  intro rooms
  induction rooms with
  | nil => intro st i hi; exact Or.inl hi
  | cons room0 rest ih =>
      intro st i hi
      cases halk : alookup ra (inferRoomType room0.name) with
      | none =>
          simp only [roomAreaChecks, halk] at hi
          exact ih _ i hi
      | some mn0 =>
          simp only [roomAreaChecks, halk] at hi
          by_cases harea : room0.area < mn0
          · rw [if_pos harea] at hi
            rcases ih _ i hi with hmem | hcrit
            · rcases List.mem_append.mp hmem with h | h
              · exact Or.inl h
              · right
                rcases List.mem_singleton.mp h with rfl
                exact ⟨rfl, rfl⟩
            · exact Or.inr hcrit
          · rw [if_neg harea] at hi
            have h2 := ih _ i hi
            exact h2

lemma roomAreaChecks_pushes (k : String) (ra : List (String × ℚ)) :
    ∀ (rooms : List Room) (st : CheckState) (room : Room) (mn : ℚ),
      room ∈ rooms → alookup ra (inferRoomType room.name) = some mn →
      room.area < mn →
      ∃ i ∈ (roomAreaChecks k ra rooms st).issues,
        i.severity = "critical" ∧ i.code = k ++ "_ROOM_AREA" := by
  intro rooms
  induction rooms with
  | nil => intro st room mn hmem; exact absurd hmem (List.not_mem_nil room)
  | cons room0 rest ih =>
      intro st room mn hmem hlk harea
      rcases List.mem_cons.mp hmem with rfl | hmem
      · simp only [roomAreaChecks, hlk]
        rw [if_pos harea]
        exact ⟨roomAreaIssue k mn room,
          roomAreaChecks_mono k ra rest _ _
            (List.mem_append_right _ (List.mem_singleton_self _)),
          rfl, rfl⟩
      · cases halk : alookup ra (inferRoomType room0.name) with
        | none =>
            simp only [roomAreaChecks, halk]
            exact ih _ room mn hmem hlk harea
        | some mn0 =>
            simp only [roomAreaChecks, halk]
            split
            · exact ih _ room mn hmem hlk harea
            · exact ih _ room mn hmem hlk harea

lemma turningSpaceChecks_issues (k : String) (ts : ℚ) :
    ∀ (rooms : List Room) (st : CheckState),
      (turningSpaceChecks k ts rooms st).issues = st.issues := by
  intro rooms
  induction rooms with
  | nil => intro st; rfl
  | cons room0 rest ih =>
      intro st
      simp only [turningSpaceChecks]
      split
      · rw [ih]
      · rw [ih]

lemma turningSpaceChecks_warning_source (k : String) (ts : ℚ) :
    ∀ (rooms : List Room) (st : CheckState),
      (turningSpaceChecks k ts rooms st).warnings ≠ st.warnings →
      ∃ room ∈ rooms, room.area < (ts / 12) ^ 2 ∧
        requiresTurningSpace room.name = true := by
  intro rooms
  induction rooms with
  | nil => intro st h; exact absurd rfl h
  | cons room0 rest ih =>
      intro st h
      by_cases hcond : (room0.area < (ts / 12) ^ 2 ∧ requiresTurningSpace room0.name = true)
      · exact ⟨room0, List.mem_cons_self room0 rest, hcond.1, hcond.2⟩
      · simp only [turningSpaceChecks] at h
        rw [if_neg (by simpa [Bool.and_eq_true, decide_eq_true_iff] using hcond)] at h
        obtain ⟨room, hmem, hc⟩ := ih _ h
        exact ⟨room, List.mem_cons_of_mem room0 hmem, hc⟩

/-! ### Room-type inference and the static tables -/

/-- Every room name that requires turning space infers to one of the three
room types carried by the IBC room-area table (first-match-wins order). -/
lemma infer_of_rts (name : String) (h : requiresTurningSpace name = true) :
    inferRoomType name = "office" ∨ inferRoomType name = "meeting" ∨
      inferRoomType name = "restroom" := by
  simp only [requiresTurningSpace] at h
  by_cases h1 : strIncludes (jsToLower name) "office" = true
  · left; simp [inferRoomType, h1]
  · by_cases h2 : strIncludes (jsToLower name) "meeting" = true
    · right; left; simp [inferRoomType, h1, h2]
    · by_cases h3 : strIncludes (jsToLower name) "conference" = true
      · right; left; simp [inferRoomType, h1, h2, h3]
      · by_cases h4 : strIncludes (jsToLower name) "restroom" = true
        · right; right; simp [inferRoomType, h1, h2, h3, h4]
        · by_cases h5 : strIncludes (jsToLower name) "bathroom" = true
          · right; right; simp [inferRoomType, h1, h2, h3, h4, h5]
          · exfalso
            simp [h1, h2, h3, h4, h5] at h

/-- For any room type produced by `infer_of_rts`, the IBC room-area table
has a minimum of at least 25 sq ft (office 80, meeting 120, restroom 30). -/
lemma ibc_roomArea_lookup (name : String)
    (h : requiresTurningSpace name = true) :
    ∃ mn, alookup [("office", (80 : ℚ)), ("meeting", 120), ("restroom", 30)]
        (inferRoomType name) = some mn ∧ (25 : ℚ) ≤ mn := by
  rcases infer_of_rts name h with h3 | h3 | h3 <;> rw [h3]
  · exact ⟨80, by decide, by norm_num⟩
  · exact ⟨120, by decide, by norm_num⟩
  · exact ⟨30, by decide, by norm_num⟩

/-! ### Phase-level invariants -/

lemma corridorPhase_warnings (l : LayoutData) (k : String) (rules : Rules)
    (st : CheckState) : (corridorPhase l k rules st).warnings = st.warnings := by
  cases hcw : rules.corridorWidth <;> cases hc : l.circulation <;>
    simp [corridorPhase, hcw, hc, corridorWidthChecks_warnings]

lemma corridorPhase_mono (l : LayoutData) (k : String) (rules : Rules)
    (st : CheckState) :
    ∀ i ∈ st.issues, i ∈ (corridorPhase l k rules st).issues := by
  intro i hi
  cases hcw : rules.corridorWidth <;> cases hc : l.circulation <;>
    simp only [corridorPhase, hcw, hc] <;>
    first
      | exact hi
      | exact corridorWidthChecks_mono _ _ _ _ _ i hi

lemma corridorPhase_origin (l : LayoutData) (k : String) (rules : Rules)
    (st : CheckState) :
    ∀ i ∈ (corridorPhase l k rules st).issues,
      i ∈ st.issues ∨ i.severity = "critical" := by
  intro i hi
  cases hcw : rules.corridorWidth <;> cases hc : l.circulation <;>
    simp only [corridorPhase, hcw, hc] at hi <;>
    first
      | exact Or.inl hi
      | rcases corridorWidthChecks_origin _ _ _ _ _ i hi with h | h
  · exact Or.inl h
  · exact Or.inr h.1

lemma roomAreaPhase_warnings (l : LayoutData) (k : String) (rules : Rules)
    (st : CheckState) : (roomAreaPhase l k rules st).warnings = st.warnings := by
  cases hra : rules.roomArea <;> cases hr : l.rooms <;>
    simp [roomAreaPhase, hra, hr, roomAreaChecks_warnings]

lemma roomAreaPhase_mono (l : LayoutData) (k : String) (rules : Rules)
    (st : CheckState) :
    ∀ i ∈ st.issues, i ∈ (roomAreaPhase l k rules st).issues := by
  intro i hi
  cases hra : rules.roomArea <;> cases hr : l.rooms <;>
    simp only [roomAreaPhase, hra, hr] <;>
    first
      | exact hi
      | exact roomAreaChecks_mono _ _ _ _ i hi

lemma roomAreaPhase_origin (l : LayoutData) (k : String) (rules : Rules)
    (st : CheckState) :
    ∀ i ∈ (roomAreaPhase l k rules st).issues,
      i ∈ st.issues ∨ i.severity = "critical" := by
  intro i hi
  cases hra : rules.roomArea <;> cases hr : l.rooms <;>
    simp only [roomAreaPhase, hra, hr] at hi <;>
    first
      | exact Or.inl hi
      | rcases roomAreaChecks_origin _ _ _ _ i hi with h | h
  · exact Or.inl h
  · exact Or.inr h.1

lemma accessibleRouteStep_warnings (l : LayoutData) (k : String)
    (acc : AccessibilityRules) (st : CheckState) :
    (accessibleRouteStep l k acc st).warnings = st.warnings := by
  cases hcw : acc.corridorWidth <;> cases hc : l.circulation <;>
    simp only [accessibleRouteStep, hcw, hc] <;>
    first
      | rfl
      | split <;> simp [accessibleRouteChecks_warnings]

lemma accessibleRouteStep_mono (l : LayoutData) (k : String)
    (acc : AccessibilityRules) (st : CheckState) :
    ∀ i ∈ st.issues, i ∈ (accessibleRouteStep l k acc st).issues := by
  intro i hi
  cases hcw : acc.corridorWidth <;> cases hc : l.circulation <;>
    simp only [accessibleRouteStep, hcw, hc] <;>
    first
      | exact hi
      | split <;> first
          | exact hi
          | exact accessibleRouteChecks_mono _ _ _ _ _ i hi

lemma accessibleRouteStep_origin (l : LayoutData) (k : String)
    (acc : AccessibilityRules) (st : CheckState) :
    ∀ i ∈ (accessibleRouteStep l k acc st).issues,
      i ∈ st.issues ∨ i.severity = "critical" := by
  intro i hi
  cases hcw : acc.corridorWidth with
  | none =>
      cases hc : l.circulation <;> simp only [accessibleRouteStep, hcw, hc] at hi <;>
        exact Or.inl hi
  | some cw =>
      cases hc : l.circulation with
      | none =>
          simp only [accessibleRouteStep, hcw, hc] at hi
          exact Or.inl hi
      | some circ =>
          simp only [accessibleRouteStep, hcw, hc] at hi
          split at hi
          · rcases accessibleRouteChecks_origin _ _ _ _ _ i hi with h | h
            · exact Or.inl h
            · exact Or.inr h.1
          · exact Or.inl hi

lemma turningStep_issues (l : LayoutData) (k : String)
    (acc : AccessibilityRules) (st : CheckState) :
    (turningStep l k acc st).issues = st.issues := by
  cases hts : acc.turningSpace <;> cases hr : l.rooms <;>
    simp only [turningStep, hts, hr] <;>
    first
      | rfl
      | split <;> simp [turningSpaceChecks_issues]

lemma turningStep_warning_source (l : LayoutData) (k : String)
    (acc : AccessibilityRules) (st : CheckState)
    (h : (turningStep l k acc st).warnings ≠ st.warnings) :
    ∃ ts, acc.turningSpace = some ts ∧ ∃ rooms, l.rooms = some rooms ∧
      ∃ room ∈ rooms, room.area < (ts / 12) ^ 2 ∧
        requiresTurningSpace room.name = true := by
  cases hts : acc.turningSpace with
  | none =>
      cases hr : l.rooms <;> simp only [turningStep, hts, hr] at h <;>
        exact absurd rfl h
  | some ts =>
      cases hr : l.rooms with
      | none =>
          simp only [turningStep, hts, hr] at h
          exact absurd rfl h
      | some rooms =>
          simp only [turningStep, hts, hr] at h
          by_cases htz : (ts != 0) = true
          · rw [if_pos htz] at h
            obtain ⟨room, hmem, hc⟩ := turningSpaceChecks_warning_source k ts rooms st h
            exact ⟨ts, rfl, rooms, rfl, room, hmem, hc⟩
          · rw [if_neg htz] at h
            exact absurd rfl h

lemma accessibilityPhase_warnings_or (l : LayoutData) (k : String)
    (rules : Rules) (st : CheckState)
    (h : (accessibilityPhase l k rules st).warnings ≠ st.warnings) :
    ∃ acc, rules.accessibility = some acc ∧ ∃ ts, acc.turningSpace = some ts ∧
      ∃ rooms, l.rooms = some rooms ∧ ∃ room ∈ rooms,
        room.area < (ts / 12) ^ 2 ∧ requiresTurningSpace room.name = true := by
  cases hacc : rules.accessibility with
  | none =>
      cases hr : l.rooms <;> simp only [accessibilityPhase, hacc, hr] at h <;>
        exact absurd rfl h
  | some acc =>
      cases hr : l.rooms with
      | none =>
          simp only [accessibilityPhase, hacc, hr] at h
          exact absurd rfl h
      | some rooms =>
          simp only [accessibilityPhase, hacc, hr] at h
          have h2 : (checkAccessibilityCompliance l acc k st).warnings ≠ st.warnings := h
          rw [checkAccessibilityCompliance] at h2
          by_cases h3 : (turningStep l k acc (accessibleRouteStep l k acc st)).warnings =
              (accessibleRouteStep l k acc st).warnings
          · rw [h3, accessibleRouteStep_warnings] at h2
            exact absurd rfl h2
          · obtain ⟨ts, hts, rooms2, hr2, room, hmem, hc⟩ :=
              turningStep_warning_source l k acc _ h3
            exact ⟨acc, rfl, ts, hts, rooms2, hr.symm.trans hr2, room, hmem, hc⟩

lemma accessibilityPhase_mono (l : LayoutData) (k : String) (rules : Rules)
    (st : CheckState) :
    ∀ i ∈ st.issues, i ∈ (accessibilityPhase l k rules st).issues := by
  intro i hi
  cases hacc : rules.accessibility <;> cases hr : l.rooms <;>
    simp only [accessibilityPhase, hacc, hr] <;>
    first
      | exact hi
      | (rw [checkAccessibilityCompliance, turningStep_issues]
         exact accessibleRouteStep_mono _ _ _ _ i hi)

lemma accessibilityPhase_origin (l : LayoutData) (k : String) (rules : Rules)
    (st : CheckState) :
    ∀ i ∈ (accessibilityPhase l k rules st).issues,
      i ∈ st.issues ∨ i.severity = "critical" := by
  intro i hi
  cases hacc : rules.accessibility <;> cases hr : l.rooms <;>
    simp only [accessibilityPhase, hacc, hr] at hi <;>
    first
      | exact Or.inl hi
      | (rw [checkAccessibilityCompliance, turningStep_issues] at hi
         exact accessibleRouteStep_origin _ _ _ _ i hi)

/-! ### Invariants of a whole `runCodeChecks` pass -/

lemma runCodeChecks_cases (l : LayoutData) (k : String) (cd : CodeData)
    (st st' : CheckState) (h : runCodeChecks l k cd st = Except.ok st') :
    st' = accessibilityPhase l k cd.rules
        (roomAreaPhase l k cd.rules (corridorPhase l k cd.rules st)) ∨
    ∃ circ, l.circulation = some circ ∧
      st' = doorWidthChecks k (doorRequiredWidth cd.rules) circ 0
        (accessibilityPhase l k cd.rules
          (roomAreaPhase l k cd.rules (corridorPhase l k cd.rules st))) := by
  simp only [runCodeChecks] at h
  by_cases hdw : (cd.rules.doorWidth.isSome || cd.rules.exitWidth.isSome) = true
  · rw [if_pos hdw] at h
    cases hc : l.circulation with
    | none =>
        simp only [checkDoorWidths, hc] at h
        exact absurd h (by simp)
    | some circ =>
        simp only [checkDoorWidths, hc, Except.ok.injEq] at h
        exact Or.inr ⟨circ, rfl, h.symm⟩
  · rw [if_neg hdw] at h
    simp only [Except.ok.injEq] at h
    exact Or.inl h.symm

lemma runCodeChecks_mono (l : LayoutData) (k : String) (cd : CodeData)
    (st st' : CheckState) (h : runCodeChecks l k cd st = Except.ok st') :
    ∀ i ∈ st.issues, i ∈ st'.issues := by
  intro i hi
  have h3 : i ∈ (accessibilityPhase l k cd.rules
      (roomAreaPhase l k cd.rules (corridorPhase l k cd.rules st))).issues :=
    accessibilityPhase_mono _ _ _ _ i
      (roomAreaPhase_mono _ _ _ _ i (corridorPhase_mono _ _ _ _ i hi))
  rcases runCodeChecks_cases l k cd st st' h with rfl | ⟨circ, _, rfl⟩
  · exact h3
  · exact doorWidthChecks_mono _ _ _ _ _ i h3

lemma runCodeChecks_origin (l : LayoutData) (k : String) (cd : CodeData)
    (st st' : CheckState) (h : runCodeChecks l k cd st = Except.ok st') :
    ∀ i ∈ st'.issues, i ∈ st.issues ∨ i.severity = "critical" := by
  intro i hi
  have key : ∀ j, j ∈ (accessibilityPhase l k cd.rules
      (roomAreaPhase l k cd.rules (corridorPhase l k cd.rules st))).issues →
      j ∈ st.issues ∨ j.severity = "critical" := by
    intro j hj
    rcases accessibilityPhase_origin _ _ _ _ j hj with h2 | h2
    · rcases roomAreaPhase_origin _ _ _ _ j h2 with h3 | h3
      · exact corridorPhase_origin _ _ _ _ j h3
      · exact Or.inr h3
    · exact Or.inr h2
  rcases runCodeChecks_cases l k cd st st' h with rfl | ⟨circ, _, rfl⟩
  · exact key i hi
  · rcases doorWidthChecks_origin _ _ _ _ _ i hi with h2 | h2
    · exact key i h2
    · exact Or.inr h2.1

lemma runCodeChecks_warnings_or (l : LayoutData) (k : String) (cd : CodeData)
    (st st' : CheckState) (hcd : (k, cd) ∈ staticTables)
    (h : runCodeChecks l k cd st = Except.ok st') :
    st'.warnings = st.warnings ∨ st'.issues ≠ [] := by
  have hw2 : (roomAreaPhase l k cd.rules (corridorPhase l k cd.rules st)).warnings =
      st.warnings := by
    rw [roomAreaPhase_warnings, corridorPhase_warnings]
  have hw' : st'.warnings = (accessibilityPhase l k cd.rules
      (roomAreaPhase l k cd.rules (corridorPhase l k cd.rules st))).warnings := by
    rcases runCodeChecks_cases l k cd st st' h with rfl | ⟨circ, _, rfl⟩
    · rfl
    · exact doorWidthChecks_warnings _ _ _ _ _
  by_cases hweq : (accessibilityPhase l k cd.rules
      (roomAreaPhase l k cd.rules (corridorPhase l k cd.rules st))).warnings =
      st.warnings
  · exact Or.inl (hw'.trans hweq)
  · right
    have hne : (accessibilityPhase l k cd.rules
        (roomAreaPhase l k cd.rules (corridorPhase l k cd.rules st))).warnings ≠
        (roomAreaPhase l k cd.rules (corridorPhase l k cd.rules st)).warnings := by
      rw [hw2]
      exact hweq
    obtain ⟨acc, hacc, ts, hts, rooms, hrooms, room, hmem, harea, hrts⟩ :=
      accessibilityPhase_warnings_or l k cd.rules _ hne
    simp only [staticTables, List.mem_cons, List.not_mem_nil, or_false,
      Prod.mk.injEq] at hcd
    rcases hcd with ⟨rfl, rfl⟩ | ⟨rfl, rfl⟩ | ⟨rfl, rfl⟩ | ⟨rfl, rfl⟩
    · -- IBC: the turning-space warning forces a room-area critical issue
      obtain rfl : acc = ⟨some 32, some 36, some 60⟩ := by
        have hacc2 : (some (⟨some 32, some 36, some 60⟩ : AccessibilityRules)) =
            some acc := hacc
        injection hacc2 with h2
        exact h2.symm
      have hts60 : ts = 60 := by
        have h3 : (some (60 : ℚ) : Option ℚ) = some ts := hts
        injection h3 with h4
        exact h4.symm
      obtain ⟨mn, hlk, h25⟩ := ibc_roomArea_lookup room.name hrts
      have haream : room.area < mn := by
        apply lt_of_lt_of_le _ h25
        have : ((ts : ℚ) / 12) ^ 2 = 25 := by rw [hts60]; norm_num
        rw [this] at harea
        exact harea
      obtain ⟨i, hi, hcrit, _⟩ :=
        roomAreaChecks_pushes "IBC" [("office", 80), ("meeting", 120), ("restroom", 30)]
          rooms _ room mn hmem hlk haream
      have hi2 : i ∈ (roomAreaPhase l "IBC" ibcCode.rules
          (corridorPhase l "IBC" ibcCode.rules st)).issues := by
        simp only [roomAreaPhase,
          show ibcCode.rules.roomArea =
            some [("office", (80 : ℚ)), ("meeting", 120), ("restroom", 30)] from rfl,
          hrooms]
        exact hi
      have hi3 : i ∈ (accessibilityPhase l "IBC" ibcCode.rules
          (roomAreaPhase l "IBC" ibcCode.rules
            (corridorPhase l "IBC" ibcCode.rules st))).issues :=
        accessibilityPhase_mono _ _ _ _ i hi2
      rcases runCodeChecks_cases l "IBC" ibcCode st st' h with rfl | ⟨circ, _, rfl⟩
      · exact List.ne_nil_of_mem hi3
      · exact List.ne_nil_of_mem (doorWidthChecks_mono _ _ _ _ _ i hi3)
    · -- ADA has no accessibility block
      exfalso
      rw [show adaCode.rules.accessibility = none from rfl] at hacc
      exact absurd hacc (by simp)
    · -- IRC has no accessibility block
      exfalso
      rw [show ircCode.rules.accessibility = none from rfl] at hacc
      exact absurd hacc (by simp)
    · -- NBC has no accessibility block
      exfalso
      rw [show nbcCode.rules.accessibility = none from rfl] at hacc
      exact absurd hacc (by simp)

lemma runAllCodeChecks_invariant (l : LayoutData) :
    ∀ (codes : List (String × CodeData)) (st st' : CheckState),
      (∀ kcd ∈ codes, kcd ∈ staticTables) →
      runAllCodeChecks l codes st = Except.ok st' →
      (∀ i ∈ st.issues, i ∈ st'.issues) ∧
      (∀ i ∈ st'.issues, i ∈ st.issues ∨ i.severity = "critical") ∧
      (st'.warnings = st.warnings ∨ st'.issues ≠ []) := by
  intro codes
  induction codes with
  | nil =>
      intro st st' _ h
      simp only [runAllCodeChecks, Except.ok.injEq] at h
      subst h
      exact ⟨fun i hi => hi, fun i hi => Or.inl hi, Or.inl rfl⟩
  | cons kcd rest ih =>
      intro st st' hmem h
      obtain ⟨k, cd⟩ := kcd
      cases hrun : runCodeChecks l k cd st with
      | error e =>
          simp only [runAllCodeChecks, hrun] at h
          exact absurd h (by simp)
      | ok stm =>
          simp only [runAllCodeChecks, hrun] at h
          have hstatic : (k, cd) ∈ staticTables := hmem _ (List.mem_cons_self _ _)
          have mono1 := runCodeChecks_mono l k cd st stm hrun
          have orig1 := runCodeChecks_origin l k cd st stm hrun
          have w1 := runCodeChecks_warnings_or l k cd st stm hstatic hrun
          obtain ⟨mono2, orig2, w2⟩ :=
            ih stm st' (fun x hx => hmem x (List.mem_cons_of_mem _ hx)) h
          refine ⟨fun i hi => mono2 i (mono1 i hi), ?_, ?_⟩
          · intro i hi
            rcases orig2 i hi with h2 | h2
            · rcases orig1 i h2 with h3 | h3
              · exact Or.inl h3
              · exact Or.inr h3
            · exact Or.inr h2
          · rcases w2 with w2 | w2
            · rcases w1 with w1 | w1
              · exact Or.inl (w2.trans w1)
              · right
                obtain ⟨i, hi⟩ := List.exists_mem_of_ne_nil _ w1
                exact List.ne_nil_of_mem (mono2 i hi)
            · exact Or.inr w2

lemma getApplicableCodes_static (c : String) (ks : List String) :
    ∀ kcd ∈ getApplicableCodes c ks, kcd ∈ staticTables := by
  intro kcd hmem
  simp only [getApplicableCodes] at hmem
  cases halk : alookup BUILDING_CODES c with
  | none =>
      simp only [halk] at hmem
      exact absurd hmem (List.not_mem_nil kcd)
  | some cdata =>
      simp only [halk] at hmem
      obtain ⟨k', hk', hmap⟩ := List.mem_filterMap.mp hmem
      obtain ⟨cd, hcd, heq⟩ := Option.map_eq_some'.mp hmap
      have hc : cdata = [("IBC", ibcCode), ("ADA", adaCode), ("IRC", ircCode)] ∨
          cdata = [("NBC", nbcCode)] := by
        by_cases h1 : (("US" : String) == c) = true
        · left
          have h3 : alookup BUILDING_CODES c =
              some [("IBC", ibcCode), ("ADA", adaCode), ("IRC", ircCode)] := by
            simp [alookup, BUILDING_CODES, List.find?, h1]
          rw [h3] at halk
          injection halk with h4
          exact h4.symm
        · by_cases h2 : (("CA" : String) == c) = true
          · right
            have h3 : alookup BUILDING_CODES c = some [("NBC", nbcCode)] := by
              simp [alookup, BUILDING_CODES, List.find?, h1, h2]
            rw [h3] at halk
            injection halk with h4
            exact h4.symm
          · exfalso
            have h3 : alookup BUILDING_CODES c = none := by
              simp [alookup, BUILDING_CODES, List.find?, h1, h2]
            rw [h3] at halk
            exact absurd halk (by simp)
      simp only [alookup] at hcd
      obtain ⟨p, hp, hpsnd⟩ := Option.map_eq_some'.mp hcd
      have hpfst := List.find?_some hp
      have hpmem : p ∈ cdata := List.mem_of_find?_eq_some hp
      have hfst : p.fst = k' := eq_of_beq hpfst
      subst heq
      rw [← hfst, ← hpsnd]
      rcases hc with rfl | rfl
      · rcases List.mem_cons.mp hpmem with rfl | hpmem
        · simp [staticTables]
        · rcases List.mem_cons.mp hpmem with rfl | hpmem
          · simp [staticTables]
          · rcases List.mem_cons.mp hpmem with rfl | hpmem
            · simp [staticTables]
            · exact absurd hpmem (List.not_mem_nil p)
      · rcases List.mem_cons.mp hpmem with rfl | hpmem
        · simp [staticTables]
        · exact absurd hpmem (List.not_mem_nil p)

lemma checkCompliance_ok_result (l : LayoutData) (ns : NormSettings)
    (r : ComplianceResult)
    (hap : getApplicableCodes ns.country ns.codes ≠ [])
    (h : checkCompliance l ns = Except.ok r) :
    ∃ st, runAllCodeChecks l (getApplicableCodes ns.country ns.codes)
        emptyState = Except.ok st ∧
      r.issues = st.issues ∧ r.warnings = st.warnings ∧
      r.status = (if st.issues.length > 0 then
          (if (st.issues.filter (fun i => i.severity == "critical")).length > 0 then
            "non-compliant" else "warning")
        else "compliant") := by
  have hlen : ¬ (getApplicableCodes ns.country ns.codes).length = 0 := by
    simpa [List.length_eq_zero] using hap
  simp only [checkCompliance] at h
  rw [if_neg hlen] at h
  cases hrun : runAllCodeChecks l (getApplicableCodes ns.country ns.codes)
      emptyState with
  | error e => rw [hrun] at h; exact absurd h (by simp)
  | ok st =>
      rw [hrun] at h
      simp only [Except.ok.injEq] at h
      exact ⟨st, rfl, by rw [← h], by rw [← h], by rw [← h]⟩

/-- The status expression of `checkCompliance`, simplified when every issue
is critical. -/
lemma status_formula (st : CheckState)
    (hcrit : ∀ i ∈ st.issues, i.severity = "critical") :
    (if st.issues.length > 0 then
        (if (st.issues.filter (fun i => i.severity == "critical")).length > 0 then
          "non-compliant" else "warning")
      else "compliant") =
    (if st.issues = [] then "compliant" else "non-compliant") := by
  cases hst : st.issues with
  | nil => simp
  | cons i0 rest =>
      have hi0 : i0.severity = "critical" := by
        apply hcrit
        rw [hst]
        exact List.mem_cons_self _ _
      have hmemf : i0 ∈ (i0 :: rest).filter (fun i => i.severity == "critical") :=
        List.mem_filter.mpr ⟨List.mem_cons_self _ _, by simp [hi0]⟩
      have hflen : ((i0 :: rest).filter (fun i => i.severity == "critical")).length > 0 :=
        List.length_pos.mpr (List.ne_nil_of_mem hmemf)
      simp [hflen]

/-- All issues of a successful non-config run are critical. -/
lemma checkCompliance_all_critical (l : LayoutData) (ns : NormSettings)
    (st : CheckState)
    (hrun : runAllCodeChecks l (getApplicableCodes ns.country ns.codes)
      emptyState = Except.ok st) :
    ∀ i ∈ st.issues, i.severity = "critical" := by
  obtain ⟨_, orig, _⟩ := runAllCodeChecks_invariant l _ emptyState st
    (getApplicableCodes_static ns.country ns.codes) hrun
  intro i hi
  rcases orig i hi with h2 | h2
  · exact absurd h2 (List.not_mem_nil i)
  · exact h2

/-- C10: every Issue appended by the rule checks is critical, so a
successful `checkCompliance` run never reports status "warning": with at
least one resolved rule table the status is "compliant" or "non-compliant"
(and warnings alone leave it "compliant"); with none it is "error". -/
theorem c10_issues_always_critical :
    ∀ (l : LayoutData) (ns : NormSettings) (r : ComplianceResult),
      checkCompliance l ns = Except.ok r →
      (getApplicableCodes ns.country ns.codes = [] → r.status = "error") ∧
      (getApplicableCodes ns.country ns.codes ≠ [] →
        (∀ i ∈ r.issues, i.severity = "critical") ∧
        r.status ≠ "warning" ∧
        (r.status = "compliant" ∨ r.status = "non-compliant") ∧
        (r.issues = [] → r.status = "compliant")) := by
  intro l ns r h
  constructor
  · intro hap
    rw [checkCompliance_config_error l ns hap] at h
    simp only [Except.ok.injEq] at h
    rw [← h]
  · intro hap
    obtain ⟨st, hrun, hiss, _, hstat⟩ := checkCompliance_ok_result l ns r hap h
    have hcrit := checkCompliance_all_critical l ns st hrun
    have hstat2 : r.status = (if st.issues = [] then "compliant" else "non-compliant") := by
      rw [hstat, status_formula st hcrit]
    refine ⟨?_, ?_, ?_, ?_⟩
    · intro i hi
      exact hcrit i (hiss ▸ hi)
    · rw [hstat2]
      split <;> simp
    · rw [hstat2]
      split
      · exact Or.inl rfl
      · exact Or.inr rfl
    · intro hnil
      rw [hstat2, if_pos (by rw [← hiss]; exact hnil)]

/-- C10 witness. -/
theorem c10_issues_always_critical_witness :
    (getApplicableCodes nsUSADA.country nsUSADA.codes = [] →
      ComplianceResult.status ⟨"compliant", [], [], ⟨0, 0, 0, 0⟩⟩ = "error") ∧
    (getApplicableCodes nsUSADA.country nsUSADA.codes ≠ [] →
      (∀ i ∈ ([] : List Issue), i.severity = "critical") ∧
      ComplianceResult.status ⟨"compliant", [], [], ⟨0, 0, 0, 0⟩⟩ ≠ "warning" ∧
      (ComplianceResult.status ⟨"compliant", [], [], ⟨0, 0, 0, 0⟩⟩ = "compliant" ∨
        ComplianceResult.status ⟨"compliant", [], [], ⟨0, 0, 0, 0⟩⟩ = "non-compliant") ∧
      (([] : List Issue) = [] →
        ComplianceResult.status ⟨"compliant", [], [], ⟨0, 0, 0, 0⟩⟩ = "compliant")) :=
  c10_issues_always_critical emptyLayout nsUSADA
    ⟨"compliant", [], [], ⟨0, 0, 0, 0⟩⟩ (by decide)

/-- C2: when at least one rule table resolves, the status of a returned
ComplianceResult agrees with the spec's rule (`claimedStatus`).  In
particular the "warnings only" reading is vacuous: any run that produces a
warning also produces a critical room-area issue, so both sides agree on
every reachable result. -/
theorem c2_status_matches_claim :
    ∀ (l : LayoutData) (ns : NormSettings) (r : ComplianceResult),
      getApplicableCodes ns.country ns.codes ≠ [] →
      checkCompliance l ns = Except.ok r →
      r.status = claimedStatus r.issues r.warnings := by
  intro l ns r hap h
  obtain ⟨st, hrun, hiss, hwarn, hstat⟩ := checkCompliance_ok_result l ns r hap h
  have hcrit := checkCompliance_all_critical l ns st hrun
  obtain ⟨_, _, warnor⟩ := runAllCodeChecks_invariant l _ emptyState st
    (getApplicableCodes_static ns.country ns.codes) hrun
  have hstat2 : r.status = (if st.issues = [] then "compliant" else "non-compliant") := by
    rw [hstat, status_formula st hcrit]
  cases hst : st.issues with
  | nil =>
      have hwnil : st.warnings = [] := by
        rcases warnor with heq | hne
        · exact heq
        · exact absurd hst hne
      rw [hstat2, if_pos hst, claimedStatus, hiss, hwarn, hst, hwnil]
      simp
  | cons i0 rest =>
      have hi0 : i0.severity = "critical" := by
        apply hcrit
        rw [hst]
        exact List.mem_cons_self _ _
      rw [hstat2, if_neg (by rw [hst]; simp), claimedStatus, hiss, hst]
      have hany : (i0 :: rest).any (fun i => i.severity == "critical") = true := by
        simp [List.any_cons, hi0]
      rw [if_pos hany]

/-- C2 witness. -/
theorem c2_status_matches_claim_witness :
    getApplicableCodes nsUSADA.country nsUSADA.codes ≠ [] ∧
    ComplianceResult.status ⟨"compliant", [], [], ⟨0, 0, 0, 0⟩⟩ =
      claimedStatus [] [] :=
  ⟨by decide,
   c2_status_matches_claim emptyLayout nsUSADA
     ⟨"compliant", [], [], ⟨0, 0, 0, 0⟩⟩ (by decide) (by decide)⟩

/-- C3 counterexample: a circulation path of width exactly 3 ft is 36
inches, which meets ADA's 36-inch minimum (`<` is strict), so the claimed
"critical Issue / non-compliant" outcome does not occur: the run is fully
compliant with zero issues. -/
theorem c3_exact_three_counterexample :
    statusOf (checkCompliance width3Layout nsUSADA) = "compliant" ∧
    issuesOf (checkCompliance width3Layout nsUSADA) = [] := by
  constructor <;> with_unfolding_all rfl

/-- C3 amended: for a path of width strictly below 3 ft, `checkCompliance`
under `US`/`ADA` returns at least one critical Issue whose code ends in
`_CORRIDOR_WIDTH` (the `ADA_CORRIDOR_WIDTH` issue), and status
"non-compliant". -/
theorem c3_below_three_noncompliant :
    ∀ (l : LayoutData) (circ : List CirculationPath) (p : CirculationPath),
      l.circulation = some circ → p ∈ circ → p.width < 3 →
      ∃ r, checkCompliance l nsUSADA = Except.ok r ∧
        (∃ i ∈ r.issues, i.severity = "critical" ∧
          (strEndsWith i.code "_ACCESSIBLE_ROUTE" = true ∨
            strEndsWith i.code "_CORRIDOR_WIDTH" = true)) ∧
        r.status = "non-compliant" := by
  intro l circ p hc hp hw
  obtain ⟨r, hr⟩ := checkCompliance_ok_of_circ l nsUSADA circ hc
  have hap : getApplicableCodes nsUSADA.country nsUSADA.codes ≠ [] := by decide
  obtain ⟨st, hrun, hiss, hwarn, hstat⟩ := checkCompliance_ok_result l nsUSADA r hap hr
  have hcrit := checkCompliance_all_critical l nsUSADA st hrun
  have happ : getApplicableCodes nsUSADA.country nsUSADA.codes =
      [("ADA", adaCode)] := by decide
  rw [happ] at hrun
  cases hstep : runCodeChecks l "ADA" adaCode emptyState with
  | error e =>
      simp only [runAllCodeChecks, hstep] at hrun
      exact absurd hrun (by simp)
  | ok stm =>
      simp only [runAllCodeChecks, hstep, Except.ok.injEq] at hrun
      subst hrun
      -- the corridor phase of the ADA pass pushes the issue
      have hwin : p.width * 12 < 36 := by nlinarith
      have hcp : corridorPhase l "ADA" adaCode.rules emptyState =
          corridorWidthChecks "ADA" 36 circ 0 emptyState := by
        simp only [corridorPhase,
          show adaCode.rules.corridorWidth =
            some ⟨36, some "Minimum accessible route width"⟩ from rfl, hc]
      obtain ⟨i, hi, hicrit, hicode⟩ :=
        corridorWidthChecks_pushes "ADA" 36 circ 0 emptyState p hp hwin
      have hi1 : i ∈ (corridorPhase l "ADA" adaCode.rules emptyState).issues := by
        rw [hcp]; exact hi
      have hi3 : i ∈ (accessibilityPhase l "ADA" adaCode.rules
          (roomAreaPhase l "ADA" adaCode.rules
            (corridorPhase l "ADA" adaCode.rules emptyState))).issues :=
        accessibilityPhase_mono _ _ _ _ i (roomAreaPhase_mono _ _ _ _ i hi1)
      have histm : i ∈ stm.issues := by
        rcases runCodeChecks_cases l "ADA" adaCode emptyState stm hstep with
          rfl | ⟨circ2, _, rfl⟩
        · exact hi3
        · exact doorWidthChecks_mono _ _ _ _ _ i hi3
      refine ⟨r, hr, ⟨i, ?_, hicrit, Or.inr ?_⟩, ?_⟩
      · rw [hiss]; exact histm
      · rw [hicode]; decide
      · rw [hstat, status_formula stm hcrit,
          if_neg (List.ne_nil_of_mem histm)]

/-- C3 witness. -/
theorem c3_below_three_noncompliant_witness :
    ∃ r, checkCompliance ⟨some [], some [⟨"a", "b", 29/10⟩]⟩ nsUSADA =
        Except.ok r ∧
      (∃ i ∈ r.issues, i.severity = "critical" ∧
        (strEndsWith i.code "_ACCESSIBLE_ROUTE" = true ∨
          strEndsWith i.code "_CORRIDOR_WIDTH" = true)) ∧
      r.status = "non-compliant" :=
  c3_below_three_noncompliant ⟨some [], some [⟨"a", "b", 29/10⟩]⟩
    [⟨"a", "b", 29/10⟩] ⟨"a", "b", 29/10⟩ rfl (List.mem_singleton_self _)
    (by norm_num)

/-! ### Metric range bounds (claim C4) -/

/-! ### Rounding and clamp bounds -/

lemma jroundQ_ge (x : ℚ) (n : ℤ) (h : (n : ℚ) ≤ x) : n ≤ jroundQ x := by
  unfold jroundQ
  rw [Int.le_floor]
  push_cast
  linarith

lemma jroundQ_le (x : ℚ) (n : ℤ) (h : x ≤ (n : ℚ)) : jroundQ x ≤ n := by
  have : jroundQ x < n + 1 := by
    unfold jroundQ
    rw [Int.floor_lt]
    push_cast
    linarith
  omega

lemma jround_ge (x : ℝ) (n : ℤ) (h : (n : ℝ) ≤ x) : n ≤ jround x := by
  unfold jround
  rw [Int.le_floor]
  push_cast
  linarith

lemma jround_le (x : ℝ) (n : ℤ) (h : x ≤ (n : ℝ)) : jround x ≤ n := by
  have : jround x < n + 1 := by
    unfold jround
    rw [Int.floor_lt]
    push_cast
    linarith
  omega

lemma jminQ_le_left (a b : ℚ) : jminQ a b ≤ a := by
  unfold jminQ; split <;> linarith

lemma jminQ_le_right (a b : ℚ) : jminQ a b ≤ b := by
  unfold jminQ; split <;> linarith

lemma le_jminQ (c a b : ℚ) (h1 : c ≤ a) (h2 : c ≤ b) : c ≤ jminQ a b := by
  unfold jminQ; split <;> linarith

lemma le_jmaxQ_left (a b : ℚ) : a ≤ jmaxQ a b := by
  unfold jmaxQ; split <;> linarith

lemma jmaxQ_le (a b c : ℚ) (h1 : a ≤ c) (h2 : b ≤ c) : jmaxQ a b ≤ c := by
  unfold jmaxQ; split <;> linarith

/-! ### Bounds-fold inequalities -/

lemma foldl_boundsStep_minX (l : List Room) (b : Bounds) :
    (l.foldl boundsStep b).minX ≤ b.minX := by
  induction l generalizing b with
  | nil => exact le_refl _
  | cons r rest ih =>
      calc (List.foldl boundsStep (boundsStep b r) rest).minX
          ≤ (boundsStep b r).minX := ih _
        _ ≤ b.minX := min_le_left _ _

lemma foldl_boundsStep_maxX (l : List Room) (b : Bounds) :
    b.maxX ≤ (l.foldl boundsStep b).maxX := by
  induction l generalizing b with
  | nil => exact le_refl _
  | cons r rest ih =>
      calc b.maxX ≤ (boundsStep b r).maxX := le_max_left _ _
        _ ≤ (List.foldl boundsStep (boundsStep b r) rest).maxX := ih _

lemma foldl_boundsStep_minY (l : List Room) (b : Bounds) :
    (l.foldl boundsStep b).minY ≤ b.minY := by
  induction l generalizing b with
  | nil => exact le_refl _
  | cons r rest ih =>
      calc (List.foldl boundsStep (boundsStep b r) rest).minY
          ≤ (boundsStep b r).minY := ih _
        _ ≤ b.minY := min_le_left _ _

lemma foldl_boundsStep_maxY (l : List Room) (b : Bounds) :
    b.maxY ≤ (l.foldl boundsStep b).maxY := by
  induction l generalizing b with
  | nil => exact le_refl _
  | cons r rest ih =>
      calc b.maxY ≤ (boundsStep b r).maxY := le_max_left _ _
        _ ≤ (List.foldl boundsStep (boundsStep b r) rest).maxY := ih _

/-- For a nonempty room list whose head has positive width, the bounding box
has positive horizontal extent. -/
lemma buildingWidth_pos (r0 : Room) (rest : List Room) (hw : 0 < r0.width) :
    0 < (calculateBuildingBounds (r0 :: rest)).maxX -
      (calculateBuildingBounds (r0 :: rest)).minX := by
  unfold calculateBuildingBounds
  have h1 := foldl_boundsStep_minX (r0 :: rest)
    ⟨r0.x, r0.x + r0.width, r0.y, r0.y + r0.height⟩
  have h2 := foldl_boundsStep_maxX (r0 :: rest)
    ⟨r0.x, r0.x + r0.width, r0.y, r0.y + r0.height⟩
  simp only at h1 h2
  linarith

lemma buildingHeight_pos (r0 : Room) (rest : List Room) (hh : 0 < r0.height) :
    0 < (calculateBuildingBounds (r0 :: rest)).maxY -
      (calculateBuildingBounds (r0 :: rest)).minY := by
  unfold calculateBuildingBounds
  have h1 := foldl_boundsStep_minY (r0 :: rest)
    ⟨r0.x, r0.x + r0.width, r0.y, r0.y + r0.height⟩
  have h2 := foldl_boundsStep_maxY (r0 :: rest)
    ⟨r0.x, r0.x + r0.width, r0.y, r0.y + r0.height⟩
  simp only at h1 h2
  linarith

/-! ### Total room area -/

lemma foldl_area_ge (l : List Room) (acc : ℚ)
    (h : ∀ r ∈ l, 0 < r.area) :
    acc ≤ l.foldl (fun total room => total + room.area) acc := by
  induction l generalizing acc with
  | nil => exact le_refl _
  | cons r rest ih =>
      have hr : 0 < r.area := h r (List.mem_cons_self _ _)
      have hrest : ∀ x ∈ rest, 0 < x.area := fun x hx => h x (List.mem_cons_of_mem _ hx)
      calc acc ≤ acc + r.area := by linarith
        _ ≤ _ := ih (acc + r.area) hrest

lemma totalRoomArea_pos (r0 : Room) (rest : List Room)
    (h : ∀ r ∈ r0 :: rest, 0 < r.area) :
    0 < totalRoomArea (r0 :: rest) := by
  unfold totalRoomArea
  have hr0 : 0 < r0.area := h r0 (List.mem_cons_self _ _)
  have hrest : ∀ x ∈ rest, 0 < x.area := fun x hx => h x (List.mem_cons_of_mem _ hx)
  calc (0 : ℚ) < r0.area := hr0
    _ = 0 + r0.area := by ring
    _ ≤ _ := foldl_area_ge rest (0 + r0.area) hrest

/-! ### Adjacency score -/

lemma countAdjacentPairs_le (l : List Room) :
    countAdjacentPairs l ≤ countAllPairs l := by
  induction l with
  | nil => exact le_refl _
  | cons r rest ih =>
      unfold countAdjacentPairs countAllPairs
      have := List.length_filter_le (roomsAdjacent r) rest
      omega

lemma adjacencyScore_bounds (rooms : List Room) :
    0 ≤ calculateAdjacencyScore rooms ∧ calculateAdjacencyScore rooms ≤ 1 := by
  unfold calculateAdjacencyScore
  split
  · rename_i hp
    constructor
    · positivity
    · rw [div_le_one (by exact_mod_cast hp)]
      exact_mod_cast countAdjacentPairs_le rooms
  · norm_num

/-! ### Per-metric bounds -/

lemma circulationEfficiency_bounds (l : LayoutData) :
    0 ≤ calculateCirculationEfficiency l ∧
      calculateCirculationEfficiency l ≤ 100 := by
  unfold calculateCirculationEfficiency
  split
  · rename_i rooms circulation
    split
    · norm_num
    · constructor
      · exact jround_ge _ 0 (by push_cast; exact le_max_left _ _)
      · refine jround_le _ 100 ?_
        push_cast
        exact max_le (by norm_num) (min_le_left _ _)
  · norm_num

lemma spaceUtilization_bounds (l : LayoutData) (rooms : List Room)
    (hr : l.rooms = some rooms)
    (harea : ∀ r ∈ rooms, 0 < r.area)
    (hwh : ∀ r ∈ rooms, 0 < r.width ∧ 0 < r.height) :
    0 ≤ calculateSpaceUtilization l ∧ calculateSpaceUtilization l ≤ 100 := by
  unfold calculateSpaceUtilization
  rw [hr]
  cases rooms with
  | nil => norm_num
  | cons r0 rest =>
      simp only [List.length_cons]
      rw [if_neg (by omega)]
      constructor
      · refine jroundQ_ge _ 0 ?_
        push_cast
        refine le_jminQ 0 _ _ (by norm_num) ?_
        have hA := totalRoomArea_pos r0 rest harea
        have hW := buildingWidth_pos r0 rest (hwh r0 (List.mem_cons_self _ _)).1
        have hH := buildingHeight_pos r0 rest (hwh r0 (List.mem_cons_self _ _)).2
        positivity
      · refine jroundQ_le _ 100 ?_
        push_cast
        exact jminQ_le_left _ _

lemma accessibilityScore_bounds (l : LayoutData) (rooms : List Room)
    (circ : List CirculationPath)
    (hr : l.rooms = some rooms) (hc : l.circulation = some circ) :
    0 ≤ calculateAccessibilityScore l ∧
      calculateAccessibilityScore l ≤ 100 := by
  unfold calculateAccessibilityScore
  rw [hr, hc]
  simp only
  split
  · rename_i ht
    have hI : (circ.filter (fun path => path.width < 4)).length +
        (rooms.filter (fun room =>
          !(circ.any (fun path =>
            (path.from_ == room.id || path.to_ == room.id) &&
              path.width ≥ 4)))).length ≤ circ.length + rooms.length := by
      have h1 := List.length_filter_le (fun path => decide (path.width < 4)) circ
      have h2 := List.length_filter_le (fun room =>
        !(circ.any (fun path =>
          (path.from_ == room.id || path.to_ == room.id) &&
            path.width ≥ 4))) rooms
      omega
    have htQ : (0 : ℚ) < ((circ.length + rooms.length : ℕ) : ℚ) := by
      exact_mod_cast ht
    constructor
    · refine jroundQ_ge _ 0 ?_
      push_cast
      push_cast at htQ
      have hIQ : ((circ.filter (fun path => path.width < 4)).length : ℚ) +
          ((rooms.filter (fun room =>
            !(circ.any (fun path =>
              (path.from_ == room.id || path.to_ == room.id) &&
                path.width ≥ 4)))).length : ℚ) ≤
          (circ.length : ℚ) + (rooms.length : ℚ) := by
        exact_mod_cast hI
      have hnum : (0 : ℚ) ≤ ((circ.length : ℚ) + (rooms.length : ℚ)) -
          (((circ.filter (fun path => path.width < 4)).length : ℚ) +
            ((rooms.filter (fun room =>
              !(circ.any (fun path =>
                (path.from_ == room.id || path.to_ == room.id) &&
                  path.width ≥ 4)))).length : ℚ)) := by linarith
      positivity
    · refine jroundQ_le _ 100 ?_
      push_cast
      push_cast at htQ
      have hnum : ((circ.length : ℚ) + (rooms.length : ℚ)) -
          (((circ.filter (fun path => path.width < 4)).length : ℚ) +
            ((rooms.filter (fun room =>
              !(circ.any (fun path =>
                (path.from_ == room.id || path.to_ == room.id) &&
                  path.width ≥ 4)))).length : ℚ)) ≤
          (circ.length : ℚ) + (rooms.length : ℚ) := by
        have h0 : (0 : ℚ) ≤
            ((circ.filter (fun path => path.width < 4)).length : ℚ) +
              ((rooms.filter (fun room =>
                !(circ.any (fun path =>
                  (path.from_ == room.id || path.to_ == room.id) &&
                    path.width ≥ 4)))).length : ℚ) := by positivity
        linarith
      rw [div_mul_eq_mul_div, div_le_iff₀ htQ]
      nlinarith
  · norm_num

/-! ### Daylight and energy -/

lemma jroundClamp_daylight (s : ℚ) :
    3 ≤ (jroundQ (jmaxQ 3 (jminQ 12 s) * 10) : ℚ) / 10 ∧
      (jroundQ (jmaxQ 3 (jminQ 12 s) * 10) : ℚ) / 10 ≤ 12 := by
  have h3 : (3 : ℚ) ≤ jmaxQ 3 (jminQ 12 s) := le_jmaxQ_left _ _
  have h12 : jmaxQ 3 (jminQ 12 s) ≤ 12 :=
    jmaxQ_le _ _ _ (by norm_num) (jminQ_le_left _ _)
  have hlo : (30 : ℤ) ≤ jroundQ (jmaxQ 3 (jminQ 12 s) * 10) :=
    jroundQ_ge _ 30 (by push_cast; linarith)
  have hhi : jroundQ (jmaxQ 3 (jminQ 12 s) * 10) ≤ (120 : ℤ) :=
    jroundQ_le _ 120 (by push_cast; linarith)
  have hloQ : (30 : ℚ) ≤ (jroundQ (jmaxQ 3 (jminQ 12 s) * 10) : ℚ) := by
    exact_mod_cast hlo
  have hhiQ : (jroundQ (jmaxQ 3 (jminQ 12 s) * 10) : ℚ) ≤ 120 := by
    exact_mod_cast hhi
  constructor <;> [linarith; linarith]

lemma daylightHours_bounds (l : LayoutData) (rooms : List Room)
    (hr : l.rooms = some rooms) (hne : rooms ≠ []) :
    3 ≤ calculateDaylightHours l ∧ calculateDaylightHours l ≤ 12 := by
  unfold calculateDaylightHours
  rw [hr]
  cases rooms with
  | nil => exact absurd rfl hne
  | cons r0 rest =>
      simp only [List.length_cons]
      rw [if_neg (by omega)]
      exact jroundClamp_daylight _

lemma daylightHours_empty (l : LayoutData) (hr : l.rooms = some []) :
    calculateDaylightHours l = 0 := by
  unfold calculateDaylightHours
  rw [hr]
  rfl

lemma energyCombine (cs ps ae : ℝ) (h1 : 0 ≤ cs) (h2 : cs ≤ 100) (h3 : 0 ≤ ps)
    (h4 : ps ≤ 100) (h5 : 0 ≤ ae) (h6 : ae ≤ 20) :
    0 ≤ jround (cs * (4/10) + ps * (3/10) + ae * (3/10)) ∧
      jround (cs * (4/10) + ps * (3/10) + ae * (3/10)) ≤ 100 :=
  ⟨jround_ge _ 0 (by push_cast; linarith),
    jround_le _ 100 (by push_cast; linarith)⟩

lemma energyEfficiency_bounds (l : LayoutData) (rooms : List Room)
    (hr : l.rooms = some rooms)
    (harea : ∀ r ∈ rooms, 0 < r.area)
    (hwh : ∀ r ∈ rooms, 0 < r.width ∧ 0 < r.height) :
    0 ≤ calculateEnergyEfficiency l ∧ calculateEnergyEfficiency l ≤ 100 := by
  unfold calculateEnergyEfficiency
  rw [hr]
  cases rooms with
  | nil => norm_num
  | cons r0 rest =>
      simp only [List.length_cons]
      rw [if_neg (by omega)]
      have hW := buildingWidth_pos r0 rest (hwh r0 (List.mem_cons_self _ _)).1
      have hH := buildingHeight_pos r0 rest (hwh r0 (List.mem_cons_self _ _)).2
      have hT := totalRoomArea_pos r0 rest harea
      have hadj := adjacencyScore_bounds (r0 :: rest)
      have hbaQ : (0 : ℚ) <
          ((calculateBuildingBounds (r0 :: rest)).maxX -
              (calculateBuildingBounds (r0 :: rest)).minX) *
            ((calculateBuildingBounds (r0 :: rest)).maxY -
              (calculateBuildingBounds (r0 :: rest)).minY) := mul_pos hW hH
      have hba : (0 : ℝ) <
          ((((calculateBuildingBounds (r0 :: rest)).maxX -
              (calculateBuildingBounds (r0 :: rest)).minX) *
            ((calculateBuildingBounds (r0 :: rest)).maxY -
              (calculateBuildingBounds (r0 :: rest)).minY) : ℚ) : ℝ) := by
        exact_mod_cast hbaQ
      have htr : (0 : ℝ) < ((totalRoomArea (r0 :: rest) : ℚ) : ℝ) := by
        exact_mod_cast hT
      have hperQ : (0 : ℚ) ≤
          2 * (((calculateBuildingBounds (r0 :: rest)).maxX -
              (calculateBuildingBounds (r0 :: rest)).minX) +
            ((calculateBuildingBounds (r0 :: rest)).maxY -
              (calculateBuildingBounds (r0 :: rest)).minY)) := by linarith
      have hper : (0 : ℝ) ≤
          ((2 * (((calculateBuildingBounds (r0 :: rest)).maxX -
              (calculateBuildingBounds (r0 :: rest)).minX) +
            ((calculateBuildingBounds (r0 :: rest)).maxY -
              (calculateBuildingBounds (r0 :: rest)).minY)) : ℚ) : ℝ) := by
        exact_mod_cast hperQ
      have hadl : (0 : ℝ) ≤ ((calculateAdjacencyScore (r0 :: rest) : ℚ) : ℝ) := by
        exact_mod_cast hadj.1
      have hadu : ((calculateAdjacencyScore (r0 :: rest) : ℚ) : ℝ) ≤ 1 := by
        exact_mod_cast hadj.2
      refine energyCombine _ _ _ ?_ ?_ ?_ ?_ ?_ ?_
      · exact le_min (by norm_num) (by positivity)
      · exact min_le_left _ _
      · exact le_max_left _ _
      · refine max_le (by norm_num) ?_
        have hdiv : (0 : ℝ) ≤
            ((2 * (((calculateBuildingBounds (r0 :: rest)).maxX -
                (calculateBuildingBounds (r0 :: rest)).minX) +
              ((calculateBuildingBounds (r0 :: rest)).maxY -
                (calculateBuildingBounds (r0 :: rest)).minY)) : ℚ) : ℝ) /
              Real.sqrt
                ((((calculateBuildingBounds (r0 :: rest)).maxX -
                    (calculateBuildingBounds (r0 :: rest)).minX) *
                  ((calculateBuildingBounds (r0 :: rest)).maxY -
                    (calculateBuildingBounds (r0 :: rest)).minY) : ℚ) : ℝ) :=
          div_nonneg hper (Real.sqrt_nonneg _)
        linarith
      · linarith
      · linarith

/-- C4 counterexample: on a layout with an empty room list the daylight
metric is 0, outside the claimed range [3, 12] ("including the empty-rooms
case"). -/
theorem c4_empty_daylight_counterexample :
    calculateDaylightHours emptyLayout = 0 ∧
      calculateDaylightHours emptyLayout < 3 := by
  have h : calculateDaylightHours emptyLayout = 0 :=
    daylightHours_empty emptyLayout rfl
  exact ⟨h, by rw [h]; norm_num⟩

/-- C4 amended: under the data-model invariants (rooms and circulation
arrays present, every room of positive area, width and height), the four
scores `circulationEfficiency`, `energyEfficiency`, `spaceUtilization` and
`accessibilityScore` lie in [0, 100]; `daylightHours` lies in [3, 12] when
the room list is nonempty, but is 0 — not in [3, 12] — on an empty room
list. -/
theorem c4_metric_ranges (l : LayoutData) (rooms : List Room)
    (circ : List CirculationPath)
    (hr : l.rooms = some rooms) (hc : l.circulation = some circ)
    (harea : ∀ r ∈ rooms, 0 < r.area)
    (hwh : ∀ r ∈ rooms, 0 < r.width ∧ 0 < r.height) :
    (0 ≤ calculateCirculationEfficiency l ∧
        calculateCirculationEfficiency l ≤ 100) ∧
      (0 ≤ calculateEnergyEfficiency l ∧ calculateEnergyEfficiency l ≤ 100) ∧
      (0 ≤ calculateSpaceUtilization l ∧ calculateSpaceUtilization l ≤ 100) ∧
      (0 ≤ calculateAccessibilityScore l ∧
        calculateAccessibilityScore l ≤ 100) ∧
      (rooms ≠ [] → 3 ≤ calculateDaylightHours l ∧
        calculateDaylightHours l ≤ 12) ∧
      (rooms = [] → calculateDaylightHours l = 0) :=
  ⟨circulationEfficiency_bounds l,
    energyEfficiency_bounds l rooms hr harea hwh,
    spaceUtilization_bounds l rooms hr harea hwh,
    accessibilityScore_bounds l rooms circ hr hc,
    fun hne => daylightHours_bounds l rooms hr hne,
    fun he => daylightHours_empty l (he ▸ hr)⟩

/-- C4 witness. -/
theorem c4_metric_ranges_witness :
    (0 ≤ calculateSpaceUtilization oneRoomLayout ∧
        calculateSpaceUtilization oneRoomLayout ≤ 100) ∧
      (3 ≤ calculateDaylightHours oneRoomLayout ∧
        calculateDaylightHours oneRoomLayout ≤ 12) := by
  have h := c4_metric_ranges oneRoomLayout [roomHall] [] rfl rfl
    (by intro r hmem
        rw [List.mem_singleton] at hmem
        subst hmem
        norm_num [roomHall])
    (by intro r hmem
        rw [List.mem_singleton] at hmem
        subst hmem
        constructor <;> norm_num [roomHall])
  exact ⟨h.2.2.1, h.2.2.2.2.1 (List.cons_ne_nil _ _)⟩


/-! ### Skipping of unresolvable circulation paths -/

lemma pathDXF_unresolved (opts : DXFOptions) (rooms : List Room)
    (p : CirculationPath) (h : pathResolvable rooms p = false) :
    pathDXF opts rooms p = "" := by
  unfold pathDXF
  cases hf : findRoom rooms p.from_ <;> cases ht : findRoom rooms p.to_
  · rfl
  · rfl
  · rfl
  · exfalso
    rw [pathResolvable, hf, ht] at h
    simp at h

lemma pathSVG_unresolved (opts : SVGOptions) (rooms : List Room)
    (p : CirculationPath) (h : pathResolvable rooms p = false) :
    pathSVG opts rooms p = "" := by
  unfold pathSVG
  cases hf : findRoom rooms p.from_ <;> cases ht : findRoom rooms p.to_
  · rfl
  · rfl
  · rfl
  · exfalso
    rw [pathResolvable, hf, ht] at h
    simp at h

lemma strConcat_map_filter {α : Type} (f : α → String) (q : α → Bool)
    (l : List α) (h : ∀ x ∈ l, q x = false → f x = "") :
    strConcat (l.map f) = strConcat ((l.filter q).map f) := by
  induction l with
  | nil => rfl
  | cons x rest ih =>
      have hrest : ∀ y ∈ rest, q y = false → f y = "" :=
        fun y hy => h y (List.mem_cons_of_mem _ hy)
      cases hq : q x with
      | true =>
          simp only [List.map_cons, List.filter_cons, hq, if_pos trivial]
          simp only [strConcat, List.map_cons]
          rw [ih hrest]
      | false =>
          simp only [List.map_cons, List.filter_cons, hq]
          simp only [strConcat]
          rw [h x (List.mem_cons_self _ _) hq, ih hrest]
          simp

lemma circAreaStep_unresolved (rooms : List Room) (p : CirculationPath)
    (total : ℝ) (h : pathResolvable rooms p = false) :
    circAreaStep rooms total p = total := by
  unfold circAreaStep
  cases hf : findRoom rooms p.from_ <;> cases ht : findRoom rooms p.to_
  · rfl
  · rfl
  · rfl
  · exfalso
    rw [pathResolvable, hf, ht] at h
    simp at h

lemma foldl_filter_of_skip {α β : Type} (f : β → α → β) (q : α → Bool)
    (l : List α) (hf : ∀ b x, q x = false → f b x = b) :
    ∀ a, l.foldl f a = (l.filter q).foldl f a := by
  induction l with
  | nil => intro a; rfl
  | cons x rest ih =>
      intro a
      cases hq : q x with
      | true =>
          simp only [List.foldl_cons, List.filter_cons, hq, if_pos trivial]
          exact ih _
      | false =>
          simp only [List.foldl_cons, List.filter_cons, hq]
          rw [hf a x hq]
          exact ih a

lemma circulationEfficiency_filter (rooms : List Room)
    (circ : List CirculationPath) :
    calculateCirculationEfficiency ⟨some rooms, some circ⟩ =
      calculateCirculationEfficiency
        ⟨some rooms, some (circ.filter (pathResolvable rooms))⟩ := by
  unfold calculateCirculationEfficiency
  simp only
  by_cases h : rooms.length = 0
  · rw [if_pos h, if_pos h]
  · rw [if_neg h, if_neg h,
      foldl_filter_of_skip (circAreaStep rooms) (pathResolvable rooms) circ
        (fun b p hp => circAreaStep_unresolved rooms p b hp) 0]

lemma exportToDXF_filter (rooms : List Room) (circ : List CirculationPath)
    (opts : DXFOptions) :
    exportToDXF ⟨some rooms, some circ⟩ opts =
      exportToDXF ⟨some rooms, some (circ.filter (pathResolvable rooms))⟩
        opts := by
  unfold exportToDXF
  simp only
  rw [strConcat_map_filter (pathDXF opts rooms) (pathResolvable rooms) circ
    (fun p _ hp => pathDXF_unresolved opts rooms p hp)]

lemma exportToSVG_filter (rooms : List Room) (circ : List CirculationPath)
    (opts : SVGOptions) :
    exportToSVG ⟨some rooms, some circ⟩ opts =
      exportToSVG ⟨some rooms, some (circ.filter (pathResolvable rooms))⟩
        opts := by
  unfold exportToSVG
  simp only
  rw [strConcat_map_filter (pathSVG opts rooms) (pathResolvable rooms) circ
    (fun p _ hp => pathSVG_unresolved opts rooms p hp)]

set_option maxRecDepth 8000 in
/-- C6 counterexample: a circulation path whose `to` id matches no room is
NOT skipped by the compliance engine (it still receives a corridor-width
check and produces a critical Issue), and it also changes the
accessibility metric; only the geometry pipeline skips it. -/
theorem c6_dangling_counted_counterexample :
    pathResolvable [roomHall] ⟨"r1", "ghost", 3⟩ = false ∧
    issuesOf (checkCompliance danglingLayout nsUSIBC) =
      [corridorIssue "IBC" 44 ⟨"r1", "ghost", 3⟩ 0] ∧
    issuesOf (checkCompliance danglingFreeLayout nsUSIBC) = [] ∧
    calculateAccessibilityScore
        ⟨some [roomHall], some [⟨"r1", "r1", 5⟩, ⟨"r1", "ghost", 3⟩]⟩ ≠
      calculateAccessibilityScore ⟨some [roomHall], some [⟨"r1", "r1", 5⟩]⟩ := by
  refine ⟨rfl, ?_, ?_, ?_⟩
  · with_unfolding_all rfl
  · with_unfolding_all rfl
  · with_unfolding_all decide

/-- C6 amended: a circulation path with an unresolvable endpoint id is
skipped — silently, never as an error — by the geometry-dependent
calculations: the circulation-efficiency metric and the DXF and SVG
exports are unchanged when all unresolvable paths are filtered out, and
both exports still succeed.  (The compliance checks and the
accessibility metric do NOT skip such paths.) -/
theorem c6_unresolved_path_skipped (rooms : List Room)
    (circ : List CirculationPath) (dopts : DXFOptions) (sopts : SVGOptions) :
    (calculateCirculationEfficiency ⟨some rooms, some circ⟩ =
      calculateCirculationEfficiency
        ⟨some rooms, some (circ.filter (pathResolvable rooms))⟩) ∧
    (exportToDXF ⟨some rooms, some circ⟩ dopts =
      exportToDXF ⟨some rooms, some (circ.filter (pathResolvable rooms))⟩
        dopts) ∧
    (exportToSVG ⟨some rooms, some circ⟩ sopts =
      exportToSVG ⟨some rooms, some (circ.filter (pathResolvable rooms))⟩
        sopts) ∧
    (∃ s, exportToDXF ⟨some rooms, some circ⟩ dopts = Except.ok s) ∧
    (∃ s, exportToSVG ⟨some rooms, some circ⟩ sopts = Except.ok s) :=
  ⟨circulationEfficiency_filter rooms circ,
    exportToDXF_filter rooms circ dopts,
    exportToSVG_filter rooms circ sopts,
    ⟨_, rfl⟩, ⟨_, rfl⟩⟩

/-! ### JSON round trip (claim C8) -/

/-! ### Character-class facts -/

lemma isWsChar_elim (c : Char) (h : isWsChar c = true) :
    c = ' ' ∨ c = '\n' ∨ c = '\t' ∨ c = '\r' := by
  simp only [isWsChar, Bool.or_eq_true, decide_eq_true_eq] at h
  tauto

lemma digit_not_ws (c : Char) (h : isDigitCh c = true) : isWsChar c = false := by
  cases hw : isWsChar c with
  | false => rfl
  | true =>
      exfalso
      rcases isWsChar_elim c hw with h1 | h1 | h1 | h1 <;>
        (subst h1; simp [isDigitCh] at h)

lemma digit_ne (c x : Char) (h : isDigitCh c = true) (hx : isDigitCh x = false) :
    c ≠ x := by
  intro he
  subst he
  rw [h] at hx
  exact Bool.noConfusion hx

/-! ### skipWs -/

lemma skipWs_cons (c : Char) (cs : List Char) :
    skipWs (c :: cs) = if isWsChar c then skipWs cs else c :: cs := rfl

lemma skipWs_not_ws (c : Char) (cs : List Char) (h : isWsChar c = false) :
    skipWs (c :: cs) = c :: cs := by
  rw [skipWs_cons, h]
  simp

lemma skipWs_ws_append (pre : List Char) (X : List Char) (h : WsList pre) :
    skipWs (pre ++ X) = skipWs X := by
  induction pre with
  | nil => rfl
  | cons c cs ih =>
      have hc : isWsChar c = true := h c (List.mem_cons_self _ _)
      have hcs : WsList cs := fun x hx => h x (List.mem_cons_of_mem _ hx)
      rw [List.cons_append, skipWs_cons, hc]
      simp only [if_pos trivial]
      exact ih hcs

lemma wsList_indent (k : ℕ) : WsList (indentChars k) := by
  intro c hc
  rw [indentChars] at hc
  have := List.eq_of_mem_replicate hc
  subst this
  rfl

lemma wsList_newline_indent (k : ℕ) : WsList ('\n' :: indentChars k) := by
  intro c hc
  rcases List.mem_cons.mp hc with h | h
  · subst h; rfl
  · exact wsList_indent k c h

/-! ### Decimal digits -/

lemma digitChar_isDigit (n : ℕ) (h : n < 10) : isDigitCh (digitChar n) = true := by
  interval_cases n <;> rfl

lemma digitVal_digitChar (n : ℕ) (h : n < 10) : digitVal (digitChar n) = n := by
  interval_cases n <;> rfl

lemma natDigitsAux_lt (n : ℕ) (acc : List Char) (h : n < 10) :
    natDigitsAux n acc = digitChar n :: acc := by
  rw [natDigitsAux]
  rw [dif_pos h]

lemma natDigitsAux_ge (n : ℕ) (acc : List Char) (h : ¬ n < 10) :
    natDigitsAux n acc = natDigitsAux (n / 10) (digitChar (n % 10) :: acc) := by
  conv_lhs => rw [natDigitsAux]
  rw [dif_neg h]

lemma natDigitsAux_append (n : ℕ) : ∀ acc, natDigitsAux n acc = natDigits n ++ acc := by
  induction n using Nat.strong_induction_on with
  | _ n ih =>
      intro acc
      by_cases h : n < 10
      · rw [natDigitsAux_lt n acc h, natDigits, natDigitsAux_lt n [] h]
        rfl
      · rw [natDigitsAux_ge n acc h, natDigits, natDigitsAux_ge n [] h,
          ih (n / 10) (Nat.div_lt_self (by omega) (by omega)),
          ih (n / 10) (Nat.div_lt_self (by omega) (by omega))]
        simp

lemma natDigits_ne_nil (n : ℕ) : natDigits n ≠ [] := by
  rw [natDigits]
  by_cases h : n < 10
  · rw [natDigitsAux_lt n [] h]
    simp
  · rw [natDigitsAux_ge n [] h, natDigitsAux_append]
    simp

lemma natDigits_all_digit (n : ℕ) : ∀ c ∈ natDigits n, isDigitCh c = true := by
  induction n using Nat.strong_induction_on with
  | _ n ih =>
      intro c hc
      rw [natDigits] at hc
      by_cases h : n < 10
      · rw [natDigitsAux_lt n [] h] at hc
        rcases List.mem_cons.mp hc with h1 | h1
        · subst h1; exact digitChar_isDigit n h
        · simp at h1
      · rw [natDigitsAux_ge n [] h, natDigitsAux_append] at hc
        rcases List.mem_append.mp hc with h1 | h1
        · exact ih (n / 10) (Nat.div_lt_self (by omega) (by omega)) c h1
        · rcases List.mem_cons.mp h1 with h2 | h2
          · subst h2; exact digitChar_isDigit (n % 10) (Nat.mod_lt _ (by omega))
          · simp at h2

lemma digitsValGo_cons (c : Char) (cs : List Char) (a : ℕ) :
    digitsValGo (c :: cs) a = digitsValGo cs (a * 10 + digitVal c) := rfl

lemma digitsValGo_nil (a : ℕ) : digitsValGo [] a = a := rfl

lemma digitsValGo_append (ds es : List Char) :
    ∀ a, digitsValGo (ds ++ es) a = digitsValGo es (digitsValGo ds a) := by
  induction ds with
  | nil => intro a; rfl
  | cons c cs ih =>
      intro a
      rw [List.cons_append, digitsValGo_cons, digitsValGo_cons]
      exact ih _

lemma digitsValGo_natDigits (n : ℕ) : ∀ a, digitsValGo (natDigits n) a =
    a * 10 ^ (natDigits n).length + n := by
  induction n using Nat.strong_induction_on with
  | _ n ih =>
      intro a
      by_cases h : n < 10
      · rw [natDigits, natDigitsAux_lt n [] h, digitsValGo_cons]
        have : digitsValGo [] (a * 10 + digitVal (digitChar n)) =
            a * 10 + digitVal (digitChar n) := rfl
        rw [this, digitVal_digitChar n h]
        simp
      · have hlt : n / 10 < n := Nat.div_lt_self (by omega) (by omega)
        rw [natDigits, natDigitsAux_ge n [] h, natDigitsAux_append,
          digitsValGo_append, ih (n / 10) hlt a, digitsValGo_cons]
        simp only [digitsValGo_nil]
        rw [digitVal_digitChar (n % 10) (Nat.mod_lt _ (by omega)),
          List.length_append, List.length_singleton, pow_succ]
        have hmod := Nat.div_add_mod n 10
        ring_nf
        omega

lemma digitsValue_natDigits (n : ℕ) : digitsValue (natDigits n) = n := by
  rw [digitsValue, digitsValGo_natDigits]
  simp

lemma digitsValGo_zeros (k : ℕ) :
    digitsValGo (List.replicate k '0') 0 = 0 := by
  induction k with
  | zero => rfl
  | succ m ih =>
      rw [List.replicate_succ, digitsValGo_cons]
      simpa using ih

lemma digitsValue_zeros_append (k : ℕ) (ds : List Char) :
    digitsValue (List.replicate k '0' ++ ds) = digitsValue ds := by
  rw [digitsValue, digitsValGo_append, digitsValGo_zeros]
  rfl

/-! ### takeDigits -/

lemma takeDigits_stop : ∀ (rest : List Char),
    (∀ c cs, rest = c :: cs → isDigitCh c = false) →
    takeDigits rest = ([], rest) := by
  intro rest h
  cases rest with
  | nil => rfl
  | cons c cs =>
      rw [takeDigits, h c cs rfl]
      simp

lemma takeDigits_run (ds : List Char) (rest : List Char)
    (hds : ∀ c ∈ ds, isDigitCh c = true)
    (hrest : ∀ c cs, rest = c :: cs → isDigitCh c = false) :
    takeDigits (ds ++ rest) = (ds, rest) := by
  induction ds with
  | nil => exact takeDigits_stop rest hrest
  | cons c cs ih =>
      have hc : isDigitCh c = true := hds c (List.mem_cons_self _ _)
      have hcs : ∀ x ∈ cs, isDigitCh x = true :=
        fun x hx => hds x (List.mem_cons_of_mem _ hx)
      simp only [List.cons_append]
      rw [takeDigits, hc]
      simp only [if_pos trivial]
      rw [ih hcs]

/-! ### Numbers -/

lemma parseNum_cons (c : Char) (cs : List Char) :
    parseNum (c :: cs) =
      if c = '-' then parseNumBody true cs else parseNumBody false (c :: cs) := rfl

lemma parseNumBody_digits (neg : Bool) (ds : List Char) (rest : List Char)
    (hds : ∀ c ∈ ds, isDigitCh c = true) (hne : ds ≠ [])
    (hrest : NumStop rest) :
    parseNumBody neg (ds ++ rest) =
      some (Json.num
        (if neg then -(digitsValue ds : ℤ) else (digitsValue ds : ℤ)) 0,
        rest) := by
  have hstop : ∀ c cs, rest = c :: cs → isDigitCh c = false :=
    fun c cs hc => (hrest c cs hc).1
  simp only [parseNumBody]
  rw [takeDigits_run ds rest hds hstop]
  simp only [if_neg hne]
  cases rest with
  | nil => rfl
  | cons c r2 =>
      have hdot := (hrest c r2 rfl).2
      simp only [if_neg hdot]

lemma parseNumBody_digits_dot (neg : Bool) (I F : List Char) (rest : List Char)
    (hI : ∀ c ∈ I, isDigitCh c = true) (hIne : I ≠ [])
    (hF : ∀ c ∈ F, isDigitCh c = true) (hFne : F ≠ [])
    (hrest : NumStop rest) :
    parseNumBody neg (I ++ '.' :: (F ++ rest)) =
      some (Json.num
        (if neg then -(digitsValue (I ++ F) : ℤ) else (digitsValue (I ++ F) : ℤ))
        F.length, rest) := by
  have hstopF : ∀ c cs, rest = c :: cs → isDigitCh c = false :=
    fun c cs hc => (hrest c cs hc).1
  have hstopDot : ∀ c cs, ('.' :: (F ++ rest) : List Char) = c :: cs →
      isDigitCh c = false := by
    intro c cs hc
    injection hc with h1 h2
    subst h1
    rfl
  simp only [parseNumBody]
  rw [takeDigits_run I ('.' :: (F ++ rest)) hI hstopDot]
  simp only [if_neg hIne]
  rw [takeDigits_run F rest hF hstopF]
  simp only [if_neg hFne]
  simp

lemma padded_all_digit (nval e : ℕ) :
    ∀ c ∈ List.replicate (e + 1 - (natDigits nval).length) '0' ++
        natDigits nval, isDigitCh c = true := by
  intro c hc
  rcases List.mem_append.mp hc with h | h
  · rw [List.eq_of_mem_replicate h]; rfl
  · exact natDigits_all_digit nval c h

lemma padded_length_ge (nval e : ℕ) :
    e + 1 ≤ (List.replicate (e + 1 - (natDigits nval).length) '0' ++
      natDigits nval).length := by
  rw [List.length_append, List.length_replicate]
  have := List.length_pos.mpr (natDigits_ne_nil nval)
  omega

lemma parseNum_digits_head (ds rest : List Char)
    (hds : ∀ c ∈ ds, isDigitCh c = true) (hne : ds ≠ []) :
    parseNum (ds ++ rest) = parseNumBody false (ds ++ rest) := by
  cases ds with
  | nil => exact absurd rfl hne
  | cons c0 cs0 =>
      have hc0 : isDigitCh c0 = true := hds c0 (List.mem_cons_self _ _)
      have hdash : c0 ≠ '-' := digit_ne c0 '-' hc0 rfl
      rw [List.cons_append, parseNum_cons, if_neg hdash, ← List.cons_append]

lemma parseNum_numPrint (m : ℤ) (e : ℕ) (rest : List Char)
    (hrest : NumStop rest) :
    parseNum (numPrint m e ++ rest) = some (Json.num m e, rest) := by
  have hdig := padded_all_digit m.natAbs e
  have hlen := padded_length_ge m.natAbs e
  have hval : digitsValue (List.replicate
        (e + 1 - (natDigits m.natAbs).length) '0' ++ natDigits m.natAbs) =
      m.natAbs :=
    (digitsValue_zeros_append _ _).trans (digitsValue_natDigits _)
  simp only [numPrint]
  obtain ⟨pd, hpd⟩ : ∃ pd, List.replicate
      (e + 1 - (natDigits m.natAbs).length) '0' ++ natDigits m.natAbs = pd :=
    ⟨_, rfl⟩
  rw [hpd] at hdig hlen hval ⊢
  have hpdne : pd ≠ [] := by
    intro hnil
    rw [hnil] at hlen
    simp at hlen
  by_cases he : e = 0
  · rw [if_pos he]
    by_cases hm : m < 0
    · rw [if_pos hm]
      have hshape : ((['-'] ++ pd) ++ rest : List Char) = '-' :: (pd ++ rest) := by
        simp
      rw [hshape, parseNum_cons, if_pos rfl,
        parseNumBody_digits true pd rest hdig hpdne hrest, hval]
      have hm2 : -(m.natAbs : ℤ) = m := by omega
      rw [if_pos rfl, hm2, he]
    · rw [if_neg hm]
      simp only [List.nil_append]
      rw [parseNum_digits_head pd rest hdig hpdne,
        parseNumBody_digits false pd rest hdig hpdne hrest, hval]
      have hm2 : (m.natAbs : ℤ) = m := by omega
      rw [if_neg (by simp), hm2, he]
  · rw [if_neg he]
    have hT : ∀ c ∈ pd.take (pd.length - e), isDigitCh c = true :=
      fun c hmem => hdig c (List.mem_of_mem_take hmem)
    have hD : ∀ c ∈ pd.drop (pd.length - e), isDigitCh c = true :=
      fun c hmem => hdig c (List.mem_of_mem_drop hmem)
    have hTlen : (pd.take (pd.length - e)).length = pd.length - e := by
      rw [List.length_take]
      omega
    have hDlen : (pd.drop (pd.length - e)).length = e := by
      rw [List.length_drop]
      omega
    have hTne : pd.take (pd.length - e) ≠ [] := by
      intro hnil
      rw [hnil] at hTlen
      simp at hTlen
      omega
    have hDne : pd.drop (pd.length - e) ≠ [] := by
      intro hnil
      rw [hnil] at hDlen
      simp at hDlen
      exact he hDlen.symm
    have hTD : digitsValue (pd.take (pd.length - e) ++ pd.drop (pd.length - e)) =
        m.natAbs := by
      rw [List.take_append_drop]
      exact hval
    by_cases hm : m < 0
    · rw [if_pos hm]
      have hshape : ((['-'] ++
          (pd.take (pd.length - e) ++ '.' :: pd.drop (pd.length - e))) ++
            rest : List Char) =
          '-' :: (pd.take (pd.length - e) ++
            '.' :: (pd.drop (pd.length - e) ++ rest)) := by simp
      rw [hshape, parseNum_cons, if_pos rfl,
        parseNumBody_digits_dot true _ _ rest hT hTne hD hDne hrest,
        hTD, hDlen]
      have hm2 : -(m.natAbs : ℤ) = m := by omega
      rw [if_pos rfl, hm2]
    · rw [if_neg hm]
      simp only [List.nil_append]
      have hshape : ((pd.take (pd.length - e) ++
          '.' :: pd.drop (pd.length - e)) ++ rest : List Char) =
          pd.take (pd.length - e) ++
            '.' :: (pd.drop (pd.length - e) ++ rest) := by simp
      rw [hshape, parseNum_digits_head _ _ hT hTne,
        parseNumBody_digits_dot false _ _ rest hT hTne hD hDne hrest,
        hTD, hDlen]
      have hm2 : (m.natAbs : ℤ) = m := by omega
      rw [if_neg (by simp), hm2]

/-! ### Strings -/

lemma hexDigitVal_hexDigitChar (n : ℕ) (h : n < 16) :
    hexDigitVal (hexDigitChar n) = some n := by
  interval_cases n <;> rfl

lemma escapeList_cons (c : Char) (cs : List Char) :
    escapeList (c :: cs) = escapeChar c ++ escapeList cs := rfl

lemma escapeChar_length_pos (c : Char) : 1 ≤ (escapeChar c).length := by
  rw [escapeChar]
  split_ifs <;> simp

lemma parseStrBody_quote (fuel : ℕ) (rest : List Char) :
    parseStrBody (fuel + 1) ('"' :: rest) = some ([], rest) := rfl

lemma parseStrBody_plain (fuel : ℕ) (c : Char) (Y : List Char) (h1 : c ≠ '"')
    (h2 : c ≠ '\\') :
    parseStrBody (fuel + 1) (c :: Y) =
      (parseStrBody fuel Y).map (fun p => (c :: p.fst, p.snd)) := by
  have hstep : parseStrBody (fuel + 1) (c :: Y) =
      (if c = '"' then some ([], Y)
       else if c = '\\' then
         (match Y with
          | [] => none
          | e :: r =>
              match unescapeOf e with
              | some u => (parseStrBody fuel r).map (fun p => (u :: p.fst, p.snd))
              | none =>
                  if e = 'u' then
                    (match r with
                     | k1 :: k2 :: k3 :: k4 :: r2 =>
                         (hex4 k1 k2 k3 k4).bind (fun code =>
                           (parseStrBody fuel r2).map (fun p =>
                             (Char.ofNat code :: p.fst, p.snd)))
                     | _ => none)
                  else none)
       else (parseStrBody fuel Y).map (fun p => (c :: p.fst, p.snd))) := rfl
  rw [hstep, if_neg h1, if_neg h2]

lemma hex4_00 (h3 h4 : Char) (c2 d : ℕ) (hh3 : hexDigitVal h3 = some c2)
    (hh4 : hexDigitVal h4 = some d) :
    hex4 '0' '0' h3 h4 = some (((0 * 16 + 0) * 16 + c2) * 16 + d) := by
  rw [hex4]
  rw [show hexDigitVal '0' = some 0 from rfl, hh3, hh4]
  rfl

lemma parseStrBody_escU_hex (fuel : ℕ) (h3 h4 : Char) (Y : List Char)
    (c2 d : ℕ) (hh3 : hexDigitVal h3 = some c2) (hh4 : hexDigitVal h4 = some d) :
    parseStrBody (fuel + 1) ('\\' :: 'u' :: '0' :: '0' :: h3 :: h4 :: Y) =
      (parseStrBody fuel Y).map (fun p =>
        (Char.ofNat (((0 * 16 + 0) * 16 + c2) * 16 + d) :: p.fst, p.snd)) := by
  have hstep : parseStrBody (fuel + 1)
        ('\\' :: 'u' :: '0' :: '0' :: h3 :: h4 :: Y) =
      (hex4 '0' '0' h3 h4).bind (fun code =>
        (parseStrBody fuel Y).map (fun p =>
          (Char.ofNat code :: p.fst, p.snd))) := rfl
  rw [hstep, hex4_00 h3 h4 c2 d hh3 hh4]
  rfl

lemma parseStrBody_escape (cs : List Char) : ∀ fuel rest,
    (escapeList cs).length ≤ fuel →
    parseStrBody (fuel + 1) (escapeList cs ++ '"' :: rest) = some (cs, rest) := by
  induction cs with
  | nil => intro fuel rest _; exact parseStrBody_quote fuel rest
  | cons c cs' ih =>
      intro fuel rest hfuel
      rw [escapeList_cons] at hfuel ⊢
      rw [List.append_assoc]
      have hclen := escapeChar_length_pos c
      rw [List.length_append] at hfuel
      cases fuel with
      | zero => omega
      | succ f =>
          have hf : (escapeList cs').length ≤ f := by omega
          by_cases h1 : c = '"'
          · subst h1
            rw [show escapeChar '"' = ['\\', '"'] from rfl]
            rw [show (['\\', '"'] ++ (escapeList cs' ++ '"' :: rest) : List Char) =
              '\\' :: '"' :: (escapeList cs' ++ '"' :: rest) from rfl]
            rw [show parseStrBody (f + 1 + 1)
                ('\\' :: '"' :: (escapeList cs' ++ '"' :: rest)) =
              (parseStrBody (f + 1) (escapeList cs' ++ '"' :: rest)).map
                (fun p => ('"' :: p.fst, p.snd)) from rfl]
            rw [ih f rest hf]
            rfl
          by_cases h2 : c = '\\'
          · subst h2
            rw [show escapeChar '\\' = ['\\', '\\'] from rfl]
            rw [show (['\\', '\\'] ++ (escapeList cs' ++ '"' :: rest) : List Char) =
              '\\' :: '\\' :: (escapeList cs' ++ '"' :: rest) from rfl]
            rw [show parseStrBody (f + 1 + 1)
                ('\\' :: '\\' :: (escapeList cs' ++ '"' :: rest)) =
              (parseStrBody (f + 1) (escapeList cs' ++ '"' :: rest)).map
                (fun p => ('\\' :: p.fst, p.snd)) from rfl]
            rw [ih f rest hf]
            rfl
          by_cases h3 : c = Char.ofNat 8
          · subst h3
            rw [show escapeChar (Char.ofNat 8) = ['\\', 'b'] from rfl]
            rw [show (['\\', 'b'] ++ (escapeList cs' ++ '"' :: rest) : List Char) =
              '\\' :: 'b' :: (escapeList cs' ++ '"' :: rest) from rfl]
            rw [show parseStrBody (f + 1 + 1)
                ('\\' :: 'b' :: (escapeList cs' ++ '"' :: rest)) =
              (parseStrBody (f + 1) (escapeList cs' ++ '"' :: rest)).map
                (fun p => (Char.ofNat 8 :: p.fst, p.snd)) from rfl]
            rw [ih f rest hf]
            rfl
          by_cases h4 : c = Char.ofNat 9
          · subst h4
            rw [show escapeChar (Char.ofNat 9) = ['\\', 't'] from rfl]
            rw [show (['\\', 't'] ++ (escapeList cs' ++ '"' :: rest) : List Char) =
              '\\' :: 't' :: (escapeList cs' ++ '"' :: rest) from rfl]
            rw [show parseStrBody (f + 1 + 1)
                ('\\' :: 't' :: (escapeList cs' ++ '"' :: rest)) =
              (parseStrBody (f + 1) (escapeList cs' ++ '"' :: rest)).map
                (fun p => (Char.ofNat 9 :: p.fst, p.snd)) from rfl]
            rw [ih f rest hf]
            rfl
          by_cases h5 : c = Char.ofNat 10
          · subst h5
            rw [show escapeChar (Char.ofNat 10) = ['\\', 'n'] from rfl]
            rw [show (['\\', 'n'] ++ (escapeList cs' ++ '"' :: rest) : List Char) =
              '\\' :: 'n' :: (escapeList cs' ++ '"' :: rest) from rfl]
            rw [show parseStrBody (f + 1 + 1)
                ('\\' :: 'n' :: (escapeList cs' ++ '"' :: rest)) =
              (parseStrBody (f + 1) (escapeList cs' ++ '"' :: rest)).map
                (fun p => (Char.ofNat 10 :: p.fst, p.snd)) from rfl]
            rw [ih f rest hf]
            rfl
          by_cases h6 : c = Char.ofNat 12
          · subst h6
            rw [show escapeChar (Char.ofNat 12) = ['\\', 'f'] from rfl]
            rw [show (['\\', 'f'] ++ (escapeList cs' ++ '"' :: rest) : List Char) =
              '\\' :: 'f' :: (escapeList cs' ++ '"' :: rest) from rfl]
            rw [show parseStrBody (f + 1 + 1)
                ('\\' :: 'f' :: (escapeList cs' ++ '"' :: rest)) =
              (parseStrBody (f + 1) (escapeList cs' ++ '"' :: rest)).map
                (fun p => (Char.ofNat 12 :: p.fst, p.snd)) from rfl]
            rw [ih f rest hf]
            rfl
          by_cases h7 : c = Char.ofNat 13
          · subst h7
            rw [show escapeChar (Char.ofNat 13) = ['\\', 'r'] from rfl]
            rw [show (['\\', 'r'] ++ (escapeList cs' ++ '"' :: rest) : List Char) =
              '\\' :: 'r' :: (escapeList cs' ++ '"' :: rest) from rfl]
            rw [show parseStrBody (f + 1 + 1)
                ('\\' :: 'r' :: (escapeList cs' ++ '"' :: rest)) =
              (parseStrBody (f + 1) (escapeList cs' ++ '"' :: rest)).map
                (fun p => (Char.ofNat 13 :: p.fst, p.snd)) from rfl]
            rw [ih f rest hf]
            rfl
          by_cases h8 : c.toNat < 32
          · have hesc : escapeChar c = ['\\', 'u', '0', '0',
                hexDigitChar (c.toNat / 16), hexDigitChar (c.toNat % 16)] := by
              rw [escapeChar, if_neg h1, if_neg h2, if_neg h3, if_neg h4,
                if_neg h5, if_neg h6, if_neg h7, if_pos h8]
            rw [hesc]
            rw [show (['\\', 'u', '0', '0', hexDigitChar (c.toNat / 16),
                hexDigitChar (c.toNat % 16)] ++
                  (escapeList cs' ++ '"' :: rest) : List Char) =
              '\\' :: 'u' :: '0' :: '0' :: hexDigitChar (c.toNat / 16) ::
                hexDigitChar (c.toNat % 16) ::
                  (escapeList cs' ++ '"' :: rest) from rfl]
            rw [parseStrBody_escU_hex (f + 1)
              (hexDigitChar (c.toNat / 16)) (hexDigitChar (c.toNat % 16)) _
              (c.toNat / 16) (c.toNat % 16)
              (hexDigitVal_hexDigitChar _ (by omega))
              (hexDigitVal_hexDigitChar _ (Nat.mod_lt _ (by omega)))]
            rw [ih f rest hf]
            have hc : Char.ofNat (((0 * 16 + 0) * 16 + c.toNat / 16) * 16 +
                c.toNat % 16) = c := by
              have heq2 : ((0 * 16 + 0) * 16 + c.toNat / 16) * 16 +
                  c.toNat % 16 = c.toNat := by omega
              rw [heq2]
              exact Char.ofNat_toNat c
            rw [hc]
            rfl
          · have hesc : escapeChar c = [c] := by
              rw [escapeChar, if_neg h1, if_neg h2, if_neg h3, if_neg h4,
                if_neg h5, if_neg h6, if_neg h7, if_neg h8]
            rw [hesc]
            rw [show (([c] ++ (escapeList cs' ++ '"' :: rest)) : List Char) =
              c :: (escapeList cs' ++ '"' :: rest) from rfl]
            rw [parseStrBody_plain (f + 1) c _ h1 h2, ih f rest hf]
            rfl

/-! ### Printer head characters -/

lemma padded_head (k : ℕ) (n : ℕ) :
    ∃ c cs, List.replicate k '0' ++ natDigits n = c :: cs ∧
      isDigitCh c = true := by
  cases k with
  | zero =>
      simp only [List.replicate, List.nil_append]
      cases hd : natDigits n with
      | nil => exact absurd hd (natDigits_ne_nil n)
      | cons c cs =>
          exact ⟨c, cs, rfl, natDigits_all_digit n c
            (hd ▸ List.mem_cons_self _ _)⟩
  | succ j =>
      refine ⟨'0', List.replicate j '0' ++ natDigits n, ?_, rfl⟩
      rw [List.replicate_succ, List.cons_append]

lemma numPrint_head (m : ℤ) (e : ℕ) :
    ∃ c cs, numPrint m e = c :: cs ∧ (c = '-' ∨ isDigitCh c = true) := by
  simp only [numPrint]
  by_cases hm : m < 0
  · rw [if_pos hm]
    exact ⟨'-', _, rfl, Or.inl rfl⟩
  · rw [if_neg hm, List.nil_append]
    obtain ⟨c, cs, hcc, hdg⟩ :=
      padded_head (e + 1 - (natDigits m.natAbs).length) m.natAbs
    by_cases he : e = 0
    · rw [if_pos he, hcc]
      exact ⟨c, cs, rfl, Or.inr hdg⟩
    · rw [if_neg he, hcc]
      have hL := padded_length_ge m.natAbs e
      rw [hcc] at hL
      obtain ⟨j, hj⟩ : ∃ j, (c :: cs).length - e = j + 1 :=
        ⟨(c :: cs).length - e - 1, by
          simp only [List.length_cons] at hL ⊢
          omega⟩
      rw [hj, List.take_succ_cons, List.cons_append]
      exact ⟨c, _, rfl, Or.inr hdg⟩

lemma printAt_head (d : ℕ) (v : Json) :
    ∃ c cs, printAt d v = c :: cs ∧ isWsChar c = false ∧ c ≠ ']' := by
  cases v with
  | null => exact ⟨'n', _, rfl, rfl, by decide⟩
  | bool b =>
      cases b with
      | false => exact ⟨'f', _, rfl, rfl, by decide⟩
      | true => exact ⟨'t', _, rfl, rfl, by decide⟩
  | num m e =>
      obtain ⟨c, cs, hcc, hdg⟩ := numPrint_head m e
      refine ⟨c, cs, hcc, ?_, ?_⟩
      · rcases hdg with h | h
        · subst h; rfl
        · exact digit_not_ws c h
      · rcases hdg with h | h
        · subst h; decide
        · exact digit_ne c ']' h rfl
  | str s => exact ⟨'"', _, rfl, rfl, by decide⟩
  | arr l =>
      cases l with
      | nil => exact ⟨'[', _, rfl, rfl, by decide⟩
      | cons a as => exact ⟨'[', _, rfl, rfl, by decide⟩
  | obj l =>
      cases l with
      | nil => exact ⟨'\x7b', _, rfl, rfl, by decide⟩
      | cons a as => exact ⟨'\x7b', _, rfl, rfl, by decide⟩

lemma numStop_items (d : ℕ) (vs : List Json) (X : List Char) :
    NumStop (printItemsAfter d vs ++ '\n' :: X) := by
  intro c cs h
  cases vs with
  | nil =>
      rw [show printItemsAfter d [] = ([] : List Char) from rfl,
        List.nil_append] at h
      injection h with h1 _
      subst h1
      exact ⟨rfl, by decide⟩
  | cons w ws =>
      rw [show printItemsAfter d (w :: ws) =
          ',' :: '\n' :: (indentChars d ++ printAt d w) ++
            printItemsAfter d ws from rfl] at h
      simp only [List.cons_append] at h
      injection h with h1 _
      subst h1
      exact ⟨rfl, by decide⟩

lemma numStop_members (d : ℕ) (kvs : List (String × Json)) (X : List Char) :
    NumStop (printMembersAfter d kvs ++ '\n' :: X) := by
  intro c cs h
  cases kvs with
  | nil =>
      rw [show printMembersAfter d [] = ([] : List Char) from rfl,
        List.nil_append] at h
      injection h with h1 _
      subst h1
      exact ⟨rfl, by decide⟩
  | cons kv kvs' =>
      rw [show printMembersAfter d (kv :: kvs') =
          ',' :: '\n' :: (indentChars d ++
            ('"' :: (escapeList kv.fst.data ++ '"' :: ':' :: ' ' ::
              printAt d kv.snd))) ++
            printMembersAfter d kvs' from rfl] at h
      simp only [List.cons_append] at h
      injection h with h1 _
      subst h1
      exact ⟨rfl, by decide⟩

lemma numStop_nil : NumStop ([] : List Char) := by
  intro c cs h
  exact absurd h (by simp)

/-! ### Fuel positivity -/

lemma pfuel_pos (v : Json) : 1 ≤ pfuel v := by
  cases v with
  | arr l => cases l <;> (simp [pfuel]; try omega)
  | obj l => cases l <;> (simp [pfuel]; try omega)
  | null => simp [pfuel]
  | bool b => simp [pfuel]
  | num m e => simp [pfuel]
  | str s => simp [pfuel]

lemma gfuel_pos (vs : List Json) : 1 ≤ gfuel vs := by
  cases vs <;> (simp [gfuel]; try omega)

lemma hfuel_pos (kvs : List (String × Json)) : 1 ≤ hfuel kvs := by
  cases kvs <;> (simp [hfuel]; try omega)

/-! ### One-step reductions of the parser -/

lemma parseVal_succ_eq (fuel : ℕ) (input : List Char) :
    parseVal (fuel + 1) input =
      match skipWs input with
      | [] => none
      | c :: rest =>
          if c = '"' then
            match parseStrBody (rest.length + 1) rest with
            | some (cs, r) => some (Json.str (String.mk cs), r)
            | none => none
          else if c = '[' then
            match skipWs rest with
            | [] => none
            | c2 :: r2 =>
                if c2 = ']' then some (Json.arr [], r2)
                else
                  match parseVal fuel (c2 :: r2) with
                  | some (v, r) => parseArrTail fuel [v] r
                  | none => none
          else if c = '\x7b' then
            match skipWs rest with
            | [] => none
            | c2 :: r2 =>
                if c2 = '\x7d' then some (Json.obj [], r2)
                else
                  match parseMember fuel (c2 :: r2) with
                  | some (kv, r) => parseObjTail fuel [kv] r
                  | none => none
          else if c = 'n' then
            match stripChars ['u', 'l', 'l'] rest with
            | some r => some (Json.null, r)
            | none => none
          else if c = 't' then
            match stripChars ['r', 'u', 'e'] rest with
            | some r => some (Json.bool true, r)
            | none => none
          else if c = 'f' then
            match stripChars ['a', 'l', 's', 'e'] rest with
            | some r => some (Json.bool false, r)
            | none => none
          else parseNum (c :: rest) := rfl

lemma parseVal_ws (fuel : ℕ) (pre X : List Char) (h : WsList pre) :
    parseVal (fuel + 1) (pre ++ X) = parseVal (fuel + 1) X := by
  rw [parseVal_succ_eq fuel (pre ++ X), parseVal_succ_eq fuel X,
    skipWs_ws_append pre X h]

lemma parseVal_str_step (fuel : ℕ) (X : List Char) :
    parseVal (fuel + 1) ('"' :: X) =
      match parseStrBody (X.length + 1) X with
      | some (cs, r) => some (Json.str (String.mk cs), r)
      | none => none := rfl

lemma parseVal_arr_step (fuel : ℕ) (X : List Char) :
    parseVal (fuel + 1) ('[' :: X) =
      match skipWs X with
      | [] => none
      | c2 :: r2 =>
          if c2 = ']' then some (Json.arr [], r2)
          else
            match parseVal fuel (c2 :: r2) with
            | some (v, r) => parseArrTail fuel [v] r
            | none => none := rfl

lemma parseVal_obj_step (fuel : ℕ) (X : List Char) :
    parseVal (fuel + 1) ('\x7b' :: X) =
      match skipWs X with
      | [] => none
      | c2 :: r2 =>
          if c2 = '\x7d' then some (Json.obj [], r2)
          else
            match parseMember fuel (c2 :: r2) with
            | some (kv, r) => parseObjTail fuel [kv] r
            | none => none := rfl

lemma parseVal_null_step (fuel : ℕ) (rest : List Char) :
    parseVal (fuel + 1) ('n' :: 'u' :: 'l' :: 'l' :: rest) =
      some (Json.null, rest) := rfl

lemma parseVal_true_step (fuel : ℕ) (rest : List Char) :
    parseVal (fuel + 1) ('t' :: 'r' :: 'u' :: 'e' :: rest) =
      some (Json.bool true, rest) := rfl

lemma parseVal_false_step (fuel : ℕ) (rest : List Char) :
    parseVal (fuel + 1) ('f' :: 'a' :: 'l' :: 's' :: 'e' :: rest) =
      some (Json.bool false, rest) := rfl

lemma parseVal_arrNil_step (fuel : ℕ) (rest : List Char) :
    parseVal (fuel + 1) ('[' :: ']' :: rest) = some (Json.arr [], rest) := rfl

lemma parseVal_objNil_step (fuel : ℕ) (rest : List Char) :
    parseVal (fuel + 1) ('\x7b' :: '\x7d' :: rest) =
      some (Json.obj [], rest) := rfl

lemma parseVal_other_step (fuel : ℕ) (c : Char) (X : List Char)
    (h2 : isWsChar c = false) (h3 : c ≠ '"') (h4 : c ≠ '[')
    (h5 : c ≠ '\x7b') (h6 : c ≠ 'n') (h7 : c ≠ 't') (h8 : c ≠ 'f') :
    parseVal (fuel + 1) (c :: X) = parseNum (c :: X) := by
  rw [parseVal_succ_eq, skipWs_not_ws c X h2]
  simp only [if_neg h3, if_neg h4, if_neg h5, if_neg h6, if_neg h7, if_neg h8]

lemma parseArrTail_succ_eq (fuel : ℕ) (acc : List Json) (input : List Char) :
    parseArrTail (fuel + 1) acc input =
      match skipWs input with
      | [] => none
      | c :: r =>
          if c = ']' then some (Json.arr acc, r)
          else if c = ',' then
            match parseVal fuel r with
            | some (v, r2) => parseArrTail fuel (acc ++ [v]) r2
            | none => none
          else none := rfl

lemma parseObjTail_succ_eq (fuel : ℕ) (acc : List (String × Json))
    (input : List Char) :
    parseObjTail (fuel + 1) acc input =
      match skipWs input with
      | [] => none
      | c :: r =>
          if c = '\x7d' then some (Json.obj acc, r)
          else if c = ',' then
            match parseMember fuel r with
            | some (kv, r2) => parseObjTail fuel (acc ++ [kv]) r2
            | none => none
          else none := rfl

lemma parseMember_str_step (fuel : ℕ) (X : List Char) :
    parseMember (fuel + 1) ('"' :: X) =
      match parseStrBody (X.length + 1) X with
      | some (cs, r) =>
          (match skipWs r with
           | [] => none
           | c2 :: r2 =>
               if c2 = ':' then
                 match parseVal fuel r2 with
                 | some (v, r3) => some ((String.mk cs, v), r3)
                 | none => none
               else none)
      | none => none := rfl

lemma parseMember_succ_eq (fuel : ℕ) (input : List Char) :
    parseMember (fuel + 1) input =
      match skipWs input with
      | [] => none
      | c :: rest =>
          if c = '"' then
            match parseStrBody (rest.length + 1) rest with
            | some (cs, r) =>
                (match skipWs r with
                 | [] => none
                 | c2 :: r2 =>
                     if c2 = ':' then
                       match parseVal fuel r2 with
                       | some (v, r3) => some ((String.mk cs, v), r3)
                       | none => none
                     else none)
            | none => none
          else none := rfl

lemma parseMember_ws (fuel : ℕ) (pre X : List Char) (h : WsList pre) :
    parseMember (fuel + 1) (pre ++ X) = parseMember (fuel + 1) X := by
  rw [parseMember_succ_eq fuel (pre ++ X), parseMember_succ_eq fuel X,
    skipWs_ws_append pre X h]

/-! ### Composite reductions -/

lemma parseVal_arrCons_reduce (fuel d : ℕ) (v : Json) (vs : List Json)
    (rest : List Char)
    (hv : parseVal fuel (printAt (d + 1) v ++
        (printItemsAfter (d + 1) vs ++ '\n' :: (indentChars d ++ ']' :: rest))) =
      some (v, printItemsAfter (d + 1) vs ++ '\n' :: (indentChars d ++ ']' :: rest)))
    (hq : parseArrTail fuel [v]
        (printItemsAfter (d + 1) vs ++ '\n' :: (indentChars d ++ ']' :: rest)) =
      some (Json.arr (v :: vs), rest)) :
    parseVal (fuel + 1) (printAt d (Json.arr (v :: vs)) ++ rest) =
      some (Json.arr (v :: vs), rest) := by
  rw [show printAt d (Json.arr (v :: vs)) ++ rest =
      '[' :: (('\n' :: indentChars (d + 1)) ++ (printAt (d + 1) v ++
        (printItemsAfter (d + 1) vs ++ '\n' :: (indentChars d ++ ']' :: rest))))
      from by
    rw [show printAt d (Json.arr (v :: vs)) =
      '[' :: ('\n' :: (indentChars (d + 1) ++ printAt (d + 1) v ++
        printItemsAfter (d + 1) vs ++ '\n' :: (indentChars d ++ [']'])))
      from rfl]
    simp]
  rw [parseVal_arr_step,
    skipWs_ws_append ('\n' :: indentChars (d + 1)) _ (wsList_newline_indent _)]
  obtain ⟨c0, cs0, hpv, hnws, hnbr⟩ := printAt_head (d + 1) v
  rw [hpv, List.cons_append, skipWs_not_ws c0 _ hnws]
  show (if c0 = ']' then
      some (Json.arr [], cs0 ++ (printItemsAfter (d + 1) vs ++
        '\n' :: (indentChars d ++ ']' :: rest)))
    else
      match parseVal fuel (c0 :: (cs0 ++ (printItemsAfter (d + 1) vs ++
          '\n' :: (indentChars d ++ ']' :: rest)))) with
      | some (w, r) => parseArrTail fuel [w] r
      | none => none) = some (Json.arr (v :: vs), rest)
  rw [if_neg hnbr, ← List.cons_append, ← hpv, hv]
  exact hq

lemma parseVal_objCons_reduce (fuel d : ℕ) (kv : String × Json)
    (kvs : List (String × Json)) (rest : List Char)
    (hm : parseMember fuel ('"' :: (escapeList kv.fst.data ++ '"' :: ':' :: ' ' ::
        (printAt (d + 1) kv.snd ++ (printMembersAfter (d + 1) kvs ++
          '\n' :: (indentChars d ++ '\x7d' :: rest))))) =
      some (kv, printMembersAfter (d + 1) kvs ++
        '\n' :: (indentChars d ++ '\x7d' :: rest)))
    (hh : parseObjTail fuel [kv]
        (printMembersAfter (d + 1) kvs ++ '\n' :: (indentChars d ++ '\x7d' :: rest)) =
      some (Json.obj (kv :: kvs), rest)) :
    parseVal (fuel + 1) (printAt d (Json.obj (kv :: kvs)) ++ rest) =
      some (Json.obj (kv :: kvs), rest) := by
  rw [show printAt d (Json.obj (kv :: kvs)) ++ rest =
      '\x7b' :: (('\n' :: indentChars (d + 1)) ++
        ('"' :: (escapeList kv.fst.data ++ '"' :: ':' :: ' ' ::
          (printAt (d + 1) kv.snd ++ (printMembersAfter (d + 1) kvs ++
            '\n' :: (indentChars d ++ '\x7d' :: rest))))))
      from by
    rw [show printAt d (Json.obj (kv :: kvs)) =
      '\x7b' :: ('\n' :: (indentChars (d + 1) ++
        ('"' :: (escapeList kv.fst.data ++ '"' :: ':' :: ' ' ::
          printAt (d + 1) kv.snd)) ++
        printMembersAfter (d + 1) kvs ++ '\n' :: (indentChars d ++ ['\x7d'])))
      from rfl]
    simp]
  rw [parseVal_obj_step,
    skipWs_ws_append ('\n' :: indentChars (d + 1)) _ (wsList_newline_indent _),
    skipWs_not_ws '"' _ rfl]
  show (if ('"' : Char) = '\x7d' then
      some (Json.obj [], escapeList kv.fst.data ++ '"' :: ':' :: ' ' ::
        (printAt (d + 1) kv.snd ++ (printMembersAfter (d + 1) kvs ++
          '\n' :: (indentChars d ++ '\x7d' :: rest))))
    else
      match parseMember fuel ('"' :: (escapeList kv.fst.data ++ '"' :: ':' :: ' ' ::
          (printAt (d + 1) kv.snd ++ (printMembersAfter (d + 1) kvs ++
            '\n' :: (indentChars d ++ '\x7d' :: rest))))) with
      | some (kv2, r) => parseObjTail fuel [kv2] r
      | none => none) = some (Json.obj (kv :: kvs), rest)
  rw [if_neg (by decide), hm]
  exact hh

lemma parseArrTail_close (fuel : ℕ) (acc : List Json) (d : ℕ) (rest : List Char) :
    parseArrTail (fuel + 1) acc ('\n' :: (indentChars d ++ ']' :: rest)) =
      some (Json.arr acc, rest) := by
  rw [parseArrTail_succ_eq,
    show ('\n' :: (indentChars d ++ ']' :: rest) : List Char) =
      ('\n' :: indentChars d) ++ (']' :: rest) from by simp,
    skipWs_ws_append _ _ (wsList_newline_indent d), skipWs_not_ws ']' _ rfl]
  show (if (']' : Char) = ']' then some (Json.arr acc, rest)
    else if (']' : Char) = ',' then
      match parseVal fuel rest with
      | some (v, r2) => parseArrTail fuel (acc ++ [v]) r2
      | none => none
    else none) = some (Json.arr acc, rest)
  rw [if_pos rfl]

lemma parseObjTail_close (fuel : ℕ) (acc : List (String × Json)) (d : ℕ)
    (rest : List Char) :
    parseObjTail (fuel + 1) acc ('\n' :: (indentChars d ++ '\x7d' :: rest)) =
      some (Json.obj acc, rest) := by
  rw [parseObjTail_succ_eq,
    show ('\n' :: (indentChars d ++ '\x7d' :: rest) : List Char) =
      ('\n' :: indentChars d) ++ ('\x7d' :: rest) from by simp,
    skipWs_ws_append _ _ (wsList_newline_indent d), skipWs_not_ws '\x7d' _ rfl]
  show (if ('\x7d' : Char) = '\x7d' then some (Json.obj acc, rest)
    else if ('\x7d' : Char) = ',' then
      match parseMember fuel rest with
      | some (kv, r2) => parseObjTail fuel (acc ++ [kv]) r2
      | none => none
    else none) = some (Json.obj acc, rest)
  rw [if_pos rfl]

lemma parseArrTail_consume (fuel d : ℕ) (w : Json) (ws' : List Json)
    (acc : List Json) (rest : List Char)
    (hw : parseVal fuel (('\n' :: indentChars (d + 1)) ++ (printAt (d + 1) w ++
        (printItemsAfter (d + 1) ws' ++ '\n' :: (indentChars d ++ ']' :: rest)))) =
      some (w, printItemsAfter (d + 1) ws' ++ '\n' :: (indentChars d ++ ']' :: rest)))
    (hq : parseArrTail fuel (acc ++ [w])
        (printItemsAfter (d + 1) ws' ++ '\n' :: (indentChars d ++ ']' :: rest)) =
      some (Json.arr (acc ++ w :: ws'), rest)) :
    parseArrTail (fuel + 1) acc
        (printItemsAfter (d + 1) (w :: ws') ++
          '\n' :: (indentChars d ++ ']' :: rest)) =
      some (Json.arr (acc ++ w :: ws'), rest) := by
  rw [show printItemsAfter (d + 1) (w :: ws') ++
      '\n' :: (indentChars d ++ ']' :: rest) =
      ',' :: (('\n' :: indentChars (d + 1)) ++ (printAt (d + 1) w ++
        (printItemsAfter (d + 1) ws' ++ '\n' :: (indentChars d ++ ']' :: rest))))
      from by
    rw [show printItemsAfter (d + 1) (w :: ws') =
      ',' :: '\n' :: (indentChars (d + 1) ++ printAt (d + 1) w) ++
        printItemsAfter (d + 1) ws' from rfl]
    simp]
  rw [parseArrTail_succ_eq, skipWs_not_ws ',' _ rfl]
  show (if (',' : Char) = ']' then
      some (Json.arr acc, ('\n' :: indentChars (d + 1)) ++ (printAt (d + 1) w ++
        (printItemsAfter (d + 1) ws' ++ '\n' :: (indentChars d ++ ']' :: rest))))
    else if (',' : Char) = ',' then
      match parseVal fuel (('\n' :: indentChars (d + 1)) ++ (printAt (d + 1) w ++
          (printItemsAfter (d + 1) ws' ++ '\n' :: (indentChars d ++ ']' :: rest)))) with
      | some (v, r2) => parseArrTail fuel (acc ++ [v]) r2
      | none => none
    else none) = some (Json.arr (acc ++ w :: ws'), rest)
  rw [if_neg (by decide), if_pos rfl, hw]
  exact hq

lemma parseObjTail_consume (fuel d : ℕ) (kv : String × Json)
    (kvs' : List (String × Json)) (acc : List (String × Json)) (rest : List Char)
    (hm : parseMember fuel (('\n' :: indentChars (d + 1)) ++
        ('"' :: (escapeList kv.fst.data ++ '"' :: ':' :: ' ' ::
          (printAt (d + 1) kv.snd ++ (printMembersAfter (d + 1) kvs' ++
            '\n' :: (indentChars d ++ '\x7d' :: rest)))))) =
      some (kv, printMembersAfter (d + 1) kvs' ++
        '\n' :: (indentChars d ++ '\x7d' :: rest)))
    (hh : parseObjTail fuel (acc ++ [kv])
        (printMembersAfter (d + 1) kvs' ++
          '\n' :: (indentChars d ++ '\x7d' :: rest)) =
      some (Json.obj (acc ++ kv :: kvs'), rest)) :
    parseObjTail (fuel + 1) acc
        (printMembersAfter (d + 1) (kv :: kvs') ++
          '\n' :: (indentChars d ++ '\x7d' :: rest)) =
      some (Json.obj (acc ++ kv :: kvs'), rest) := by
  rw [show printMembersAfter (d + 1) (kv :: kvs') ++
      '\n' :: (indentChars d ++ '\x7d' :: rest) =
      ',' :: (('\n' :: indentChars (d + 1)) ++
        ('"' :: (escapeList kv.fst.data ++ '"' :: ':' :: ' ' ::
          (printAt (d + 1) kv.snd ++ (printMembersAfter (d + 1) kvs' ++
            '\n' :: (indentChars d ++ '\x7d' :: rest))))))
      from by
    rw [show printMembersAfter (d + 1) (kv :: kvs') =
      ',' :: '\n' :: (indentChars (d + 1) ++
        ('"' :: (escapeList kv.fst.data ++ '"' :: ':' :: ' ' ::
          printAt (d + 1) kv.snd))) ++
        printMembersAfter (d + 1) kvs' from rfl]
    simp]
  rw [parseObjTail_succ_eq, skipWs_not_ws ',' _ rfl]
  show (if (',' : Char) = '\x7d' then
      some (Json.obj acc, ('\n' :: indentChars (d + 1)) ++
        ('"' :: (escapeList kv.fst.data ++ '"' :: ':' :: ' ' ::
          (printAt (d + 1) kv.snd ++ (printMembersAfter (d + 1) kvs' ++
            '\n' :: (indentChars d ++ '\x7d' :: rest))))))
    else if (',' : Char) = ',' then
      match parseMember fuel (('\n' :: indentChars (d + 1)) ++
          ('"' :: (escapeList kv.fst.data ++ '"' :: ':' :: ' ' ::
            (printAt (d + 1) kv.snd ++ (printMembersAfter (d + 1) kvs' ++
              '\n' :: (indentChars d ++ '\x7d' :: rest)))))) with
      | some (kv2, r2) => parseObjTail fuel (acc ++ [kv2]) r2
      | none => none
    else none) = some (Json.obj (acc ++ kv :: kvs'), rest)
  rw [if_neg (by decide), if_pos rfl, hm]
  exact hh

lemma parseMember_reduce (fuel d : ℕ) (k : String) (v : Json) (rest : List Char)
    (hv : parseVal fuel (' ' :: (printAt d v ++ rest)) = some (v, rest)) :
    parseMember (fuel + 1) ('"' :: (escapeList k.data ++ '"' :: ':' :: ' ' ::
        (printAt d v ++ rest))) = some ((k, v), rest) := by
  rw [parseMember_str_step]
  have hlen : (escapeList k.data).length ≤
      (escapeList k.data ++ '"' :: ':' :: ' ' :: (printAt d v ++ rest)).length := by
    rw [List.length_append]
    omega
  rw [parseStrBody_escape k.data
    (escapeList k.data ++ '"' :: ':' :: ' ' :: (printAt d v ++ rest)).length
    (':' :: ' ' :: (printAt d v ++ rest)) hlen]
  show (match skipWs (':' :: ' ' :: (printAt d v ++ rest)) with
        | [] => none
        | c2 :: r2 =>
            if c2 = ':' then
              match parseVal fuel r2 with
              | some (w, r3) => some ((String.mk k.data, w), r3)
              | none => none
            else none) = some ((k, v), rest)
  rw [skipWs_not_ws ':' _ rfl]
  show (if (':' : Char) = ':' then
      match parseVal fuel (' ' :: (printAt d v ++ rest)) with
      | some (w, r3) => some ((String.mk k.data, w), r3)
      | none => none
    else none) = some ((k, v), rest)
  rw [if_pos rfl, hv]

/-! ### The printer/parser round trip -/

lemma parse_print_good : ∀ fuel : ℕ,
    (∀ (v : Json) (d : ℕ) (pre rest : List Char), WsList pre → NumStop rest →
      pfuel v ≤ fuel →
      parseVal fuel (pre ++ (printAt d v ++ rest)) = some (v, rest)) ∧
    (∀ (vs : List Json) (d : ℕ) (acc : List Json) (rest : List Char),
      gfuel vs ≤ fuel →
      parseArrTail fuel acc
        (printItemsAfter (d + 1) vs ++ '\n' :: (indentChars d ++ ']' :: rest)) =
        some (Json.arr (acc ++ vs), rest)) ∧
    (∀ (kvs : List (String × Json)) (d : ℕ) (acc : List (String × Json))
        (rest : List Char),
      hfuel kvs ≤ fuel →
      parseObjTail fuel acc
        (printMembersAfter (d + 1) kvs ++
          '\n' :: (indentChars d ++ '\x7d' :: rest)) =
        some (Json.obj (acc ++ kvs), rest)) ∧
    (∀ (k : String) (v : Json) (d : ℕ) (pre rest : List Char),
      WsList pre → NumStop rest → 1 + pfuel v ≤ fuel →
      parseMember fuel (pre ++ ('"' :: (escapeList k.data ++ '"' :: ':' :: ' ' ::
        (printAt d v ++ rest)))) = some ((k, v), rest)) := by
  intro fuel
  induction fuel with
  | zero =>
      refine ⟨?_, ?_, ?_, ?_⟩
      · intro v d pre rest _ _ hb
        exact absurd hb (by have := pfuel_pos v; omega)
      · intro vs d acc rest hb
        exact absurd hb (by have := gfuel_pos vs; omega)
      · intro kvs d acc rest hb
        exact absurd hb (by have := hfuel_pos kvs; omega)
      · intro k v d pre rest _ _ hb
        exact absurd hb (by omega)
  | succ fuel ih =>
      obtain ⟨ihP, ihQ, ihH, ihM⟩ := ih
      refine ⟨?_, ?_, ?_, ?_⟩
      · intro v d pre rest hpre hrest hb
        rw [parseVal_ws fuel pre _ hpre]
        cases v with
        | null =>
            rw [show (printAt d Json.null ++ rest : List Char) =
              'n' :: 'u' :: 'l' :: 'l' :: rest from rfl]
            exact parseVal_null_step fuel rest
        | bool b =>
            cases b with
            | true =>
                rw [show (printAt d (Json.bool true) ++ rest : List Char) =
                  't' :: 'r' :: 'u' :: 'e' :: rest from rfl]
                exact parseVal_true_step fuel rest
            | false =>
                rw [show (printAt d (Json.bool false) ++ rest : List Char) =
                  'f' :: 'a' :: 'l' :: 's' :: 'e' :: rest from rfl]
                exact parseVal_false_step fuel rest
        | num m e =>
            obtain ⟨c, cs, heq, hdg⟩ := numPrint_head m e
            have hnws : isWsChar c = false := by
              rcases hdg with h | h
              · subst h; rfl
              · exact digit_not_ws c h
            have hq : c ≠ '"' := by
              rcases hdg with h | h
              · subst h; decide
              · exact digit_ne c '"' h rfl
            have hbr : c ≠ '[' := by
              rcases hdg with h | h
              · subst h; decide
              · exact digit_ne c '[' h rfl
            have hcb : c ≠ '\x7b' := by
              rcases hdg with h | h
              · subst h; decide
              · exact digit_ne c '\x7b' h rfl
            have hn : c ≠ 'n' := by
              rcases hdg with h | h
              · subst h; decide
              · exact digit_ne c 'n' h rfl
            have ht : c ≠ 't' := by
              rcases hdg with h | h
              · subst h; decide
              · exact digit_ne c 't' h rfl
            have hf : c ≠ 'f' := by
              rcases hdg with h | h
              · subst h; decide
              · exact digit_ne c 'f' h rfl
            rw [show printAt d (Json.num m e) = numPrint m e from rfl, heq,
              List.cons_append,
              parseVal_other_step fuel c _ hnws hq hbr hcb hn ht hf,
              ← List.cons_append, ← heq]
            exact parseNum_numPrint m e rest hrest
        | str s =>
            rw [show (printAt d (Json.str s) ++ rest : List Char) =
              '"' :: (escapeList s.data ++ '"' :: rest) from by
                rw [show printAt d (Json.str s) =
                  '"' :: (escapeList s.data ++ ['"']) from rfl]
                simp]
            rw [parseVal_str_step]
            have hlen : (escapeList s.data).length ≤
                (escapeList s.data ++ '"' :: rest).length := by
              rw [List.length_append]; omega
            rw [parseStrBody_escape s.data
              (escapeList s.data ++ '"' :: rest).length rest hlen]
        | arr l =>
            cases l with
            | nil =>
                rw [show (printAt d (Json.arr []) ++ rest : List Char) =
                  '[' :: ']' :: rest from rfl]
                exact parseVal_arrNil_step fuel rest
            | cons v vs =>
                have hbv : pfuel v ≤ fuel := by
                  rw [show pfuel (Json.arr (v :: vs)) =
                    1 + pfuel v + gfuel vs from rfl] at hb
                  have := gfuel_pos vs
                  omega
                have hbvs : gfuel vs ≤ fuel := by
                  rw [show pfuel (Json.arr (v :: vs)) =
                    1 + pfuel v + gfuel vs from rfl] at hb
                  have := pfuel_pos v
                  omega
                have hv0 := ihP v (d + 1) []
                  (printItemsAfter (d + 1) vs ++
                    '\n' :: (indentChars d ++ ']' :: rest))
                  (by intro x hx; simp at hx)
                  (numStop_items (d + 1) vs _) hbv
                rw [List.nil_append] at hv0
                have hq0 := ihQ vs d [v] rest hbvs
                rw [show ([v] ++ vs : List Json) = v :: vs from rfl] at hq0
                exact parseVal_arrCons_reduce fuel d v vs rest hv0 hq0
        | obj l =>
            cases l with
            | nil =>
                rw [show (printAt d (Json.obj []) ++ rest : List Char) =
                  '\x7b' :: '\x7d' :: rest from rfl]
                exact parseVal_objNil_step fuel rest
            | cons kv kvs =>
                have hbv : 1 + pfuel kv.snd ≤ fuel := by
                  rw [show pfuel (Json.obj (kv :: kvs)) =
                    1 + (1 + pfuel kv.snd) + hfuel kvs from rfl] at hb
                  have := hfuel_pos kvs
                  omega
                have hbks : hfuel kvs ≤ fuel := by
                  rw [show pfuel (Json.obj (kv :: kvs)) =
                    1 + (1 + pfuel kv.snd) + hfuel kvs from rfl] at hb
                  have := pfuel_pos kv.snd
                  omega
                have hm0 := ihM kv.fst kv.snd (d + 1) []
                  (printMembersAfter (d + 1) kvs ++
                    '\n' :: (indentChars d ++ '\x7d' :: rest))
                  (by intro x hx; simp at hx)
                  (numStop_members (d + 1) kvs _) hbv
                rw [List.nil_append] at hm0
                have hh0 := ihH kvs d [kv] rest hbks
                rw [show ([kv] ++ kvs : List (String × Json)) = kv :: kvs
                  from rfl] at hh0
                exact parseVal_objCons_reduce fuel d kv kvs rest hm0 hh0
      · intro vs d acc rest hb
        cases vs with
        | nil =>
            rw [show printItemsAfter (d + 1) [] ++
              '\n' :: (indentChars d ++ ']' :: rest) =
              '\n' :: (indentChars d ++ ']' :: rest) from by
                rw [show printItemsAfter (d + 1) [] = ([] : List Char) from rfl]
                simp]
            rw [List.append_nil]
            exact parseArrTail_close fuel acc d rest
        | cons w ws' =>
            have hbw : pfuel w ≤ fuel := by
              rw [show gfuel (w :: ws') = 1 + pfuel w + gfuel ws' from rfl] at hb
              have := gfuel_pos ws'
              omega
            have hbws : gfuel ws' ≤ fuel := by
              rw [show gfuel (w :: ws') = 1 + pfuel w + gfuel ws' from rfl] at hb
              have := pfuel_pos w
              omega
            have hw0 := ihP w (d + 1) ('\n' :: indentChars (d + 1))
              (printItemsAfter (d + 1) ws' ++
                '\n' :: (indentChars d ++ ']' :: rest))
              (wsList_newline_indent _) (numStop_items (d + 1) ws' _) hbw
            have hq0 := ihQ ws' d (acc ++ [w]) rest hbws
            rw [List.append_assoc] at hq0
            rw [show ([w] ++ ws' : List Json) = w :: ws' from rfl] at hq0
            exact parseArrTail_consume fuel d w ws' acc rest hw0 hq0
      · intro kvs d acc rest hb
        cases kvs with
        | nil =>
            rw [show printMembersAfter (d + 1) [] ++
              '\n' :: (indentChars d ++ '\x7d' :: rest) =
              '\n' :: (indentChars d ++ '\x7d' :: rest) from by
                rw [show printMembersAfter (d + 1) [] = ([] : List Char)
                  from rfl]
                simp]
            rw [List.append_nil]
            exact parseObjTail_close fuel acc d rest
        | cons kv kvs' =>
            have hbv : 1 + pfuel kv.snd ≤ fuel := by
              rw [show hfuel (kv :: kvs') =
                1 + (1 + pfuel kv.snd) + hfuel kvs' from rfl] at hb
              have := hfuel_pos kvs'
              omega
            have hbks : hfuel kvs' ≤ fuel := by
              rw [show hfuel (kv :: kvs') =
                1 + (1 + pfuel kv.snd) + hfuel kvs' from rfl] at hb
              have := pfuel_pos kv.snd
              omega
            have hm0 := ihM kv.fst kv.snd (d + 1) ('\n' :: indentChars (d + 1))
              (printMembersAfter (d + 1) kvs' ++
                '\n' :: (indentChars d ++ '\x7d' :: rest))
              (wsList_newline_indent _) (numStop_members (d + 1) kvs' _) hbv
            have hh0 := ihH kvs' d (acc ++ [kv]) rest hbks
            rw [List.append_assoc] at hh0
            rw [show ([kv] ++ kvs' : List (String × Json)) = kv :: kvs'
              from rfl] at hh0
            exact parseObjTail_consume fuel d kv kvs' acc rest hm0 hh0
      · intro k v d pre rest hpre hrest hb
        rw [parseMember_ws fuel pre _ hpre]
        have hv0 := ihP v d [' '] rest
          (by intro x hx
              simp at hx
              subst hx
              rfl)
          hrest (by omega)
        rw [List.singleton_append] at hv0
        exact parseMember_reduce fuel d k v rest hv0

/-! ### Fuel is dominated by printed length -/

lemma fuel_le_print_length : ∀ n : ℕ,
    (∀ v, pfuel v ≤ n → ∀ d, pfuel v ≤ (printAt d v).length) ∧
    (∀ vs, gfuel vs ≤ n → ∀ d,
      gfuel vs ≤ (printItemsAfter d vs).length + 1) ∧
    (∀ kvs, hfuel kvs ≤ n → ∀ d,
      hfuel kvs ≤ (printMembersAfter d kvs).length + 1) := by
  intro n
  induction n with
  | zero =>
      refine ⟨?_, ?_, ?_⟩
      · intro v hb
        exact absurd hb (by have := pfuel_pos v; omega)
      · intro vs hb
        exact absurd hb (by have := gfuel_pos vs; omega)
      · intro kvs hb
        exact absurd hb (by have := hfuel_pos kvs; omega)
  | succ n ih =>
      obtain ⟨ihP, ihQ, ihH⟩ := ih
      refine ⟨?_, ?_, ?_⟩
      · intro v hb d
        cases v with
        | null =>
            rw [show printAt d Json.null = 'n' :: 'u' :: 'l' :: 'l' :: []
              from rfl, show pfuel Json.null = 1 from rfl]
            simp
        | bool b =>
            cases b with
            | true =>
                rw [show printAt d (Json.bool true) =
                  't' :: 'r' :: 'u' :: 'e' :: [] from rfl,
                  show pfuel (Json.bool true) = 1 from rfl]
                simp
            | false =>
                rw [show printAt d (Json.bool false) =
                  'f' :: 'a' :: 'l' :: 's' :: 'e' :: [] from rfl,
                  show pfuel (Json.bool false) = 1 from rfl]
                simp
        | num m e =>
            obtain ⟨c, cs, heq, _⟩ := numPrint_head m e
            rw [show printAt d (Json.num m e) = numPrint m e from rfl, heq,
              show pfuel (Json.num m e) = 1 from rfl]
            simp
        | str s =>
            rw [show printAt d (Json.str s) =
              '"' :: (escapeList s.data ++ ['"']) from rfl,
              show pfuel (Json.str s) = 1 from rfl]
            simp
        | arr l =>
            cases l with
            | nil =>
                rw [show printAt d (Json.arr []) = '[' :: ']' :: [] from rfl,
                  show pfuel (Json.arr []) = 1 from rfl]
                simp
            | cons v vs =>
                have hre : pfuel (Json.arr (v :: vs)) =
                    1 + pfuel v + gfuel vs := rfl
                rw [hre] at hb
                have hbv : pfuel v ≤ n := by
                  have := gfuel_pos vs; omega
                have hbvs : gfuel vs ≤ n := by
                  have := pfuel_pos v; omega
                have h1 := ihP v hbv (d + 1)
                have h2 := ihQ vs hbvs (d + 1)
                rw [show printAt d (Json.arr (v :: vs)) =
                  '[' :: ('\n' :: (indentChars (d + 1) ++ printAt (d + 1) v ++
                    printItemsAfter (d + 1) vs ++
                    '\n' :: (indentChars d ++ [']']))) from rfl, hre]
                simp only [List.length_cons, List.length_append]
                omega
        | obj l =>
            cases l with
            | nil =>
                rw [show printAt d (Json.obj []) = '\x7b' :: '\x7d' :: []
                  from rfl, show pfuel (Json.obj []) = 1 from rfl]
                simp
            | cons kv kvs =>
                have hre : pfuel (Json.obj (kv :: kvs)) =
                    1 + (1 + pfuel kv.snd) + hfuel kvs := rfl
                rw [hre] at hb
                have hbv : pfuel kv.snd ≤ n := by
                  have := hfuel_pos kvs; omega
                have hbks : hfuel kvs ≤ n := by
                  have := pfuel_pos kv.snd; omega
                have h1 := ihP kv.snd hbv (d + 1)
                have h2 := ihH kvs hbks (d + 1)
                rw [show printAt d (Json.obj (kv :: kvs)) =
                  '\x7b' :: ('\n' :: (indentChars (d + 1) ++
                    ('"' :: (escapeList kv.fst.data ++ '"' :: ':' :: ' ' ::
                      printAt (d + 1) kv.snd)) ++
                    printMembersAfter (d + 1) kvs ++
                    '\n' :: (indentChars d ++ ['\x7d']))) from rfl, hre]
                simp only [List.length_cons, List.length_append]
                omega
      · intro vs hb d
        cases vs with
        | nil =>
            rw [show printItemsAfter d [] = ([] : List Char) from rfl,
              show gfuel ([] : List Json) = 1 from rfl]
            simp
        | cons w ws' =>
            have hre : gfuel (w :: ws') = 1 + pfuel w + gfuel ws' := rfl
            rw [hre] at hb
            have hbw : pfuel w ≤ n := by
              have := gfuel_pos ws'; omega
            have hbws : gfuel ws' ≤ n := by
              have := pfuel_pos w; omega
            have h1 := ihP w hbw d
            have h2 := ihQ ws' hbws d
            rw [show printItemsAfter d (w :: ws') =
              ',' :: '\n' :: (indentChars d ++ printAt d w) ++
                printItemsAfter d ws' from rfl, hre]
            simp only [List.length_cons, List.length_append]
            omega
      · intro kvs hb d
        cases kvs with
        | nil =>
            rw [show printMembersAfter d [] = ([] : List Char) from rfl,
              show hfuel ([] : List (String × Json)) = 1 from rfl]
            simp
        | cons kv kvs' =>
            have hre : hfuel (kv :: kvs') =
                1 + (1 + pfuel kv.snd) + hfuel kvs' := rfl
            rw [hre] at hb
            have hbv : pfuel kv.snd ≤ n := by
              have := hfuel_pos kvs'; omega
            have hbks : hfuel kvs' ≤ n := by
              have := pfuel_pos kv.snd; omega
            have h1 := ihP kv.snd hbv d
            have h2 := ihH kvs' hbks d
            rw [show printMembersAfter d (kv :: kvs') =
              ',' :: '\n' :: (indentChars d ++
                ('"' :: (escapeList kv.fst.data ++ '"' :: ':' :: ' ' ::
                  printAt d kv.snd))) ++
                printMembersAfter d kvs' from rfl, hre]
            simp only [List.length_cons, List.length_append]
            omega

/-- Parsing the pretty-printed form of any value recovers the value. -/
lemma jsonParse_print (v : Json) : jsonParse (jsonStringify v) = some v := by
  have hb := (fuel_le_print_length (pfuel v)).1 v (le_refl _) 0
  have henv := (parse_print_good ((printAt 0 v).length + 1)).1 v 0 [] []
    (by intro x hx; simp at hx) numStop_nil (by omega)
  rw [List.nil_append, List.append_nil] at henv
  rw [show jsonParse (jsonStringify v) =
    (match parseVal ((printAt 0 v).length + 1) (printAt 0 v) with
     | some (w, rest) => if skipWs rest = [] then some w else none
     | none => none) from rfl]
  rw [henv]
  rfl

/-- C8: the JSON export round-trips losslessly — parsing the string
produced by `exportToJSON` and projecting the `layout` field yields
exactly the original layout value, for every JSON-representable layout
and metadata and any timestamp. -/
theorem c8_layout_roundtrip (layout metadata : Json) (ts : String) :
    (jsonParse (exportToJSON layout metadata ts)).bind
      (fun v => getField v "layout") = some layout := by
  rw [show exportToJSON layout metadata ts =
    jsonStringify (Json.obj
      [("version", Json.str "1.0"), ("exportedAt", Json.str ts),
       ("metadata", metadata), ("layout", layout)]) from rfl]
  rw [jsonParse_print]
  rfl

end ArchFlow
